import Mathlib

/-! # VectorIO (lib/vector_io.cpp): loading, saving and down-precision of vector collections

A shallow embedding of `lib/vector_io.cpp`.  Field handles (`ColorSpinorField *`) are
indices into a table of field descriptors; the storage of a field is a buffer of reals
kept in a memory indexed by base address, so that an alias shares its storage with the
field it was made from.  `errorQuda` aborts: an operation returns the error together
with the state reached at the abort.
-/

namespace quda

/-! ## Enumerations and the field descriptor (boundary types) -/

/-- Modelled from the spec: the memory location of a field (enum_quda.h is not under
src/): host or device. -/
inductive QudaFieldLocation where
  | QUDA_CPU_FIELD_LOCATION
  | QUDA_CUDA_FIELD_LOCATION
deriving DecidableEq, Repr

/-- Modelled from the spec: the site subset of a field (enum_quda.h is not under src/):
single parity or full lattice. -/
inductive QudaSiteSubset where
  | QUDA_PARITY_SITE_SUBSET
  | QUDA_FULL_SITE_SUBSET
deriving DecidableEq, Repr

/-- Modelled from the spec: the suggested parity tag of a field (enum_quda.h is not
under src/): even, odd or unspecified. -/
inductive QudaParity where
  | QUDA_EVEN_PARITY
  | QUDA_ODD_PARITY
  | QUDA_INVALID_PARITY
deriving DecidableEq, Repr

/-- Modelled from the spec: the numeric precision of a field (enum_quda.h is not under
src/); the value of a precision is the byte width of one real. -/
inductive QudaPrecision where
  | QUDA_QUARTER_PRECISION
  | QUDA_HALF_PRECISION
  | QUDA_SINGLE_PRECISION
  | QUDA_DOUBLE_PRECISION
deriving DecidableEq, Repr

/-- The integer value of a precision: the byte width of one real. -/
def QudaPrecision.toNat : QudaPrecision → Nat
  | QUDA_QUARTER_PRECISION => 1
  | QUDA_HALF_PRECISION => 2
  | QUDA_SINGLE_PRECISION => 4
  | QUDA_DOUBLE_PRECISION => 8

/-- Modelled from the spec: the creation mode of a parameter block (enum_quda.h is not
under src/): uninitialised, zeroed, or a reference alias over existing storage. -/
inductive QudaFieldCreate where
  | QUDA_NULL_FIELD_CREATE
  | QUDA_ZERO_FIELD_CREATE
  | QUDA_REFERENCE_FIELD_CREATE
deriving DecidableEq, Repr

/-- Modelled from the spec: the field order of a parameter block (enum_quda.h is not
under src/); only the order the source assigns is named, the others are numbered. -/
inductive QudaFieldOrder where
  | QUDA_SPACE_SPIN_COLOR_FIELD_ORDER
  | other (k : Nat)
deriving DecidableEq, Repr

/-- One stored real number. -/
abbrev Val := Int

/-- Modelled from the spec: the parameter block `ColorSpinorParam`
(color_spinor_field.h is not under src/), with the attributes vector_io.cpp reads or
writes. -/
structure ColorSpinorParam where
  location : QudaFieldLocation
  precision : QudaPrecision
  siteSubset : QudaSiteSubset
  nDim : Nat
  x : List Nat
  nColor : Nat
  nSpin : Nat
  suggested_parity : QudaParity
  fieldOrder : QudaFieldOrder
  create : QudaFieldCreate
deriving DecidableEq, Repr

/-- The extent `x[d]`; the extent array has a fixed size in the source, entries that
are not listed read as 0. -/
def ColorSpinorParam.X (p : ColorSpinorParam) (d : Nat) : Nat := p.x.getD d 0

/-- The product `x[0] * ... * x[n-1]` of the first `n` extents of `x`. -/
def extentProd (x : List Nat) : Nat → Nat
  | 0 => 1
  | n + 1 => extentProd x n * x.getD n 0

/-- Modelled from the spec: `Volume()`, the number of stored sites, the product of the
first `nDim` extents (for a single-parity field `x[0]` is already halved). -/
def ColorSpinorParam.Volume (p : ColorSpinorParam) : Nat := extentProd p.x p.nDim

/-- The number of reals a field stores: volume × colors × spins × 2. -/
def ColorSpinorParam.Length (p : ColorSpinorParam) : Nat :=
  p.Volume * p.nColor * p.nSpin * 2

/-- The statement `csParam.x[0] *= 2`. -/
def doubleX0 (x : List Nat) : List Nat := (x.headD 0 * 2) :: x.tail

/-- Modelled from the spec: `csParam.setPrecision(p)`, the precision mutator. -/
def ColorSpinorParam.setPrecision (p : ColorSpinorParam) (prec : QudaPrecision) :
    ColorSpinorParam :=
  { p with precision := prec }

/-- Modelled from the spec: a field descriptor `ColorSpinorField`
(color_spinor_field.h is not under src/): its attributes and `v`, the base address of
its storage, returned by `V()`. -/
structure ColorSpinorField where
  param : ColorSpinorParam
  v : Nat
deriving DecidableEq, Repr

/-- Modelled from the spec: `ColorSpinorParam csParam(field)`, the parameter block
filled from a field; its creation mode is the default, uninitialised. -/
def ColorSpinorParam.ofField (f : ColorSpinorField) : ColorSpinorParam :=
  { f.param with create := QudaFieldCreate.QUDA_NULL_FIELD_CREATE }

/-! ## Errors, external calls, the state -/

/-- The fatal errors: one constructor per `errorQuda` of vector_io.cpp, then the faults
of the embedding (an invalid handle or index, a division by zero, and the parity
sub-view of a field that is not full). -/
inductive QudaError where
  | noEigenspaceFile
  | qioNotBuilt
  | mustHave12 (n : Nat)
  | unexpectedDim (d : Nat)
  | parityLoad
  | paritySave
  | downPrec (src : QudaPrecision) (dst : QudaPrecision)
  | badAccess
  | divByZero
  | noParityView
deriving DecidableEq, Repr

/-- The four entry points of the external file library (qio_field.h). -/
inductive QioRoutine where
  | read_spinor_field
  | read_propagator_field
  | write_spinor_field
  | write_propagator_field
deriving DecidableEq, Repr

/-- One call of an external reader or writer: the arguments passed, and `mem`, the
memory the routine sees through the pointers at that moment. -/
structure QioCall where
  routine : QioRoutine
  filename : String
  V : List Nat
  precision : QudaPrecision
  X : List Nat
  siteSubset : QudaSiteSubset
  parity : QudaParity
  nColor : Nat
  nSpin : Nat
  Nvec : Nat
  mem : List (Nat × List Val)
deriving DecidableEq, Repr

/-- The state the operations run in.  `fields` is the table of field descriptors (a
handle is an index, `none` once deleted), `mem` the storage (base address and reals),
`brk` the next free address, `uninit` the content of uninitialised storage,
`released` the handles deleted so far (latest first), `files` the external store and
`calls` the external calls made so far (latest first). -/
structure World where
  fields : List (Option ColorSpinorField)
  mem : List (Nat × List Val)
  brk : Nat
  uninit : Val
  released : List Nat
  files : List (String × List (List Val))
  calls : List QioCall
deriving DecidableEq, Repr

/-- The descriptor behind handle `h`, if `h` is a live field. -/
def World.field (w : World) (h : Nat) : Option ColorSpinorField := w.fields.getD h none

/-- The buffer stored at base address `a` (empty if there is none). -/
def memGet : List (Nat × List Val) → Nat → List Val
  | [], _ => []
  | (b, buf) :: m, a => if b = a then buf else memGet m a

/-- Replace the buffer stored at base address `a` (it is added if there is none). -/
def memSet : List (Nat × List Val) → Nat → List Val → List (Nat × List Val)
  | [], a, new => [(a, new)]
  | (b, buf) :: m, a, new => if b = a then (b, new) :: m else (b, buf) :: memSet m a new

/-- The contents of the field behind handle `h`: the buffer at its base address. -/
def World.data (w : World) (h : Nat) : List Val :=
  match w.field h with
  | some f => memGet w.mem f.v
  | none => []

/-- A computation on the state that may abort with an error. -/
def M (α : Type) : Type := World → Except QudaError α × World

/-- Return a value. -/
def M.pure {α : Type} (a : α) : M α := fun w => (Except.ok a, w)

/-- Sequence two computations; an abort stops the sequence. -/
def M.bind {α β : Type} (m : M α) (f : α → M β) : M β := fun w =>
  match m w with
  | (Except.ok a, w1) => f a w1
  | (Except.error e, w1) => (Except.error e, w1)

instance : Monad M where
  pure := M.pure
  bind := M.bind

/-- The call `errorQuda(...)`: abort with the error. -/
def errorQuda {α : Type} (e : QudaError) : M α := fun w => (Except.error e, w)

/-- The element `xs[i]` of a collection; out of range is a fault. -/
def index (xs : List Nat) (i : Nat) : M Nat := fun w =>
  match xs.get? i with
  | some h => (Except.ok h, w)
  | none => (Except.error QudaError.badAccess, w)

/-- The dereference `*h` of a handle; a handle that is not a live field is a fault. -/
def deref (h : Nat) : M ColorSpinorField := fun w =>
  match w.field h with
  | some f => (Except.ok f, w)
  | none => (Except.error QudaError.badAccess, w)

/-- The state after a field with the attributes of `p` has been allocated: a new
descriptor at the end of the table, over a fresh buffer of `p.Length` reals at `brk`,
zeroed for the zero creation mode and uninitialised otherwise. -/
def World.alloc (w : World) (p : ColorSpinorParam) : World :=
  let init : Val := match p.create with
    | QudaFieldCreate.QUDA_ZERO_FIELD_CREATE => 0
    | _ => w.uninit
  { w with
    fields := w.fields ++ [some { param := p, v := w.brk }]
    mem := (w.brk, List.replicate p.Length init) :: w.mem
    brk := w.brk + p.Length * p.precision.toNat + 1 }

/-- Modelled from the spec: `ColorSpinorField::Create(csParam)` (color_spinor_field.h is
not under src/): a new descriptor with the attributes of `p` over fresh storage of
`p.Length` reals, zeroed for the zero creation mode and uninitialised otherwise; the
new handle is returned. -/
def Create (p : ColorSpinorParam) : M Nat := fun w => (Except.ok w.fields.length, w.alloc p)

/-- The alias of the field `f` with the attributes of `p`: a descriptor in reference
mode over the storage of `f`. -/
def aliasOf (f : ColorSpinorField) (p : ColorSpinorParam) : ColorSpinorField :=
  { param := { p with create := QudaFieldCreate.QUDA_REFERENCE_FIELD_CREATE }, v := f.v }

/-- The state after the descriptor `f` has been added at the end of the table. -/
def World.push (w : World) (f : ColorSpinorField) : World :=
  { w with fields := w.fields ++ [some f] }

/-- Modelled from the spec: `field->CreateAlias(param)` (color_spinor_field.h is not
under src/): a new descriptor with the attributes of `p` in reference mode over the
storage of the field behind `h`; no storage is allocated. -/
def CreateAlias (h : Nat) (p : ColorSpinorParam) : M Nat := fun w =>
  match w.field h with
  | some f => (Except.ok w.fields.length, w.push (aliasOf f p))
  | none => (Except.error QudaError.badAccess, w)

/-- The state after handle `h` has been released. -/
def World.free (w : World) (h : Nat) : World :=
  { w with fields := w.fields.set h none, released := h :: w.released }

/-- The statement `delete h`: the handle is released; a handle that is not a live
field is a fault. -/
def delete (h : Nat) : M Unit := fun w =>
  match w.field h with
  | some _ => (Except.ok (), w.free h)
  | none => (Except.error QudaError.badAccess, w)

/-! ## The external copy primitives (boundary) -/

/-- A region of storage: `len` reals from offset `off` of the buffer at `base`. -/
structure View where
  base : Nat
  off : Nat
  len : Nat
deriving DecidableEq, Repr

/-- The whole storage of a field. -/
def whole (f : ColorSpinorField) : View := { base := f.v, off := 0, len := f.param.Length }

/-- Modelled from the spec: the sub-view accessor `field->Even()` (color_spinor_field.h
is not under src/): the first half of the storage of a full-lattice field.  A field
that is not full has no parity sub-view: asking for one is a fault of the embedding
(`noParityView`), like the dereference of an invalid handle. -/
def Even (h : Nat) : M View := fun w =>
  match w.field h with
  | some f =>
    if f.param.siteSubset = QudaSiteSubset.QUDA_FULL_SITE_SUBSET then
      (Except.ok { base := f.v, off := 0, len := f.param.Length / 2 }, w)
    else (Except.error QudaError.noParityView, w)
  | none => (Except.error QudaError.badAccess, w)

/-- Modelled from the spec: the sub-view accessor `field->Odd()` (color_spinor_field.h
is not under src/): the second half of the storage of a full-lattice field. -/
def Odd (h : Nat) : M View := fun w =>
  match w.field h with
  | some f =>
    if f.param.siteSubset = QudaSiteSubset.QUDA_FULL_SITE_SUBSET then
      (Except.ok { base := f.v, off := f.param.Length / 2, len := f.param.Length / 2 }, w)
    else (Except.error QudaError.noParityView, w)
  | none => (Except.error QudaError.badAccess, w)

/-- The reals of a region. -/
def readView (mem : List (Nat × List Val)) (s : View) : List Val :=
  ((memGet mem s.base).drop s.off).take s.len

/-- The state after the reals of the region `src` have replaced those of the region
`dst`. -/
def World.blit (w : World) (dst src : View) : World :=
  let vals := (readView w.mem src).take dst.len
  let buf := memGet w.mem dst.base
  let new := buf.take dst.off ++ vals ++ buf.drop (dst.off + dst.len)
  { w with mem := memSet w.mem dst.base new }

/-- Modelled from the spec: `blas::copy(dst, src)` (blas_quda.h is not under src/): the
reals of the source region replace those of the destination region.  The values are
transferred as they are; rounding on a change of precision is outside the model. -/
def copy (dst src : View) : M Unit := fun w => (Except.ok (), w.blit dst src)

/-- Modelled from the spec: the field assignment `*dst = *src`
(color_spinor_field.h is not under src/): the contents of the source replace those of
the destination, whose attributes are kept. -/
def assign (dst src : Nat) : M Unit := do
  let d ← deref dst
  let s ← deref src
  copy (whole d) (whole s)

/-- The chain `if (spinor_parity == QUDA_EVEN_PARITY) ... Even() else if (spinor_parity
== QUDA_ODD_PARITY) ... Odd() else errorQuda(...)`: the half of the field behind `h`
that the suggested parity selects. -/
def parityView (spinor_parity : QudaParity) (h : Nat) (e : QudaError) : M View :=
  match spinor_parity with
  | QudaParity.QUDA_EVEN_PARITY => Even h
  | QudaParity.QUDA_ODD_PARITY => Odd h
  | QudaParity.QUDA_INVALID_PARITY => errorQuda e

/-! ## The external file library (boundary) -/

/-- The number of reals of one 4-d member with extents `X`. -/
def chunkLen (X : List Nat) (nColor nSpin : Nat) : Nat := extentProd X 4 * nColor * nSpin * 2

/-- The `n` reals found at address `p`, inside the buffer that contains `p`. -/
def memRead (prec : Nat) (p n : Nat) : List (Nat × List Val) → List Val
  | [] => []
  | (b, buf) :: m =>
    if b ≤ p ∧ p < b + buf.length * prec then (buf.drop ((p - b) / prec)).take n
    else memRead prec p n m

/-- Store the reals `vals` at address `p`, inside the buffer that contains `p`. -/
def memWrite (prec : Nat) (p : Nat) (vals : List Val) :
    List (Nat × List Val) → List (Nat × List Val)
  | [] => []
  | (b, buf) :: m =>
    if b ≤ p ∧ p < b + buf.length * prec then
      (b, buf.take ((p - b) / prec) ++ vals ++ buf.drop ((p - b) / prec + vals.length)) :: m
    else (b, buf) :: memWrite prec p vals m

/-- Store one chunk per pointer. -/
def memWriteAll (prec : Nat) : List Nat → List (List Val) →
    List (Nat × List Val) → List (Nat × List Val)
  | p :: ps, c :: cs, m => memWriteAll prec ps cs (memWrite prec p c m)
  | _, _, m => m

/-- Whether the routine is one of the two readers. -/
def QioRoutine.isRead : QioRoutine → Bool
  | read_spinor_field => true
  | read_propagator_field => true
  | _ => false

/-- The number of 4-d members a routine transfers for the count `Nvec` it is passed:
`Nvec` fields, or `Nvec` propagators of 12 fields each. -/
def QioRoutine.members (r : QioRoutine) (Nvec : Nat) : Nat :=
  match r with
  | read_spinor_field => Nvec
  | write_spinor_field => Nvec
  | read_propagator_field => 12 * Nvec
  | write_propagator_field => 12 * Nvec

/-- The state after the external call `c`: a reader puts the reals last recorded under
the filename back at the pointers, a writer records under the filename the reals of
each 4-d member found at its pointer; the call is logged. -/
def World.transfer (w : World) (c : QioCall) : World :=
  let ptrs := c.V.take (c.routine.members c.Nvec)
  if c.routine.isRead then
    { w with
      mem := memWriteAll c.precision.toNat ptrs ((w.files.lookup c.filename).getD []) w.mem
      calls := c :: w.calls }
  else
    { w with
      files := (c.filename,
        ptrs.map (fun p => memRead c.precision.toNat p (chunkLen c.X c.nColor c.nSpin) w.mem))
          :: w.files
      calls := c :: w.calls }

/-- Modelled from the spec: the external readers and writers `read_spinor_field`,
`read_propagator_field`, `write_spinor_field`, `write_propagator_field` (qio_field.h
is not under src/), as a store: a writer records under the filename the reals of
each 4-d member found at its pointer, a reader puts the reals last recorded under
the filename back at the pointers.  The call is logged with its arguments. -/
def qio (routine : QioRoutine) (filename : String) (V : List Nat) (precision : QudaPrecision)
    (X : List Nat) (siteSubset : QudaSiteSubset) (parity : QudaParity)
    (nColor nSpin Nvec : Nat) : M Unit := fun w =>
  (Except.ok (),
    w.transfer
      { routine := routine, filename := filename, V := V, precision := precision, X := X,
        siteSubset := siteSubset, parity := parity, nColor := nColor, nSpin := nSpin,
        Nvec := Nvec, mem := w.mem })

/-! ## VectorIO -/

/-- The members of `VectorIO`: the filename and the parity-inflate flag. -/
structure VectorIO where
  filename : String
  parity_inflate : Bool
deriving DecidableEq, Repr

namespace VectorIO

/-- The constructor (lines 9-18): an empty filename is an error. -/
def create (filename : String) (parity_inflate : Bool) : Except QudaError VectorIO :=
  if filename = "" then Except.error QudaError.noEigenspaceFile
  else Except.ok { filename := filename, parity_inflate := parity_inflate }

/-- The expression `Precision() < QUDA_SINGLE_PRECISION ? QUDA_SINGLE_PRECISION :
Precision()` (lines 32, 80, 229). -/
def hostPrecision (p : QudaPrecision) : QudaPrecision :=
  if p.toNat < QudaPrecision.QUDA_SINGLE_PRECISION.toNat then
    QudaPrecision.QUDA_SINGLE_PRECISION
  else p

/-- The statements `csParam.x[0] *= 2; csParam.siteSubset = QUDA_FULL_SITE_SUBSET;`. -/
def inflate (p : ColorSpinorParam) : ColorSpinorParam :=
  { p with x := doubleX0 p.x, siteSubset := QudaSiteSubset.QUDA_FULL_SITE_SUBSET }

/-- The loop `for (i < Nvec) tmp.push_back(ColorSpinorField::Create(csParam))`
(lines 39, 45). -/
def createLoop (csParam : ColorSpinorParam) : Nat → M (List Nat)
  | 0 => pure []
  | n + 1 => do
    let t ← Create csParam
    let ts ← createLoop csParam n
    pure (t :: ts)

/-- The staging step of `load` (lines 27-49): the collection `tmp`. -/
def loadStage (vio : VectorIO) (vecs : List Nat) : M (List Nat) := do
  let h0 ← index vecs 0
  let v0 ← deref h0
  if v0.param.location = QudaFieldLocation.QUDA_CUDA_FIELD_LOCATION then
    let csParam := ColorSpinorParam.ofField v0
    let csParam := { csParam with
      fieldOrder := QudaFieldOrder.QUDA_SPACE_SPIN_COLOR_FIELD_ORDER }
    let csParam := csParam.setPrecision (hostPrecision v0.param.precision)
    let csParam := { csParam with
      location := QudaFieldLocation.QUDA_CPU_FIELD_LOCATION
      create := QudaFieldCreate.QUDA_NULL_FIELD_CREATE }
    if csParam.siteSubset = QudaSiteSubset.QUDA_PARITY_SITE_SUBSET
        ∧ vio.parity_inflate = true then
      createLoop (inflate csParam) vecs.length
    else
      createLoop csParam vecs.length
  else
    let csParam := ColorSpinorParam.ofField v0
    if csParam.siteSubset = QudaSiteSubset.QUDA_PARITY_SITE_SUBSET
        ∧ vio.parity_inflate = true then
      createLoop (inflate csParam) vecs.length
    else
      pure vecs

/-- The inner loop of line 58: `for (j < Ls) V[i * Ls + j] = base + j * stride`, run
for `j` below the counter. -/
def fillInner (i Ls base stride : Nat) : Nat → List Nat → List Nat
  | 0, V => V
  | j + 1, V => (fillInner i Ls base stride j V).set (i * Ls + j) (base + j * stride)

/-- The outer loop of lines 57-59 over the staged handles, from row `i` on. -/
def fillV (Ls stride : Nat) : List Nat → Nat → List Nat → M (List Nat)
  | [], _, V => pure V
  | t :: ts, i, V => do
    let f ← deref t
    fillV Ls stride ts (i + 1) (fillInner i Ls f.v stride Ls V)

/-- The batch-member count passed to a routine: `Nvec * Ls` to the field routines
(lines 62, 298), `Nvec / 12` to the propagator routines (lines 162, 396). -/
def batchCount (routine : QioRoutine) (Nvec Ls : Nat) : Nat :=
  match routine with
  | QioRoutine.read_spinor_field => Nvec * Ls
  | QioRoutine.write_spinor_field => Nvec * Ls
  | QioRoutine.read_propagator_field => Nvec / 12
  | QioRoutine.write_propagator_field => Nvec / 12

/-- The flattening step and the external call (lines 51-67, 151-167, 287-303,
385-401).  The array `V` comes from `safe_malloc` and every entry of it is assigned
before the call. -/
def flattenCall (vio : VectorIO) (routine : QioRoutine) (vecs tmp : List Nat)
    (spinor_parity : QudaParity) : M Unit := do
  let h0 ← index vecs 0
  let v0 ← deref h0
  if v0.param.nDim = 4 ∨ v0.param.nDim = 5 then
    let t0h ← index tmp 0
    let t0 ← deref t0h
    let Ls := if v0.param.nDim = 5 then t0.param.X 4 else 1
    if Ls = 0 then errorQuda QudaError.divByZero
    else
      let V4 := t0.param.Volume / Ls
      let stride := V4 * t0.param.nColor * t0.param.nSpin * 2 * t0.param.precision.toNat
      let V ← fillV Ls stride tmp 0 (List.replicate (vecs.length * Ls) 0)
      qio routine vio.filename V t0.param.precision t0.param.x t0.param.siteSubset
        spinor_parity t0.param.nColor t0.param.nSpin (batchCount routine vecs.length Ls)
  else
    errorQuda (QudaError.unexpectedDim v0.param.nDim)

/-- The loop of lines 73-76: `*vecs[i] = *tmp[i]; delete tmp[i];`. -/
def copyBackLoop : List Nat → List Nat → M Unit
  | v :: vs, t :: ts => do
    assign v t
    delete t
    copyBackLoop vs ts
  | _, _ => pure ()

/-- The loop of lines 86-96: the selected half of `tmp[i]` goes to the intermediate
field, which is assigned to `vecs[i]`; then `tmp[i]` is deleted. -/
def deflateLoop (spinor_parity : QudaParity) (tmp_intermediate : Nat) :
    List Nat → List Nat → M Unit
  | v :: vs, t :: ts => do
    let e ← parityView spinor_parity t QudaError.parityLoad
    let d ← deref tmp_intermediate
    copy (whole d) e
    assign v tmp_intermediate
    delete t
    deflateLoop spinor_parity tmp_intermediate vs ts
  | _, _ => pure ()

/-- The loop of lines 101-110: the selected half of `tmp[i]` is copied to `vecs[i]`;
then `tmp[i]` is deleted. -/
def hostDeflateLoop (spinor_parity : QudaParity) : List Nat → List Nat → M Unit
  | v :: vs, t :: ts => do
    let e ← parityView spinor_parity t QudaError.parityLoad
    let d ← deref v
    copy (whole d) e
    delete t
    hostDeflateLoop spinor_parity vs ts
  | _, _ => pure ()

/-- The reconcile step of `load` (lines 69-111). -/
def loadReconcile (vio : VectorIO) (vecs tmp : List Nat) (spinor_parity : QudaParity) :
    M Unit := do
  let h0 ← index vecs 0
  let v0 ← deref h0
  if v0.param.location = QudaFieldLocation.QUDA_CUDA_FIELD_LOCATION then
    let csParam := ColorSpinorParam.ofField v0
    if csParam.siteSubset = QudaSiteSubset.QUDA_FULL_SITE_SUBSET
        ∨ vio.parity_inflate = false then
      copyBackLoop vecs tmp
    else
      let csParam := { csParam with
        fieldOrder := QudaFieldOrder.QUDA_SPACE_SPIN_COLOR_FIELD_ORDER }
      let csParam := csParam.setPrecision (hostPrecision v0.param.precision)
      let csParam := { csParam with
        location := QudaFieldLocation.QUDA_CPU_FIELD_LOCATION
        create := QudaFieldCreate.QUDA_NULL_FIELD_CREATE }
      let tmp_intermediate ← Create csParam
      deflateLoop spinor_parity tmp_intermediate vecs tmp
      delete tmp_intermediate
  else if v0.param.location = QudaFieldLocation.QUDA_CPU_FIELD_LOCATION
      ∧ v0.param.siteSubset = QudaSiteSubset.QUDA_PARITY_SITE_SUBSET then
    hostDeflateLoop spinor_parity vecs tmp
  else
    pure ()

/-- The body shared by `load` (lines 23-113) and `loadProp` (lines 123-213), which
differ in the reader they call and the count they pass. -/
def loadBody (vio : VectorIO) (routine : QioRoutine) (vecs : List Nat) : M Unit := do
  let h0 ← index vecs 0
  let v0 ← deref h0
  let spinor_parity := v0.param.suggested_parity
  let tmp ← loadStage vio vecs
  flattenCall vio routine vecs tmp spinor_parity
  loadReconcile vio vecs tmp spinor_parity

/-- `VectorIO::load` (lines 20-117). -/
def load ( HAVE_QIO : Bool) (vio : VectorIO) (vecs : List Nat) : M Unit :=
  if HAVE_QIO then loadBody vio QioRoutine.read_spinor_field vecs
  else errorQuda QudaError.qioNotBuilt

/-- `VectorIO::loadProp` (lines 119-217). -/
def loadProp ( HAVE_QIO : Bool) (vio : VectorIO) (vecs : List Nat) : M Unit :=
  if HAVE_QIO then
    if vecs.length ≠ 12 then errorQuda (QudaError.mustHave12 vecs.length)
    else loadBody vio QioRoutine.read_propagator_field vecs
  else errorQuda QudaError.qioNotBuilt

/-- The loop of lines 235-238: `tmp.push_back(Create(csParam)); *tmp[i] = *vecs[i];`. -/
def copyInLoop (csParam : ColorSpinorParam) : List Nat → M (List Nat)
  | [] => pure []
  | v :: vs => do
    let t ← Create csParam
    assign t v
    let ts ← copyInLoop csParam vs
    pure (t :: ts)

/-- The loop of lines 248-262: a zeroed full field is pushed, `vecs[i]` is assigned to
the intermediate field, which is copied into the selected half. -/
def inflateLoopDevice (csParam : ColorSpinorParam) (spinor_parity : QudaParity)
    (tmp_intermediate : Nat) : List Nat → M (List Nat)
  | [] => pure []
  | v :: vs => do
    let t ← Create csParam
    assign tmp_intermediate v
    let e ← parityView spinor_parity t QudaError.paritySave
    let s ← deref tmp_intermediate
    copy e (whole s)
    let ts ← inflateLoopDevice csParam spinor_parity tmp_intermediate vs
    pure (t :: ts)

/-- The loop of lines 271-279: a zeroed full field is pushed and `vecs[i]` is copied
into the selected half. -/
def inflateLoopHost (csParam : ColorSpinorParam) (spinor_parity : QudaParity) :
    List Nat → M (List Nat)
  | [] => pure []
  | v :: vs => do
    let t ← Create csParam
    let e ← parityView spinor_parity t QudaError.paritySave
    let s ← deref v
    copy e (whole s)
    let ts ← inflateLoopHost csParam spinor_parity vs
    pure (t :: ts)

/-- The staging step of `save` (lines 222-283): the collection `tmp`. -/
def saveStage (vio : VectorIO) (vecs : List Nat) (spinor_parity : QudaParity) :
    M (List Nat) := do
  let h0 ← index vecs 0
  let v0 ← deref h0
  if v0.param.location = QudaFieldLocation.QUDA_CUDA_FIELD_LOCATION then
    let csParam := ColorSpinorParam.ofField v0
    let csParam := { csParam with
      fieldOrder := QudaFieldOrder.QUDA_SPACE_SPIN_COLOR_FIELD_ORDER }
    let csParam := csParam.setPrecision (hostPrecision v0.param.precision)
    let csParam := { csParam with location := QudaFieldLocation.QUDA_CPU_FIELD_LOCATION }
    if csParam.siteSubset = QudaSiteSubset.QUDA_FULL_SITE_SUBSET
        ∨ vio.parity_inflate = false then
      let csParam := { csParam with create := QudaFieldCreate.QUDA_NULL_FIELD_CREATE }
      copyInLoop csParam vecs
    else
      let csParam := { csParam with create := QudaFieldCreate.QUDA_NULL_FIELD_CREATE }
      let tmp_intermediate ← Create csParam
      let csParam := { inflate csParam with
        create := QudaFieldCreate.QUDA_ZERO_FIELD_CREATE }
      let tmp ← inflateLoopDevice csParam spinor_parity tmp_intermediate vecs
      delete tmp_intermediate
      pure tmp
  else
    let csParam := ColorSpinorParam.ofField v0
    if csParam.siteSubset = QudaSiteSubset.QUDA_PARITY_SITE_SUBSET
        ∧ vio.parity_inflate = true then
      let csParam := { inflate csParam with
        create := QudaFieldCreate.QUDA_ZERO_FIELD_CREATE }
      inflateLoopHost csParam spinor_parity vecs
    else
      pure vecs

/-- The loop `for (i < Nvec) delete tmp[i]` (lines 308, 406). -/
def deleteLoop : List Nat → M Unit
  | [] => pure ()
  | t :: ts => do
    delete t
    deleteLoop ts

/-- The release step of `save` (lines 306-309). -/
def saveRelease (vecs tmp : List Nat) : M Unit := do
  let h0 ← index vecs 0
  let v0 ← deref h0
  if v0.param.location = QudaFieldLocation.QUDA_CUDA_FIELD_LOCATION
      ∨ (v0.param.location = QudaFieldLocation.QUDA_CPU_FIELD_LOCATION
        ∧ v0.param.siteSubset = QudaSiteSubset.QUDA_PARITY_SITE_SUBSET) then
    deleteLoop tmp
  else
    pure ()

/-- The body shared by `save` (lines 222-309) and `saveProp` (lines 320-407), which
differ in the writer they call and the count they pass. -/
def saveBody (vio : VectorIO) (routine : QioRoutine) (vecs : List Nat) : M Unit := do
  let h0 ← index vecs 0
  let v0 ← deref h0
  let spinor_parity := v0.param.suggested_parity
  let tmp ← saveStage vio vecs spinor_parity
  flattenCall vio routine vecs tmp spinor_parity
  saveRelease vecs tmp

/-- `VectorIO::save` (lines 219-313). -/
def save ( HAVE_QIO : Bool) (vio : VectorIO) (vecs : List Nat) : M Unit :=
  if HAVE_QIO then saveBody vio QioRoutine.write_spinor_field vecs
  else errorQuda QudaError.qioNotBuilt

/-- `VectorIO::saveProp` (lines 315-411). -/
def saveProp ( HAVE_QIO : Bool) (vio : VectorIO) (vecs : List Nat) : M Unit :=
  if HAVE_QIO then
    if vecs.length ≠ 12 then errorQuda (QudaError.mustHave12 vecs.length)
    else saveBody vio QioRoutine.write_propagator_field vecs
  else errorQuda QudaError.qioNotBuilt

/-- The loop of lines 423-425: `vecs_low_prec.push_back(vecs_high_prec[i]->
CreateAlias(csParamClone))`.  The output collection is threaded next to the state, so
that it is there at an abort too. -/
def aliasLoop (csParamClone : ColorSpinorParam) :
    List Nat → List Nat → World → Except QudaError Unit × List Nat × World
  | [], out, w => (Except.ok (), out, w)
  | v :: vs, out, w =>
    match CreateAlias v csParamClone w with
    | (Except.ok a, w1) => aliasLoop csParamClone vs (out ++ [a]) w1
    | (Except.error e, w1) => (Except.error e, out, w1)

/-- `VectorIO::downPrec` (lines 413-430): the result, the output collection
`vecs_low_prec` after the call, and the state after the call. -/
def downPrec (vecs_high_prec vecs_low_prec : List Nat) (low_prec : QudaPrecision)
    (w : World) : Except QudaError Unit × List Nat × World :=
  match (index vecs_high_prec 0 >>= deref) w with
  | (Except.error e, w1) => (Except.error e, vecs_low_prec, w1)
  | (Except.ok v0, w1) =>
    if low_prec.toNat ≥ v0.param.precision.toNat then
      (Except.error (QudaError.downPrec v0.param.precision low_prec), vecs_low_prec, w1)
    else
      let csParamClone := ColorSpinorParam.ofField v0
      let csParamClone := { csParamClone with
        create := QudaFieldCreate.QUDA_REFERENCE_FIELD_CREATE }
      let csParamClone := csParamClone.setPrecision low_prec
      aliasLoop csParamClone vecs_high_prec vecs_low_prec w1

end VectorIO

/-! ## Example states -/

/-- A parameter block with one color and one spin. -/
def exampleParam (location : QudaFieldLocation) (precision : QudaPrecision)
    (siteSubset : QudaSiteSubset) (nDim : Nat) (x : List Nat) (suggested_parity : QudaParity) :
    ColorSpinorParam :=
  { location := location, precision := precision, siteSubset := siteSubset, nDim := nDim,
    x := x, nColor := 1, nSpin := 1, suggested_parity := suggested_parity,
    fieldOrder := QudaFieldOrder.other 0, create := QudaFieldCreate.QUDA_NULL_FIELD_CREATE }

/-- A state with two live fields of attributes `p`, handles 0 and 1, whose storage at
addresses 0 and 64 holds `d0` and `d1`; nothing has been released, written or called. -/
def twoFieldWorld (p : ColorSpinorParam) (d0 d1 : List Val) : World :=
  { fields := [some { param := p, v := 0 }, some { param := p, v := 64 }]
    mem := [(0, d0), (64, d1)]
    brk := 128
    uninit := 99
    released := []
    files := []
    calls := [] }

/-- Attributes of a device-resident, double-precision, full-lattice 4-d field. -/
def deviceDoubleFull : ColorSpinorParam :=
  exampleParam QudaFieldLocation.QUDA_CUDA_FIELD_LOCATION QudaPrecision.QUDA_DOUBLE_PRECISION
    QudaSiteSubset.QUDA_FULL_SITE_SUBSET 4 [2, 1, 1, 1] QudaParity.QUDA_INVALID_PARITY

/-- Two device-resident, double-precision, full-lattice 4-d fields. -/
def deviceDoubleWorld : World := twoFieldWorld deviceDoubleFull [1, 2, 3, 4] [5, 6, 7, 8]

/-- Attributes of a host-resident, single-precision, single-parity 4-d field with
suggested parity even. -/
def hostParityEven : ColorSpinorParam :=
  exampleParam QudaFieldLocation.QUDA_CPU_FIELD_LOCATION QudaPrecision.QUDA_SINGLE_PRECISION
    QudaSiteSubset.QUDA_PARITY_SITE_SUBSET 4 [1, 1, 1, 1] QudaParity.QUDA_EVEN_PARITY

/-- Two host-resident single-parity even fields: handle 0 holds the reals 5 and 7,
handle 1 holds zeros. -/
def hostParityWorld : World := twoFieldWorld hostParityEven [5, 7] [0, 0]

/-- Attributes of a device-resident, single-precision, single-parity 4-d field whose
suggested parity is unspecified. -/
def deviceParityUnset : ColorSpinorParam :=
  exampleParam QudaFieldLocation.QUDA_CUDA_FIELD_LOCATION QudaPrecision.QUDA_SINGLE_PRECISION
    QudaSiteSubset.QUDA_PARITY_SITE_SUBSET 4 [1, 1, 1, 1] QudaParity.QUDA_INVALID_PARITY

/-- Two device-resident single-parity fields with unspecified suggested parity. -/
def deviceParityUnsetWorld : World := twoFieldWorld deviceParityUnset [5, 7] [0, 0]

/-- Attributes of a host-resident, single-parity 3-d field whose suggested parity is
unspecified. -/
def hostParity3d : ColorSpinorParam :=
  exampleParam QudaFieldLocation.QUDA_CPU_FIELD_LOCATION QudaPrecision.QUDA_SINGLE_PRECISION
    QudaSiteSubset.QUDA_PARITY_SITE_SUBSET 3 [1, 1, 1] QudaParity.QUDA_INVALID_PARITY

/-- Two host-resident single-parity 3-d fields with unspecified suggested parity. -/
def hostParity3dWorld : World := twoFieldWorld hostParity3d [5, 7] [0, 0]

/-- Attributes of a host-resident, single-parity 3-d field with suggested parity
even. -/
def hostParityEven3d : ColorSpinorParam :=
  exampleParam QudaFieldLocation.QUDA_CPU_FIELD_LOCATION QudaPrecision.QUDA_SINGLE_PRECISION
    QudaSiteSubset.QUDA_PARITY_SITE_SUBSET 3 [1, 1, 1] QudaParity.QUDA_EVEN_PARITY

/-- Two host-resident single-parity 3-d fields with suggested parity even. -/
def hostParityEven3dWorld : World := twoFieldWorld hostParityEven3d [5, 7] [0, 0]

/-- Attributes of a host-resident, half-precision, full-lattice 4-d field. -/
def hostHalfFull : ColorSpinorParam :=
  exampleParam QudaFieldLocation.QUDA_CPU_FIELD_LOCATION QudaPrecision.QUDA_HALF_PRECISION
    QudaSiteSubset.QUDA_FULL_SITE_SUBSET 4 [2, 1, 1, 1] QudaParity.QUDA_INVALID_PARITY

/-- Two host-resident, half-precision, full-lattice 4-d fields. -/
def hostHalfWorld : World := twoFieldWorld hostHalfFull [1, 2, 3, 4] [5, 6, 7, 8]

/-- Attributes of a host-resident, double-precision, full-lattice 5-d field of fifth
extent 2. -/
def hostDouble5d : ColorSpinorParam :=
  exampleParam QudaFieldLocation.QUDA_CPU_FIELD_LOCATION QudaPrecision.QUDA_DOUBLE_PRECISION
    QudaSiteSubset.QUDA_FULL_SITE_SUBSET 5 [2, 1, 1, 1, 2] QudaParity.QUDA_INVALID_PARITY

/-- Two host-resident, double-precision, full-lattice 5-d fields. -/
def hostDouble5dWorld : World :=
  twoFieldWorld hostDouble5d [1, 2, 3, 4, 5, 6, 7, 8] [9, 10, 11, 12, 13, 14, 15, 16]

/-! ## Specification vocabulary -/

/-- The computation `m` never aborts with the error `e`. -/
def Avoids {α : Type} (e : QudaError) (m : M α) : Prop :=
  ∀ w, (m w).1 ≠ Except.error e

/-- The computation `m` makes no external call, whether it returns or aborts. -/
def Silent {α : Type} (m : M α) : Prop :=
  ∀ w, (m w).2.calls = w.calls

/-- The half of the storage of the full field `f` that the parity `par` selects: the
first half for even, the second half otherwise. -/
def halfView (par : QudaParity) (f : ColorSpinorField) : View :=
  { base := f.v
    off := if par = QudaParity.QUDA_EVEN_PARITY then 0 else f.param.Length / 2
    len := f.param.Length / 2 }

/-- The record of the external call made at lines 61-62, 161-162, 297-298, 395-396 for
the staged member 0 `t0`, the pointer array `V` and the extent `Ls`. -/
def flatCall (vio : VectorIO) (routine : QioRoutine) (par : QudaParity)
    (t0 : ColorSpinorField) (Nvec Ls : Nat) (V : List Nat) (mem : List (Nat × List Val)) :
    QioCall :=
  { routine := routine, filename := vio.filename, V := V, precision := t0.param.precision,
    X := t0.param.x, siteSubset := t0.param.siteSubset, parity := par,
    nColor := t0.param.nColor, nSpin := t0.param.nSpin,
    Nvec := VectorIO.batchCount routine Nvec Ls, mem := mem }

/-- The host parameter block built at lines 30-33 and 227-230 from member 0 `f0`
(creation mode aside). -/
def hostParam (f0 : ColorSpinorField) : ColorSpinorParam :=
  { ColorSpinorParam.ofField f0 with
    fieldOrder := QudaFieldOrder.QUDA_SPACE_SPIN_COLOR_FIELD_ORDER
    precision := VectorIO.hostPrecision f0.param.precision
    location := QudaFieldLocation.QUDA_CPU_FIELD_LOCATION }

/-- The attributes of the staged member 0 for member 0 `f0` (creation mode aside), by
the branch the staging step takes. -/
def stagedParam (vio : VectorIO) (f0 : ColorSpinorField) : ColorSpinorParam :=
  if f0.param.location = QudaFieldLocation.QUDA_CUDA_FIELD_LOCATION then
    if f0.param.siteSubset = QudaSiteSubset.QUDA_PARITY_SITE_SUBSET
        ∧ vio.parity_inflate = true then
      VectorIO.inflate (hostParam f0)
    else hostParam f0
  else if f0.param.siteSubset = QudaSiteSubset.QUDA_PARITY_SITE_SUBSET
      ∧ vio.parity_inflate = true then
    VectorIO.inflate (ColorSpinorParam.ofField f0)
  else ColorSpinorParam.ofField f0

/-- The parameter block `p` with the zero creation mode (lines 247, 270). -/
def zeroed (p : ColorSpinorParam) : ColorSpinorParam :=
  { p with create := QudaFieldCreate.QUDA_ZERO_FIELD_CREATE }

/-- The list `V` is the flattened pointer array of the staged collection `tmp` in the
state `w1`: it has `tmp.length * Ls` entries, and entry `i * Ls + j` is the base
address of staged member `i` plus `j * stride`. -/
def Flattened (w1 : World) (tmp : List Nat) (Ls stride : Nat) (V : List Nat) : Prop :=
  V.length = tmp.length * Ls ∧
  ∀ i, i < tmp.length → ∀ j, j < Ls →
    ∃ f, w1.field (tmp.getD i 0) = some f ∧ V[i * Ls + j]? = some (f.v + j * stride)

/-- The handle `h` is a live field of `n` reals whose storage lies below `brk` and
holds `n` reals. -/
def storageOk (w : World) (n : Nat) (h : Nat) : Bool :=
  match w.field h with
  | some f => decide (f.param.Length = n ∧ f.v < w.brk ∧ (memGet w.mem f.v).length = n)
  | none => false

/-- The handle `h` is a live field at the location `loc`. -/
def locatedAt (w : World) (loc : QudaFieldLocation) (h : Nat) : Bool :=
  match w.field h with
  | some f => decide (f.param.location = loc)
  | none => false

/-- The storage of a full field whose half selected by `par` (the first half for even,
the second otherwise) holds the reals `src` and whose other half holds `n` zeros. -/
def inflated (par : QudaParity) (n : Nat) (src : List Val) : List Val :=
  if par = QudaParity.QUDA_EVEN_PARITY then src ++ List.replicate n 0
  else List.replicate n 0 ++ src

/-- The handle `h` is a live field of `n` reals whose storage lies below the address
`bound` and holds `n` reals. -/
def SrcOk (w : World) (n bound : Nat) (h : Nat) : Prop :=
  ∃ f, w.field h = some f ∧ f.param.Length = n ∧ f.v < bound ∧ (memGet w.mem f.v).length = n

/-- The external call `c` was handed the flattened staged collection `tmp` of the
state `w1`, for `Nvec` members of dimensionality `nDim`: with `t0` the staged member 0,
`Ls` its extent at index 4 when `nDim` is 5 and 1 otherwise, and `stride` =
(volume of `t0` / `Ls`) × colors × spins × 2 × byte width of the precision of `t0`,
the pointer array has `Nvec * Ls` entries, the count passed is `Nvec * Ls`, and entry
`i * Ls + j` is the base address of staged member `i` plus `j * stride`. -/
def HandedFlat (nDim Nvec : Nat) (w1 : World) (tmp : List Nat) (c : QioCall) : Prop :=
  ∃ t0, w1.field (tmp.getD 0 0) = some t0 ∧
    c.V.length = Nvec * (if nDim = 5 then t0.param.X 4 else 1) ∧
    c.Nvec = Nvec * (if nDim = 5 then t0.param.X 4 else 1) ∧
    ∀ i, i < Nvec → ∀ j, j < (if nDim = 5 then t0.param.X 4 else 1) →
      ∃ ti, w1.field (tmp.getD i 0) = some ti ∧
        c.V[i * (if nDim = 5 then t0.param.X 4 else 1) + j]? =
          some (ti.v + j * (t0.param.Volume / (if nDim = 5 then t0.param.X 4 else 1)
            * t0.param.nColor * t0.param.nSpin * 2 * t0.param.precision.toNat))

/-- The operation on `Nvec` members that staged with result `stage` and ended in the
state `final` made one external call, on the staged collection, which is in host
memory: the staging step returned `Nvec` handles, all of them host-resident fields;
with `t0` the staged member 0, `Ls` its extent at index 4 when member 0 `f0` is
5-dimensional and 1 otherwise, and `stride` as at lines 54-55, the pointer array
passed has `Nvec * Ls` entries, entry `i * Ls + j` being the base address of the
host-resident staged member `i` plus `j * stride`; the memory the routine sees is that
of the staged state; the precision tag and the site subset passed are those of `t0`;
the precision tag is the larger of the precision of `f0` and single precision when `f0`
is device-resident and the precision of `f0` itself when it is host-resident; the site
subset is full when parity-inflate is set. -/
def HostStaged (vio : VectorIO) (f0 : ColorSpinorField) (Nvec : Nat) (w : World)
    (stage : Except QudaError (List Nat) × World) (final : World) : Prop :=
  ∃ tmp w1 c t0, stage = (Except.ok tmp, w1) ∧ final.calls = c :: w.calls ∧
    tmp.length = Nvec ∧ w1.field (tmp.getD 0 0) = some t0 ∧
    (∀ t ∈ tmp, locatedAt w1 QudaFieldLocation.QUDA_CPU_FIELD_LOCATION t = true) ∧
    c.V.length = Nvec * (if f0.param.nDim = 5 then t0.param.X 4 else 1) ∧
    (∀ i, i < Nvec → ∀ j, j < (if f0.param.nDim = 5 then t0.param.X 4 else 1) →
      ∃ ti, w1.field (tmp.getD i 0) = some ti ∧
        ti.param.location = QudaFieldLocation.QUDA_CPU_FIELD_LOCATION ∧
        c.V[i * (if f0.param.nDim = 5 then t0.param.X 4 else 1) + j]? =
          some (ti.v + j * (t0.param.Volume / (if f0.param.nDim = 5 then t0.param.X 4 else 1)
            * t0.param.nColor * t0.param.nSpin * 2 * t0.param.precision.toNat))) ∧
    c.mem = w1.mem ∧
    c.precision = t0.param.precision ∧ c.siteSubset = t0.param.siteSubset ∧
    c.precision =
      (if f0.param.location = QudaFieldLocation.QUDA_CUDA_FIELD_LOCATION then
        VectorIO.hostPrecision f0.param.precision
      else f0.param.precision) ∧
    (vio.parity_inflate = true → c.siteSubset = QudaSiteSubset.QUDA_FULL_SITE_SUBSET)

/-- Every live field of `w` is a live field of `w1` with the same descriptor. -/
def Grows (w w1 : World) : Prop :=
  ∀ h f, w.field h = some f → w1.field h = some f

open VectorIO

/-! ## Basic facts about the state and the primitives -/

theorem bind_run {α β : Type} (m : M α) (f : α → M β) (w : World) :
    (m >>= f) w = M.bind m f w := rfl

theorem pure_run {α : Type} (a : α) (w : World) : (pure a : M α) w = (Except.ok a, w) := rfl

theorem bind_ok {α β : Type} {m : M α} {f : α → M β} {w w1 : World} {a : α}
    (h : m w = (Except.ok a, w1)) : (m >>= f) w = f a w1 := by
  simp [bind_run, M.bind, h]

theorem bind_error {α β : Type} {m : M α} {f : α → M β} {w w1 : World} {e : QudaError}
    (h : m w = (Except.error e, w1)) : (m >>= f) w = (Except.error e, w1) := by
  simp [bind_run, M.bind, h]

theorem field_lt {w : World} {h : Nat} (hl : w.field h ≠ none) : h < w.fields.length := by
  by_contra hn
  apply hl
  simp only [World.field, List.getD_eq_getElem?_getD]
  rw [List.getElem?_eq_none (by omega)]
  rfl

theorem field_some_lt {w : World} {h : Nat} {f : ColorSpinorField} (hf : w.field h = some f) :
    h < w.fields.length := field_lt (by rw [hf]; simp)

/-! ### memory -/

theorem memGet_cons_same (m : List (Nat × List Val)) (a : Nat) (buf : List Val) :
    memGet ((a, buf) :: m) a = buf := by simp [memGet]

theorem memGet_cons_ne (m : List (Nat × List Val)) {a b : Nat} (buf : List Val) (h : b ≠ a) :
    memGet ((b, buf) :: m) a = memGet m a := by simp [memGet, h]

theorem memGet_memSet_same (m : List (Nat × List Val)) (a : Nat) (new : List Val) :
    memGet (memSet m a new) a = new := by
  induction m with
  | nil => simp [memSet, memGet]
  | cons x m ih =>
    obtain ⟨b, buf⟩ := x
    by_cases hb : b = a
    · simp [memSet, memGet, hb]
    · simp [memSet, memGet, hb, ih]

theorem memGet_memSet_ne (m : List (Nat × List Val)) {a b : Nat} (new : List Val) (h : b ≠ a) :
    memGet (memSet m b new) a = memGet m a := by
  induction m with
  | nil => simp [memSet, memGet, h]
  | cons x m ih =>
    obtain ⟨c, buf⟩ := x
    by_cases hb : c = b
    · subst hb
      simp [memSet, memGet, h]
    · by_cases hc : c = a
      · subst hc
        simp [memSet, memGet, hb]
      · simp [memSet, memGet, hb, hc, ih]

/-! ### allocation -/

@[simp] theorem alloc_fields (w : World) (p : ColorSpinorParam) :
    (w.alloc p).fields = w.fields ++ [some { param := p, v := w.brk }] := rfl

@[simp] theorem alloc_brk (w : World) (p : ColorSpinorParam) :
    (w.alloc p).brk = w.brk + p.Length * p.precision.toNat + 1 := rfl

@[simp] theorem alloc_calls (w : World) (p : ColorSpinorParam) :
    (w.alloc p).calls = w.calls := rfl

@[simp] theorem alloc_released (w : World) (p : ColorSpinorParam) :
    (w.alloc p).released = w.released := rfl

theorem alloc_field_old (w : World) (p : ColorSpinorParam) {h : Nat}
    (hl : h < w.fields.length) : (w.alloc p).field h = w.field h := by
  simp only [World.field, alloc_fields]
  exact List.getD_append _ _ _ _ hl

theorem alloc_field_new (w : World) (p : ColorSpinorParam) :
    (w.alloc p).field w.fields.length = some { param := p, v := w.brk } := by
  simp only [World.field, alloc_fields]
  rw [List.getD_append_right _ _ _ _ (le_refl _)]
  simp

theorem alloc_field_some (w : World) (p : ColorSpinorParam) {h : Nat} {f : ColorSpinorField}
    (hf : w.field h = some f) : (w.alloc p).field h = some f := by
  rw [alloc_field_old w p (field_some_lt hf), hf]

theorem alloc_mem_new_zero (w : World) (p : ColorSpinorParam)
    (hp : p.create = QudaFieldCreate.QUDA_ZERO_FIELD_CREATE) :
    memGet (w.alloc p).mem w.brk = List.replicate p.Length 0 := by
  simp [World.alloc, hp, memGet]

theorem alloc_mem_new_length (w : World) (p : ColorSpinorParam) :
    (memGet (w.alloc p).mem w.brk).length = p.Length := by
  simp [World.alloc, memGet]

theorem alloc_mem_old (w : World) (p : ColorSpinorParam) {a : Nat} (h : a ≠ w.brk) :
    memGet (w.alloc p).mem a = memGet w.mem a := by
  simp only [World.alloc]
  exact memGet_cons_ne _ _ (Ne.symm h)

/-! ### copies -/

@[simp] theorem blit_fields (w : World) (d s : View) : (w.blit d s).fields = w.fields := rfl

@[simp] theorem blit_field (w : World) (d s : View) (h : Nat) :
    (w.blit d s).field h = w.field h := rfl

@[simp] theorem blit_brk (w : World) (d s : View) : (w.blit d s).brk = w.brk := rfl

@[simp] theorem blit_calls (w : World) (d s : View) : (w.blit d s).calls = w.calls := rfl

@[simp] theorem blit_released (w : World) (d s : View) :
    (w.blit d s).released = w.released := rfl

theorem blit_mem_same (w : World) (d s : View) :
    memGet (w.blit d s).mem d.base =
      (memGet w.mem d.base).take d.off ++ (readView w.mem s).take d.len
        ++ (memGet w.mem d.base).drop (d.off + d.len) := by
  simp only [World.blit]
  exact memGet_memSet_same _ _ _

theorem blit_mem_ne (w : World) (d s : View) {a : Nat} (h : d.base ≠ a) :
    memGet (w.blit d s).mem a = memGet w.mem a := by
  simp only [World.blit]
  exact memGet_memSet_ne _ _ h

/-! ### release -/

@[simp] theorem free_calls (w : World) (h : Nat) : (w.free h).calls = w.calls := rfl

@[simp] theorem free_mem (w : World) (h : Nat) : (w.free h).mem = w.mem := rfl

@[simp] theorem free_brk (w : World) (h : Nat) : (w.free h).brk = w.brk := rfl

theorem free_field_ne (w : World) {h k : Nat} (hk : h ≠ k) :
    (w.free h).field k = w.field k := by
  simp only [World.field, World.free, List.getD_eq_getElem?_getD]
  rw [List.getElem?_set_ne hk]

/-! ### external calls -/

@[simp] theorem transfer_fields (w : World) (c : QioCall) : (w.transfer c).fields = w.fields := by
  unfold World.transfer
  split <;> rfl

@[simp] theorem transfer_field (w : World) (c : QioCall) (h : Nat) :
    (w.transfer c).field h = w.field h := by
  simp [World.field]

@[simp] theorem transfer_calls (w : World) (c : QioCall) :
    (w.transfer c).calls = c :: w.calls := by
  unfold World.transfer
  split <;> rfl

@[simp] theorem transfer_brk (w : World) (c : QioCall) : (w.transfer c).brk = w.brk := by
  unfold World.transfer
  split <;> rfl

theorem transfer_mem_write (w : World) (c : QioCall) (h : c.routine.isRead = false) :
    (w.transfer c).mem = w.mem := by
  simp [World.transfer, h]

/-! ### running the primitives -/

theorem index_zero (v : Nat) (vs : List Nat) (w : World) :
    index (v :: vs) 0 w = (Except.ok v, w) := rfl

theorem deref_ok {w : World} {h : Nat} {f : ColorSpinorField} (hf : w.field h = some f) :
    deref h w = (Except.ok f, w) := by
  simp [deref, hf]

theorem head_ok {w : World} {v : Nat} {vs : List Nat} {f : ColorSpinorField}
    (hf : w.field v = some f) {β : Type} (k : ColorSpinorField → M β) :
    (index (v :: vs) 0 >>= fun h0 => deref h0 >>= k) w = k f w := by
  rw [bind_ok (index_zero v vs w), bind_ok (deref_ok hf)]

theorem Create_run (p : ColorSpinorParam) (w : World) :
    Create p w = (Except.ok w.fields.length, w.alloc p) := rfl

theorem copy_run (d s : View) (w : World) : copy d s w = (Except.ok (), w.blit d s) := rfl

theorem assign_ok {w : World} {d s : Nat} {fd fs : ColorSpinorField}
    (hd : w.field d = some fd) (hs : w.field s = some fs) :
    assign d s w = (Except.ok (), w.blit (whole fd) (whole fs)) := by
  unfold assign
  rw [bind_ok (deref_ok hd), bind_ok (deref_ok hs)]
  rfl

theorem delete_ok {w : World} {h : Nat} {f : ColorSpinorField} (hf : w.field h = some f) :
    delete h w = (Except.ok (), w.free h) := by
  simp [delete, hf]

theorem Even_ok {w : World} {h : Nat} {f : ColorSpinorField} (hf : w.field h = some f)
    (hs : f.param.siteSubset = QudaSiteSubset.QUDA_FULL_SITE_SUBSET) :
    Even h w = (Except.ok { base := f.v, off := 0, len := f.param.Length / 2 }, w) := by
  simp [Even, hf, hs]

theorem Odd_ok {w : World} {h : Nat} {f : ColorSpinorField} (hf : w.field h = some f)
    (hs : f.param.siteSubset = QudaSiteSubset.QUDA_FULL_SITE_SUBSET) :
    Odd h w = (Except.ok
      { base := f.v, off := f.param.Length / 2, len := f.param.Length / 2 }, w) := by
  simp [Odd, hf, hs]

theorem qio_run (routine : QioRoutine) (filename : String) (V : List Nat)
    (precision : QudaPrecision) (X : List Nat) (siteSubset : QudaSiteSubset)
    (parity : QudaParity) (nColor nSpin Nvec : Nat) (w : World) :
    qio routine filename V precision X siteSubset parity nColor nSpin Nvec w =
      (Except.ok (), w.transfer
        { routine := routine, filename := filename, V := V, precision := precision, X := X,
          siteSubset := siteSubset, parity := parity, nColor := nColor, nSpin := nSpin,
          Nvec := Nvec, mem := w.mem }) := rfl

/-! ### errors a computation cannot raise -/

theorem avoids_pure {α : Type} (e : QudaError) (a : α) : Avoids e (pure a : M α) := by
  intro w; simp [pure_run]

theorem avoids_bind {α β : Type} {e : QudaError} {m : M α} {f : α → M β}
    (hm : Avoids e m) (hf : ∀ a, Avoids e (f a)) : Avoids e (m >>= f) := by
  intro w
  rw [bind_run]
  unfold M.bind
  have h1 := hm w
  rcases hmw : m w with ⟨r, w1⟩
  rw [hmw] at h1
  cases r with
  | ok a => exact hf a w1
  | error e1 => simpa using h1

theorem avoids_ite {α : Type} {e : QudaError} {c : Prop} [Decidable c] {m1 m2 : M α}
    (h1 : Avoids e m1) (h2 : Avoids e m2) : Avoids e (if c then m1 else m2) := by
  split
  · exact h1
  · exact h2

theorem avoids_errorQuda {α : Type} {e e1 : QudaError} (h : e1 ≠ e) :
    Avoids e (errorQuda e1 : M α) := by
  intro w; simpa [errorQuda] using h

theorem avoids_index {e : QudaError} (h : e ≠ QudaError.badAccess) (xs : List Nat) (i : Nat) :
    Avoids e (index xs i) := by
  intro w
  unfold quda.index
  split
  · simp
  · simpa using Ne.symm h

theorem avoids_deref {e : QudaError} (h : e ≠ QudaError.badAccess) (k : Nat) :
    Avoids e (deref k) := by
  intro w
  unfold quda.deref
  split
  · simp
  · simpa using Ne.symm h

theorem avoids_Create (e : QudaError) (p : ColorSpinorParam) : Avoids e (Create p) := by
  intro w; simp [Create_run]

theorem avoids_copy (e : QudaError) (d s : View) : Avoids e (copy d s) := by
  intro w; simp [copy_run]

theorem avoids_delete {e : QudaError} (h : e ≠ QudaError.badAccess) (k : Nat) :
    Avoids e (delete k) := by
  intro w
  unfold quda.delete
  split
  · simp
  · simpa using Ne.symm h

theorem avoids_assign {e : QudaError} (h : e ≠ QudaError.badAccess) (d s : Nat) :
    Avoids e (assign d s) := by
  unfold quda.assign
  exact avoids_bind (avoids_deref h d) fun _ =>
    avoids_bind (avoids_deref h s) fun _ => avoids_copy e _ _

theorem avoids_Even {e : QudaError} (h : e ≠ QudaError.badAccess)
    (h2 : e ≠ QudaError.noParityView) (k : Nat) : Avoids e (Even k) := by
  intro w
  unfold quda.Even
  split
  · split
    · simp
    · simpa using Ne.symm h2
  · simpa using Ne.symm h

theorem avoids_Odd {e : QudaError} (h : e ≠ QudaError.badAccess)
    (h2 : e ≠ QudaError.noParityView) (k : Nat) : Avoids e (Odd k) := by
  intro w
  unfold quda.Odd
  split
  · split
    · simp
    · simpa using Ne.symm h2
  · simpa using Ne.symm h

theorem avoids_qio (e : QudaError) (routine : QioRoutine) (filename : String) (V : List Nat)
    (precision : QudaPrecision) (X : List Nat) (siteSubset : QudaSiteSubset)
    (parity : QudaParity) (nColor nSpin Nvec : Nat) :
    Avoids e (qio routine filename V precision X siteSubset parity nColor nSpin Nvec) := by
  intro w; simp [qio_run]

theorem avoids_parityView {e e1 : QudaError} (h : e ≠ QudaError.badAccess)
    (h2 : e ≠ QudaError.noParityView) {par : QudaParity}
    (hp : par ≠ QudaParity.QUDA_INVALID_PARITY ∨ e1 ≠ e) (k : Nat) :
    Avoids e (parityView par k e1) := by
  unfold quda.parityView
  cases par with
  | QUDA_EVEN_PARITY => exact avoids_Even h h2 k
  | QUDA_ODD_PARITY => exact avoids_Odd h h2 k
  | QUDA_INVALID_PARITY =>
    rcases hp with hp | hp
    · exact absurd rfl hp
    · exact avoids_errorQuda hp

theorem avoids_createLoop (e : QudaError) (p : ColorSpinorParam) (n : Nat) :
    Avoids e (createLoop p n) := by
  induction n with
  | zero => exact avoids_pure e _
  | succ n ih =>
    unfold VectorIO.createLoop
    exact avoids_bind (avoids_Create e p) fun _ => avoids_bind ih fun _ => avoids_pure e _

theorem avoids_fillV {e : QudaError} (h : e ≠ QudaError.badAccess) (Ls stride : Nat) :
    ∀ (ts : List Nat) (i : Nat) (V : List Nat), Avoids e (fillV Ls stride ts i V) := by
  intro ts
  induction ts with
  | nil => intro i V; exact avoids_pure e _
  | cons t ts ih =>
    intro i V
    unfold VectorIO.fillV
    exact avoids_bind (avoids_deref h t) fun _ => ih _ _

theorem avoids_flattenCall {e : QudaError} (h : e ≠ QudaError.badAccess)
    (h3 : e ≠ QudaError.divByZero) (h4 : ∀ d, e ≠ QudaError.unexpectedDim d)
    (vio : VectorIO) (routine : QioRoutine) (vecs tmp : List Nat) (par : QudaParity) :
    Avoids e (flattenCall vio routine vecs tmp par) := by
  unfold VectorIO.flattenCall
  refine avoids_bind (avoids_index h _ _) fun _ => avoids_bind (avoids_deref h _) fun v0 => ?_
  refine avoids_ite ?_ (avoids_errorQuda (Ne.symm (h4 _)))
  refine avoids_bind (avoids_index h _ _) fun _ => avoids_bind (avoids_deref h _) fun t0 => ?_
  refine avoids_ite (avoids_errorQuda (Ne.symm h3)) ?_
  exact avoids_bind (avoids_fillV h _ _ _ _ _) fun _ => avoids_qio e _ _ _ _ _ _ _ _ _ _

theorem avoids_loadStage {e : QudaError} (h : e ≠ QudaError.badAccess)
    (vio : VectorIO) (vecs : List Nat) : Avoids e (loadStage vio vecs) := by
  unfold VectorIO.loadStage
  refine avoids_bind (avoids_index h _ _) fun _ => avoids_bind (avoids_deref h _) fun v0 => ?_
  refine avoids_ite (avoids_ite ?_ ?_) (avoids_ite ?_ ?_)
  · exact avoids_createLoop e _ _
  · exact avoids_createLoop e _ _
  · exact avoids_createLoop e _ _
  · exact avoids_pure e _

theorem avoids_copyBackLoop {e : QudaError} (h : e ≠ QudaError.badAccess) :
    ∀ (vs ts : List Nat), Avoids e (copyBackLoop vs ts) := by
  intro vs
  induction vs with
  | nil => intro ts; unfold VectorIO.copyBackLoop; exact avoids_pure e _
  | cons v vs ih =>
    intro ts
    cases ts with
    | nil => unfold VectorIO.copyBackLoop; exact avoids_pure e _
    | cons t ts =>
      unfold VectorIO.copyBackLoop
      exact avoids_bind (avoids_assign h _ _) fun _ =>
        avoids_bind (avoids_delete h _) fun _ => ih ts

theorem avoids_deflateLoop {e : QudaError} (h : e ≠ QudaError.badAccess)
    (h2 : e ≠ QudaError.noParityView) {par : QudaParity}
    (hp : par ≠ QudaParity.QUDA_INVALID_PARITY ∨ QudaError.parityLoad ≠ e) (ti : Nat) :
    ∀ (vs ts : List Nat), Avoids e (deflateLoop par ti vs ts) := by
  intro vs
  induction vs with
  | nil => intro ts; unfold VectorIO.deflateLoop; exact avoids_pure e _
  | cons v vs ih =>
    intro ts
    cases ts with
    | nil => unfold VectorIO.deflateLoop; exact avoids_pure e _
    | cons t ts =>
      unfold VectorIO.deflateLoop
      exact avoids_bind (avoids_parityView h h2 hp _) fun _ =>
        avoids_bind (avoids_deref h _) fun _ => avoids_bind (avoids_copy e _ _) fun _ =>
        avoids_bind (avoids_assign h _ _) fun _ => avoids_bind (avoids_delete h _) fun _ => ih ts

theorem avoids_hostDeflateLoop {e : QudaError} (h : e ≠ QudaError.badAccess)
    (h2 : e ≠ QudaError.noParityView) {par : QudaParity}
    (hp : par ≠ QudaParity.QUDA_INVALID_PARITY ∨ QudaError.parityLoad ≠ e) :
    ∀ (vs ts : List Nat), Avoids e (hostDeflateLoop par vs ts) := by
  intro vs
  induction vs with
  | nil => intro ts; unfold VectorIO.hostDeflateLoop; exact avoids_pure e _
  | cons v vs ih =>
    intro ts
    cases ts with
    | nil => unfold VectorIO.hostDeflateLoop; exact avoids_pure e _
    | cons t ts =>
      unfold VectorIO.hostDeflateLoop
      exact avoids_bind (avoids_parityView h h2 hp _) fun _ =>
        avoids_bind (avoids_deref h _) fun _ => avoids_bind (avoids_copy e _ _) fun _ =>
        avoids_bind (avoids_delete h _) fun _ => ih ts

theorem avoids_loadReconcile {e : QudaError} (h : e ≠ QudaError.badAccess)
    (h2 : e ≠ QudaError.noParityView) {par : QudaParity}
    (hp : par ≠ QudaParity.QUDA_INVALID_PARITY ∨ QudaError.parityLoad ≠ e)
    (vio : VectorIO) (vecs tmp : List Nat) : Avoids e (loadReconcile vio vecs tmp par) := by
  unfold VectorIO.loadReconcile
  refine avoids_bind (avoids_index h _ _) fun _ => avoids_bind (avoids_deref h _) fun v0 => ?_
  refine avoids_ite (avoids_ite ?_ ?_) (avoids_ite ?_ (avoids_pure e _))
  · exact avoids_copyBackLoop h _ _
  · exact avoids_bind (avoids_Create e _) fun _ =>
      avoids_bind (avoids_deflateLoop h h2 hp _ _ _) fun _ => avoids_delete h _
  · exact avoids_hostDeflateLoop h h2 hp _ _

theorem head_cases {β : Type} (vecs : List Nat) (k : ColorSpinorField → M β) (w : World) :
    (index vecs 0 >>= fun h0 => deref h0 >>= k) w = (Except.error QudaError.badAccess, w) ∨
    ∃ h0 vs v0, vecs = h0 :: vs ∧ w.field h0 = some v0 ∧
      (index vecs 0 >>= fun h0 => deref h0 >>= k) w = k v0 w := by
  cases vecs with
  | nil => left; rfl
  | cons h0 vs =>
    cases hf : w.field h0 with
    | none =>
      left
      rw [bind_ok (index_zero h0 vs w)]
      exact bind_error (by simp [deref, hf])
    | some v0 =>
      right
      exact ⟨h0, vs, v0, rfl, hf, head_ok hf k⟩

theorem avoids_loadBody {e : QudaError} (h : e ≠ QudaError.badAccess)
    (h2 : e ≠ QudaError.noParityView) (h3 : e ≠ QudaError.divByZero)
    (h4 : ∀ d, e ≠ QudaError.unexpectedDim d) (vio : VectorIO) (routine : QioRoutine)
    {vecs : List Nat} {w : World}
    (hp : ∀ h0 vs v0, vecs = h0 :: vs → w.field h0 = some v0 →
      v0.param.suggested_parity ≠ QudaParity.QUDA_INVALID_PARITY ∨ QudaError.parityLoad ≠ e) :
    (loadBody vio routine vecs w).1 ≠ Except.error e := by
  unfold VectorIO.loadBody
  rcases head_cases vecs _ w with hc | ⟨h0, vs, v0, hv, hf, hc⟩
  · rw [hc]; simpa using Ne.symm h
  · rw [hc]
    exact avoids_bind (avoids_loadStage h _ _) (fun _ =>
      avoids_bind (avoids_flattenCall h h3 h4 _ _ _ _ _) fun _ =>
        avoids_loadReconcile h h2 (hp h0 vs v0 hv hf) _ _ _) w

theorem avoids_copyInLoop {e : QudaError} (h : e ≠ QudaError.badAccess)
    (p : ColorSpinorParam) : ∀ (vs : List Nat), Avoids e (copyInLoop p vs) := by
  intro vs
  induction vs with
  | nil => unfold VectorIO.copyInLoop; exact avoids_pure e _
  | cons v vs ih =>
    unfold VectorIO.copyInLoop
    exact avoids_bind (avoids_Create e _) fun _ => avoids_bind (avoids_assign h _ _) fun _ =>
      avoids_bind ih fun _ => avoids_pure e _

theorem avoids_inflateLoopDevice {e : QudaError} (h : e ≠ QudaError.badAccess)
    (h2 : e ≠ QudaError.noParityView) {par : QudaParity}
    (hp : par ≠ QudaParity.QUDA_INVALID_PARITY ∨ QudaError.paritySave ≠ e)
    (p : ColorSpinorParam) (ti : Nat) :
    ∀ (vs : List Nat), Avoids e (inflateLoopDevice p par ti vs) := by
  intro vs
  induction vs with
  | nil => unfold VectorIO.inflateLoopDevice; exact avoids_pure e _
  | cons v vs ih =>
    unfold VectorIO.inflateLoopDevice
    exact avoids_bind (avoids_Create e _) fun _ => avoids_bind (avoids_assign h _ _) fun _ =>
      avoids_bind (avoids_parityView h h2 hp _) fun _ => avoids_bind (avoids_deref h _) fun _ =>
      avoids_bind (avoids_copy e _ _) fun _ => avoids_bind ih fun _ => avoids_pure e _

theorem avoids_inflateLoopHost {e : QudaError} (h : e ≠ QudaError.badAccess)
    (h2 : e ≠ QudaError.noParityView) {par : QudaParity}
    (hp : par ≠ QudaParity.QUDA_INVALID_PARITY ∨ QudaError.paritySave ≠ e)
    (p : ColorSpinorParam) :
    ∀ (vs : List Nat), Avoids e (inflateLoopHost p par vs) := by
  intro vs
  induction vs with
  | nil => unfold VectorIO.inflateLoopHost; exact avoids_pure e _
  | cons v vs ih =>
    unfold VectorIO.inflateLoopHost
    exact avoids_bind (avoids_Create e _) fun _ =>
      avoids_bind (avoids_parityView h h2 hp _) fun _ => avoids_bind (avoids_deref h _) fun _ =>
      avoids_bind (avoids_copy e _ _) fun _ => avoids_bind ih fun _ => avoids_pure e _

theorem avoids_saveStage {e : QudaError} (h : e ≠ QudaError.badAccess)
    (h2 : e ≠ QudaError.noParityView) {par : QudaParity} {vio : VectorIO}
    (hp : par ≠ QudaParity.QUDA_INVALID_PARITY ∨ QudaError.paritySave ≠ e
      ∨ vio.parity_inflate = false)
    (vecs : List Nat) : Avoids e (saveStage vio vecs par) := by
  unfold VectorIO.saveStage
  refine avoids_bind (avoids_index h _ _) fun _ => avoids_bind (avoids_deref h _) fun v0 => ?_
  by_cases hi : vio.parity_inflate = false
  · simp only [hi, or_true, if_true, and_false, if_false, Bool.false_eq_true]
    exact avoids_ite (avoids_copyInLoop h _ _) (avoids_pure e _)
  · have hp2 : par ≠ QudaParity.QUDA_INVALID_PARITY ∨ QudaError.paritySave ≠ e := by
      rcases hp with hp | hp | hp
      · exact Or.inl hp
      · exact Or.inr hp
      · exact absurd hp hi
    refine avoids_ite (avoids_ite ?_ ?_) (avoids_ite ?_ ?_)
    · exact avoids_copyInLoop h _ _
    · exact avoids_bind (avoids_Create e _) fun _ =>
        avoids_bind (avoids_inflateLoopDevice h h2 hp2 _ _ _) fun _ =>
        avoids_bind (avoids_delete h _) fun _ => avoids_pure e _
    · exact avoids_inflateLoopHost h h2 hp2 _ _
    · exact avoids_pure e _

theorem avoids_deleteLoop {e : QudaError} (h : e ≠ QudaError.badAccess) :
    ∀ (ts : List Nat), Avoids e (deleteLoop ts) := by
  intro ts
  induction ts with
  | nil => unfold VectorIO.deleteLoop; exact avoids_pure e _
  | cons t ts ih =>
    unfold VectorIO.deleteLoop
    exact avoids_bind (avoids_delete h _) fun _ => ih

theorem avoids_saveRelease {e : QudaError} (h : e ≠ QudaError.badAccess)
    (vecs tmp : List Nat) : Avoids e (saveRelease vecs tmp) := by
  unfold VectorIO.saveRelease
  refine avoids_bind (avoids_index h _ _) fun _ => avoids_bind (avoids_deref h _) fun v0 => ?_
  exact avoids_ite (avoids_deleteLoop h _) (avoids_pure e _)

theorem avoids_saveBody {e : QudaError} (h : e ≠ QudaError.badAccess)
    (h2 : e ≠ QudaError.noParityView) (h3 : e ≠ QudaError.divByZero)
    (h4 : ∀ d, e ≠ QudaError.unexpectedDim d) (vio : VectorIO) (routine : QioRoutine)
    {vecs : List Nat} {w : World}
    (hp : ∀ h0 vs v0, vecs = h0 :: vs → w.field h0 = some v0 →
      v0.param.suggested_parity ≠ QudaParity.QUDA_INVALID_PARITY ∨ QudaError.paritySave ≠ e
        ∨ vio.parity_inflate = false) :
    (saveBody vio routine vecs w).1 ≠ Except.error e := by
  unfold VectorIO.saveBody
  rcases head_cases vecs _ w with hc | ⟨h0, vs, v0, hv, hf, hc⟩
  · rw [hc]; simpa using Ne.symm h
  · rw [hc]
    exact avoids_bind (avoids_saveStage h h2 (hp h0 vs v0 hv hf) _) (fun _ =>
      avoids_bind (avoids_flattenCall h h3 h4 _ _ _ _ _) fun _ =>
        avoids_saveRelease h _ _) w

/-! ### computations that make no external call -/

theorem silent_pure {α : Type} (a : α) : Silent (pure a : M α) := fun _ => rfl

theorem silent_errorQuda {α : Type} (e : QudaError) : Silent (errorQuda e : M α) := fun _ => rfl

theorem silent_bind {α β : Type} {m : M α} {f : α → M β}
    (hm : Silent m) (hf : ∀ a, Silent (f a)) : Silent (m >>= f) := by
  intro w
  rw [bind_run]
  unfold M.bind
  have h1 := hm w
  rcases hmw : m w with ⟨r, w1⟩
  rw [hmw] at h1
  cases r with
  | ok a => exact (hf a w1).trans h1
  | error e1 => exact h1

theorem silent_ite {α : Type} {c : Prop} [Decidable c] {m1 m2 : M α}
    (h1 : Silent m1) (h2 : Silent m2) : Silent (if c then m1 else m2) := by
  split
  · exact h1
  · exact h2

theorem silent_index (xs : List Nat) (i : Nat) : Silent (index xs i) := by
  intro w
  unfold quda.index
  split <;> rfl

theorem silent_deref (k : Nat) : Silent (deref k) := by
  intro w
  unfold quda.deref
  split <;> rfl

theorem silent_Create (p : ColorSpinorParam) : Silent (Create p) := fun _ => rfl

theorem silent_copy (d s : View) : Silent (copy d s) := fun _ => rfl

theorem silent_delete (k : Nat) : Silent (delete k) := by
  intro w
  unfold quda.delete
  split <;> rfl

theorem silent_assign (d s : Nat) : Silent (assign d s) := by
  unfold quda.assign
  exact silent_bind (silent_deref d) fun _ => silent_bind (silent_deref s) fun _ =>
    silent_copy _ _

theorem silent_Even (k : Nat) : Silent (Even k) := by
  intro w
  unfold quda.Even
  split
  · split <;> rfl
  · rfl

theorem silent_Odd (k : Nat) : Silent (Odd k) := by
  intro w
  unfold quda.Odd
  split
  · split <;> rfl
  · rfl

theorem silent_parityView (par : QudaParity) (k : Nat) (e : QudaError) :
    Silent (parityView par k e) := by
  unfold quda.parityView
  cases par with
  | QUDA_EVEN_PARITY => exact silent_Even k
  | QUDA_ODD_PARITY => exact silent_Odd k
  | QUDA_INVALID_PARITY => exact silent_errorQuda e

theorem silent_createLoop (p : ColorSpinorParam) (n : Nat) : Silent (createLoop p n) := by
  induction n with
  | zero => exact silent_pure _
  | succ n ih =>
    unfold VectorIO.createLoop
    exact silent_bind (silent_Create p) fun _ => silent_bind ih fun _ => silent_pure _

theorem silent_loadStage (vio : VectorIO) (vecs : List Nat) : Silent (loadStage vio vecs) := by
  unfold VectorIO.loadStage
  refine silent_bind (silent_index _ _) fun _ => silent_bind (silent_deref _) fun v0 => ?_
  refine silent_ite (silent_ite ?_ ?_) (silent_ite ?_ ?_)
  · exact silent_createLoop _ _
  · exact silent_createLoop _ _
  · exact silent_createLoop _ _
  · exact silent_pure _

theorem silent_copyBackLoop : ∀ (vs ts : List Nat), Silent (copyBackLoop vs ts) := by
  intro vs
  induction vs with
  | nil => intro ts; unfold VectorIO.copyBackLoop; exact silent_pure _
  | cons v vs ih =>
    intro ts
    cases ts with
    | nil => unfold VectorIO.copyBackLoop; exact silent_pure _
    | cons t ts =>
      unfold VectorIO.copyBackLoop
      exact silent_bind (silent_assign _ _) fun _ =>
        silent_bind (silent_delete _) fun _ => ih ts

theorem silent_deflateLoop (par : QudaParity) (ti : Nat) :
    ∀ (vs ts : List Nat), Silent (deflateLoop par ti vs ts) := by
  intro vs
  induction vs with
  | nil => intro ts; unfold VectorIO.deflateLoop; exact silent_pure _
  | cons v vs ih =>
    intro ts
    cases ts with
    | nil => unfold VectorIO.deflateLoop; exact silent_pure _
    | cons t ts =>
      unfold VectorIO.deflateLoop
      exact silent_bind (silent_parityView _ _ _) fun _ =>
        silent_bind (silent_deref _) fun _ => silent_bind (silent_copy _ _) fun _ =>
        silent_bind (silent_assign _ _) fun _ => silent_bind (silent_delete _) fun _ => ih ts

theorem silent_hostDeflateLoop (par : QudaParity) :
    ∀ (vs ts : List Nat), Silent (hostDeflateLoop par vs ts) := by
  intro vs
  induction vs with
  | nil => intro ts; unfold VectorIO.hostDeflateLoop; exact silent_pure _
  | cons v vs ih =>
    intro ts
    cases ts with
    | nil => unfold VectorIO.hostDeflateLoop; exact silent_pure _
    | cons t ts =>
      unfold VectorIO.hostDeflateLoop
      exact silent_bind (silent_parityView _ _ _) fun _ =>
        silent_bind (silent_deref _) fun _ => silent_bind (silent_copy _ _) fun _ =>
        silent_bind (silent_delete _) fun _ => ih ts

theorem silent_loadReconcile (vio : VectorIO) (vecs tmp : List Nat) (par : QudaParity) :
    Silent (loadReconcile vio vecs tmp par) := by
  unfold VectorIO.loadReconcile
  refine silent_bind (silent_index _ _) fun _ => silent_bind (silent_deref _) fun v0 => ?_
  refine silent_ite (silent_ite ?_ ?_) (silent_ite ?_ (silent_pure _))
  · exact silent_copyBackLoop _ _
  · exact silent_bind (silent_Create _) fun _ =>
      silent_bind (silent_deflateLoop _ _ _ _) fun _ => silent_delete _
  · exact silent_hostDeflateLoop _ _ _

theorem silent_copyInLoop (p : ColorSpinorParam) :
    ∀ (vs : List Nat), Silent (copyInLoop p vs) := by
  intro vs
  induction vs with
  | nil => unfold VectorIO.copyInLoop; exact silent_pure _
  | cons v vs ih =>
    unfold VectorIO.copyInLoop
    exact silent_bind (silent_Create _) fun _ => silent_bind (silent_assign _ _) fun _ =>
      silent_bind ih fun _ => silent_pure _

theorem silent_inflateLoopDevice (p : ColorSpinorParam) (par : QudaParity) (ti : Nat) :
    ∀ (vs : List Nat), Silent (inflateLoopDevice p par ti vs) := by
  intro vs
  induction vs with
  | nil => unfold VectorIO.inflateLoopDevice; exact silent_pure _
  | cons v vs ih =>
    unfold VectorIO.inflateLoopDevice
    exact silent_bind (silent_Create _) fun _ => silent_bind (silent_assign _ _) fun _ =>
      silent_bind (silent_parityView _ _ _) fun _ => silent_bind (silent_deref _) fun _ =>
      silent_bind (silent_copy _ _) fun _ => silent_bind ih fun _ => silent_pure _

theorem silent_inflateLoopHost (p : ColorSpinorParam) (par : QudaParity) :
    ∀ (vs : List Nat), Silent (inflateLoopHost p par vs) := by
  intro vs
  induction vs with
  | nil => unfold VectorIO.inflateLoopHost; exact silent_pure _
  | cons v vs ih =>
    unfold VectorIO.inflateLoopHost
    exact silent_bind (silent_Create _) fun _ =>
      silent_bind (silent_parityView _ _ _) fun _ => silent_bind (silent_deref _) fun _ =>
      silent_bind (silent_copy _ _) fun _ => silent_bind ih fun _ => silent_pure _

theorem silent_saveStage (vio : VectorIO) (vecs : List Nat) (par : QudaParity) :
    Silent (saveStage vio vecs par) := by
  unfold VectorIO.saveStage
  refine silent_bind (silent_index _ _) fun _ => silent_bind (silent_deref _) fun v0 => ?_
  refine silent_ite (silent_ite ?_ ?_) (silent_ite ?_ ?_)
  · exact silent_copyInLoop _ _
  · exact silent_bind (silent_Create _) fun _ =>
      silent_bind (silent_inflateLoopDevice _ _ _ _) fun _ =>
      silent_bind (silent_delete _) fun _ => silent_pure _
  · exact silent_inflateLoopHost _ _ _
  · exact silent_pure _

theorem silent_deleteLoop : ∀ (ts : List Nat), Silent (deleteLoop ts) := by
  intro ts
  induction ts with
  | nil => unfold VectorIO.deleteLoop; exact silent_pure _
  | cons t ts ih =>
    unfold VectorIO.deleteLoop
    exact silent_bind (silent_delete _) fun _ => ih

theorem silent_saveRelease (vecs tmp : List Nat) : Silent (saveRelease vecs tmp) := by
  unfold VectorIO.saveRelease
  refine silent_bind (silent_index _ _) fun _ => silent_bind (silent_deref _) fun v0 => ?_
  exact silent_ite (silent_deleteLoop _) (silent_pure _)

/-! ### live fields are kept -/

theorem grows_refl (w : World) : Grows w w := fun _ _ h => h

theorem grows_trans {w1 w2 w3 : World} (h12 : Grows w1 w2) (h23 : Grows w2 w3) :
    Grows w1 w3 := fun h f hf => h23 h f (h12 h f hf)

theorem grows_alloc (w : World) (p : ColorSpinorParam) : Grows w (w.alloc p) :=
  fun _ _ hf => alloc_field_some w p hf

theorem grows_blit (w : World) (d s : View) : Grows w (w.blit d s) := fun _ _ hf => hf

theorem grows_transfer (w : World) (c : QioCall) : Grows w (w.transfer c) :=
  fun h f hf => by rw [transfer_field]; exact hf

theorem grows_live {w w1 : World} (hg : Grows w w1) {h : Nat} (hl : w.field h ≠ none) :
    w1.field h ≠ none := by
  obtain ⟨f, hf⟩ := Option.ne_none_iff_exists'.mp hl
  rw [hg h f hf]
  simp

/-! ### the staging loops: what they return -/

theorem createLoop_shape (p : ColorSpinorParam) :
    ∀ (n : Nat) (w : World), ∃ w1,
      createLoop p n w = (Except.ok (List.range' w.fields.length n), w1) ∧
      Grows w w1 ∧ w.brk ≤ w1.brk ∧
      (∀ a, a < w.brk → memGet w1.mem a = memGet w.mem a) ∧
      ∀ t ∈ List.range' w.fields.length n, ∃ a, w1.field t = some { param := p, v := a } := by
  intro n
  induction n with
  | zero =>
    intro w
    exact ⟨w, rfl, grows_refl w, le_refl _, fun _ _ => rfl, by simp⟩
  | succ n ih =>
    intro w
    obtain ⟨w1, hrun, hg, hb, hm, hnew⟩ := ih (w.alloc p)
    refine ⟨w1, ?_, grows_trans (grows_alloc w p) hg, ?_, ?_, ?_⟩
    · unfold VectorIO.createLoop
      rw [bind_ok (Create_run p w), bind_ok hrun]
      simp [pure_run, List.range'_succ]
    · have := alloc_brk w p
      omega
    · intro a ha
      rw [hm a (by have := alloc_brk w p; omega), alloc_mem_old w p (by omega)]
    · intro t ht
      rw [List.range'_succ, List.mem_cons] at ht
      rcases ht with ht | ht
      · subst ht
        exact ⟨w.brk, hg _ _ (alloc_field_new w p)⟩
      · apply hnew
        simpa using ht

theorem copyInLoop_shape (p : ColorSpinorParam) :
    ∀ (vs : List Nat) (w : World), (∀ h ∈ vs, w.field h ≠ none) → ∃ w1,
      copyInLoop p vs w = (Except.ok (List.range' w.fields.length vs.length), w1) ∧
      Grows w w1 ∧
      ∀ t ∈ List.range' w.fields.length vs.length,
        ∃ a, w1.field t = some { param := p, v := a } := by
  intro vs
  induction vs with
  | nil =>
    intro w _
    exact ⟨w, rfl, grows_refl w, by simp⟩
  | cons v vs ih =>
    intro w hl
    obtain ⟨fv, hfv⟩ := Option.ne_none_iff_exists'.mp (hl v (List.mem_cons_self _ _))
    have hassign := assign_ok (alloc_field_new w p) (alloc_field_some w p hfv)
    have hg2 : Grows w ((w.alloc p).blit (whole { param := p, v := w.brk }) (whole fv)) :=
      grows_trans (grows_alloc w p) (grows_blit _ _ _)
    obtain ⟨w1, hrun, hg, hnew⟩ := ih _
      (fun h hh => grows_live hg2 (hl h (List.mem_cons_of_mem _ hh)))
    refine ⟨w1, ?_, grows_trans hg2 hg, ?_⟩
    · unfold VectorIO.copyInLoop
      rw [bind_ok (Create_run p w), bind_ok hassign, bind_ok hrun]
      simp [pure_run, List.range'_succ]
    · intro t ht
      rw [List.length_cons, List.range'_succ, List.mem_cons] at ht
      rcases ht with ht | ht
      · subst ht
        exact ⟨w.brk, hg _ _ (alloc_field_new w p)⟩
      · apply hnew
        simpa using ht

theorem parityView_ok {w : World} {h : Nat} {f : ColorSpinorField} {par : QudaParity}
    (e : QudaError) (hp : par ≠ QudaParity.QUDA_INVALID_PARITY) (hf : w.field h = some f)
    (hs : f.param.siteSubset = QudaSiteSubset.QUDA_FULL_SITE_SUBSET) :
    parityView par h e w = (Except.ok (halfView par f), w) := by
  cases par with
  | QUDA_EVEN_PARITY => simpa [parityView, halfView] using Even_ok hf hs
  | QUDA_ODD_PARITY => simpa [parityView, halfView] using Odd_ok hf hs
  | QUDA_INVALID_PARITY => exact absurd rfl hp

theorem parityView_invalid (h : Nat) (e : QudaError) (w : World) :
    parityView QudaParity.QUDA_INVALID_PARITY h e w = (Except.error e, w) := rfl

theorem inflateLoopHost_shape (p : ColorSpinorParam) {par : QudaParity}
    (hp : par ≠ QudaParity.QUDA_INVALID_PARITY)
    (hs : p.siteSubset = QudaSiteSubset.QUDA_FULL_SITE_SUBSET) :
    ∀ (vs : List Nat) (w : World), (∀ h ∈ vs, w.field h ≠ none) → ∃ w1,
      inflateLoopHost p par vs w = (Except.ok (List.range' w.fields.length vs.length), w1) ∧
      Grows w w1 ∧
      ∀ t ∈ List.range' w.fields.length vs.length,
        ∃ a, w1.field t = some { param := p, v := a } := by
  intro vs
  induction vs with
  | nil =>
    intro w _
    exact ⟨w, rfl, grows_refl w, by simp⟩
  | cons v vs ih =>
    intro w hl
    obtain ⟨fv, hfv⟩ := Option.ne_none_iff_exists'.mp (hl v (List.mem_cons_self _ _))
    have hview := parityView_ok (w := w.alloc p) QudaError.paritySave hp
      (alloc_field_new w p) hs
    have hderef := deref_ok (alloc_field_some w p hfv)
    generalize halfView par { param := p, v := w.brk } = view at hview
    have hg2 : Grows w ((w.alloc p).blit view (whole fv)) :=
      grows_trans (grows_alloc w p) (grows_blit _ _ _)
    obtain ⟨w1, hrun, hg, hnew⟩ := ih _
      (fun h hh => grows_live hg2 (hl h (List.mem_cons_of_mem _ hh)))
    refine ⟨w1, ?_, grows_trans hg2 hg, ?_⟩
    · unfold VectorIO.inflateLoopHost
      rw [bind_ok (Create_run p w), bind_ok hview, bind_ok hderef, bind_ok (copy_run _ _ _),
        bind_ok hrun]
      simp [pure_run, List.range'_succ]
    · intro t ht
      rw [List.length_cons, List.range'_succ, List.mem_cons] at ht
      rcases ht with ht | ht
      · subst ht
        exact ⟨w.brk, hg _ _ (alloc_field_new w p)⟩
      · apply hnew
        simpa using ht

theorem inflateLoopHost_invalid (p : ColorSpinorParam) (v : Nat) (vs : List Nat) (w : World) :
    inflateLoopHost p QudaParity.QUDA_INVALID_PARITY (v :: vs) w =
      (Except.error QudaError.paritySave, w.alloc p) := by
  unfold VectorIO.inflateLoopHost
  rw [bind_ok (Create_run p w)]
  exact bind_error (parityView_invalid _ _ _)

theorem inflateLoopDevice_shape (p : ColorSpinorParam) {par : QudaParity}
    (hp : par ≠ QudaParity.QUDA_INVALID_PARITY)
    (hs : p.siteSubset = QudaSiteSubset.QUDA_FULL_SITE_SUBSET) (ti : Nat) :
    ∀ (vs : List Nat) (w : World), w.field ti ≠ none → (∀ h ∈ vs, w.field h ≠ none) → ∃ w1,
      inflateLoopDevice p par ti vs w =
        (Except.ok (List.range' w.fields.length vs.length), w1) ∧
      Grows w w1 ∧
      ∀ t ∈ List.range' w.fields.length vs.length,
        ∃ a, w1.field t = some { param := p, v := a } := by
  intro vs
  induction vs with
  | nil =>
    intro w _ _
    exact ⟨w, rfl, grows_refl w, by simp⟩
  | cons v vs ih =>
    intro w hti hl
    obtain ⟨fv, hfv⟩ := Option.ne_none_iff_exists'.mp (hl v (List.mem_cons_self _ _))
    obtain ⟨fi, hfi⟩ := Option.ne_none_iff_exists'.mp hti
    have hassign := assign_ok (alloc_field_some w p hfi) (alloc_field_some w p hfv)
    have hview := parityView_ok (w := (w.alloc p).blit (whole fi) (whole fv))
      QudaError.paritySave hp (alloc_field_new w p) hs
    have hderef : deref ti ((w.alloc p).blit (whole fi) (whole fv)) = _ :=
      deref_ok (alloc_field_some w p hfi)
    generalize halfView par { param := p, v := w.brk } = view at hview
    have hg2 : Grows w
        (((w.alloc p).blit (whole fi) (whole fv)).blit view (whole fi)) :=
      grows_trans (grows_alloc w p) (grows_trans (grows_blit _ _ _) (grows_blit _ _ _))
    obtain ⟨w1, hrun, hg, hnew⟩ := ih _ (grows_live hg2 hti)
      (fun h hh => grows_live hg2 (hl h (List.mem_cons_of_mem _ hh)))
    refine ⟨w1, ?_, grows_trans hg2 hg, ?_⟩
    · unfold VectorIO.inflateLoopDevice
      rw [bind_ok (Create_run p w), bind_ok hassign, bind_ok hview, bind_ok hderef,
        bind_ok (copy_run _ _ _), bind_ok hrun]
      simp [pure_run, List.range'_succ]
    · intro t ht
      rw [List.length_cons, List.range'_succ, List.mem_cons] at ht
      rcases ht with ht | ht
      · subst ht
        exact ⟨w.brk, hg _ _ (alloc_field_new w p)⟩
      · apply hnew
        simpa using ht

theorem inflateLoopDevice_invalid (p : ColorSpinorParam) (ti v : Nat) (vs : List Nat)
    (w : World) (hti : w.field ti ≠ none) (hv : w.field v ≠ none) :
    (inflateLoopDevice p QudaParity.QUDA_INVALID_PARITY ti (v :: vs) w).1 =
      Except.error QudaError.paritySave := by
  obtain ⟨fv, hfv⟩ := Option.ne_none_iff_exists'.mp hv
  obtain ⟨fi, hfi⟩ := Option.ne_none_iff_exists'.mp hti
  unfold VectorIO.inflateLoopDevice
  rw [bind_ok (Create_run p w),
    bind_ok (assign_ok (alloc_field_some w p hfi) (alloc_field_some w p hfv)),
    bind_error (parityView_invalid _ _ _)]

/-! ### the release loop -/

theorem deleteLoop_frame :
    ∀ (ts : List Nat) (w : World),
      (deleteLoop ts w).2.mem = w.mem ∧
      ∀ h, h ∉ ts → (deleteLoop ts w).2.field h = w.field h := by
  intro ts
  induction ts with
  | nil => intro w; exact ⟨rfl, fun _ _ => rfl⟩
  | cons t ts ih =>
    intro w
    unfold VectorIO.deleteLoop
    cases hf : w.field t with
    | none =>
      have : delete t w = (Except.error QudaError.badAccess, w) := by simp [delete, hf]
      rw [bind_error this]
      exact ⟨rfl, fun _ _ => rfl⟩
    | some f =>
      rw [bind_ok (delete_ok hf)]
      obtain ⟨h1, h2⟩ := ih (w.free t)
      refine ⟨by rw [h1]; rfl, fun h hh => ?_⟩
      rw [List.mem_cons, not_or] at hh
      rw [h2 h hh.2, free_field_ne w (Ne.symm hh.1)]

/-! ### the flattened pointer array -/

theorem fillInner_length (i Ls base stride : Nat) :
    ∀ (j : Nat) (V : List Nat), (fillInner i Ls base stride j V).length = V.length := by
  intro j
  induction j with
  | zero => intro V; rfl
  | succ j ih => intro V; simp [fillInner, ih]

theorem fillInner_get (i Ls base stride : Nat) :
    ∀ (j : Nat) (V : List Nat) (idx : Nat),
      (fillInner i Ls base stride j V)[idx]? =
        if i * Ls ≤ idx ∧ idx < i * Ls + j ∧ idx < V.length then
          some (base + (idx - i * Ls) * stride)
        else V[idx]? := by
  intro j
  induction j with
  | zero =>
    intro V idx
    simp only [fillInner, Nat.add_zero]
    rw [if_neg]
    intro h
    omega
  | succ j ih =>
    intro V idx
    simp only [fillInner, List.getElem?_set, fillInner_length, ih]
    by_cases h1 : i * Ls + j = idx
    · subst h1
      by_cases h2 : i * Ls + j < V.length
      · simp [h2]
      · simp only [h2, if_false, if_true, and_false]
        rw [List.getElem?_eq_none (by omega)]
    · simp only [h1, if_false]
      by_cases h3 : i * Ls ≤ idx ∧ idx < i * Ls + j ∧ idx < V.length
      · rw [if_pos h3, if_pos ⟨h3.1, by omega, h3.2.2⟩]
      · rw [if_neg h3, if_neg]
        intro h4
        exact h3 ⟨h4.1, by omega, h4.2.2⟩

theorem fillV_spec (Ls stride : Nat) :
    ∀ (ts : List Nat) (i : Nat) (V : List Nat) (w : World), (∀ t ∈ ts, w.field t ≠ none) →
      ∃ V1, fillV Ls stride ts i V w = (Except.ok V1, w) ∧ V1.length = V.length ∧
        (∀ idx, idx < i * Ls → V1[idx]? = V[idx]?) ∧
        ∀ k, k < ts.length → ∀ j, j < Ls → (i + k) * Ls + j < V.length →
          ∃ f, w.field (ts.getD k 0) = some f ∧
            V1[(i + k) * Ls + j]? = some (f.v + j * stride) := by
  intro ts
  induction ts with
  | nil =>
    intro i V w _
    exact ⟨V, rfl, rfl, fun _ _ => rfl, fun k hk => absurd hk (by simp)⟩
  | cons t ts ih =>
    intro i V w hl
    obtain ⟨f, hf⟩ := Option.ne_none_iff_exists'.mp (hl t (List.mem_cons_self _ _))
    obtain ⟨V1, hrun, hlen, hlow, hrows⟩ := ih (i + 1) (fillInner i Ls f.v stride Ls V) w
      (fun h hh => hl h (List.mem_cons_of_mem _ hh))
    refine ⟨V1, ?_, by rw [hlen, fillInner_length], ?_, ?_⟩
    · unfold VectorIO.fillV
      rw [bind_ok (deref_ok hf)]
      exact hrun
    · intro idx hidx
      rw [hlow idx (by nlinarith), fillInner_get, if_neg]
      intro h
      omega
    · intro k hk j hj hidx
      cases k with
      | zero =>
        refine ⟨f, by simpa using hf, ?_⟩
        rw [hlow _ (by simp only [Nat.add_zero]; nlinarith), fillInner_get, if_pos]
        · simp
        · simp only [Nat.add_zero] at hidx ⊢
          exact ⟨by omega, by omega, hidx⟩
      | succ k =>
        have hk2 : k < ts.length := by simpa using hk
        have e1 : (i + (k + 1)) * Ls = (i + 1 + k) * Ls := by ring
        obtain ⟨g, hg, hv⟩ := hrows k hk2 j hj (by rw [fillInner_length, ← e1]; exact hidx)
        refine ⟨g, by simpa using hg, ?_⟩
        rw [e1]
        exact hv

theorem flattenCall_spec (vio : VectorIO) (routine : QioRoutine) (par : QudaParity)
    {w : World} {v : Nat} {vs : List Nat} {f0 : ColorSpinorField} {t0h : Nat} {rest : List Nat}
    {t0 : ColorSpinorField} (hf : w.field v = some f0)
    (hd : f0.param.nDim = 4 ∨ f0.param.nDim = 5) (ht : w.field t0h = some t0)
    (hl : ∀ t ∈ t0h :: rest, w.field t ≠ none) (hlen : (t0h :: rest).length = (v :: vs).length)
    (hLs : (if f0.param.nDim = 5 then t0.param.X 4 else 1) ≠ 0) :
    ∃ V, flattenCall vio routine (v :: vs) (t0h :: rest) par w =
        (Except.ok (), w.transfer (flatCall vio routine par t0 (v :: vs).length
          (if f0.param.nDim = 5 then t0.param.X 4 else 1) V w.mem)) ∧
      V.length = (v :: vs).length * (if f0.param.nDim = 5 then t0.param.X 4 else 1) ∧
      ∀ i, i < (v :: vs).length → ∀ j, j < (if f0.param.nDim = 5 then t0.param.X 4 else 1) →
        ∃ f, w.field ((t0h :: rest).getD i 0) = some f ∧
          V[i * (if f0.param.nDim = 5 then t0.param.X 4 else 1) + j]? =
            some (f.v + j * (t0.param.Volume / (if f0.param.nDim = 5 then t0.param.X 4 else 1)
              * t0.param.nColor * t0.param.nSpin * 2 * t0.param.precision.toNat)) := by
  generalize hLsd : (if f0.param.nDim = 5 then t0.param.X 4 else 1) = Ls at hLs ⊢
  obtain ⟨V, hrun, hVlen, _, hrows⟩ := fillV_spec Ls
    (t0.param.Volume / Ls * t0.param.nColor * t0.param.nSpin * 2 * t0.param.precision.toNat)
    (t0h :: rest) 0 (List.replicate ((v :: vs).length * Ls) 0) w hl
  refine ⟨V, ?_, by simpa using hVlen, ?_⟩
  · unfold VectorIO.flattenCall
    rw [head_ok hf, if_pos hd, head_ok ht]
    simp only [hLsd, if_neg hLs]
    rw [bind_ok hrun]
    rfl
  · intro i hi j hj
    have hb : (0 + i) * Ls + j < (List.replicate ((v :: vs).length * Ls) 0).length := by
      rw [List.length_replicate, Nat.zero_add]
      calc i * Ls + j < i * Ls + Ls := by omega
        _ = (i + 1) * Ls := by ring
        _ ≤ (v :: vs).length * Ls := Nat.mul_le_mul_right _ hi
    obtain ⟨f, hfi, hv⟩ := hrows i (by rw [hlen]; exact hi) j hj hb
    rw [Nat.zero_add] at hv
    exact ⟨f, hfi, hv⟩

theorem flattenCall_badDim (vio : VectorIO) (routine : QioRoutine) (par : QudaParity)
    {w : World} {v : Nat} {vs : List Nat} {f0 : ColorSpinorField} (tmp : List Nat)
    (hf : w.field v = some f0) (h4 : f0.param.nDim ≠ 4) (h5 : f0.param.nDim ≠ 5) :
    flattenCall vio routine (v :: vs) tmp par w =
      (Except.error (QudaError.unexpectedDim f0.param.nDim), w) := by
  unfold VectorIO.flattenCall
  rw [head_ok hf, if_neg (by simp [h4, h5])]
  rfl

theorem locatedAt_of_field {w : World} {h : Nat} {f : ColorSpinorField}
    (hf : w.field h = some f) (loc : QudaFieldLocation) (hl : f.param.location = loc) :
    locatedAt w loc h = true := by
  simp [locatedAt, hf, hl]

theorem location_cpu {l : QudaFieldLocation}
    (h : l ≠ QudaFieldLocation.QUDA_CUDA_FIELD_LOCATION) :
    l = QudaFieldLocation.QUDA_CPU_FIELD_LOCATION := by
  cases l
  · rfl
  · exact absurd rfl h

theorem subset_full {s : QudaSiteSubset} (h : s ≠ QudaSiteSubset.QUDA_PARITY_SITE_SUBSET) :
    s = QudaSiteSubset.QUDA_FULL_SITE_SUBSET := by
  cases s
  · exact absurd rfl h
  · rfl

/-- Handles created in a row from one host parameter block: they are live, on the
host, and the first has the attributes of the block. -/
theorem staged_of_created {w1 : World} {p : ColorSpinorParam} {n : Nat} {base : Nat}
    (hnew : ∀ t ∈ List.range' base (n + 1), ∃ a, w1.field t = some { param := p, v := a })
    (hloc : p.location = QudaFieldLocation.QUDA_CPU_FIELD_LOCATION) :
    ∃ t0h rest t0, List.range' base (n + 1) = t0h :: rest ∧
      (t0h :: rest).length = n + 1 ∧
      (∀ t ∈ t0h :: rest, w1.field t ≠ none) ∧ w1.field t0h = some t0 ∧ t0.param = p ∧
      ∀ t ∈ t0h :: rest, locatedAt w1 QudaFieldLocation.QUDA_CPU_FIELD_LOCATION t = true := by
  obtain ⟨a, ha⟩ := hnew base (by simp [List.range'_succ])
  refine ⟨base, List.range' (base + 1) n, { param := p, v := a }, List.range'_succ _ _ _,
    by simp, ?_, ha, rfl, ?_⟩
  · intro t ht
    rw [← List.range'_succ] at ht
    obtain ⟨b, hb⟩ := hnew t ht
    rw [hb]; simp
  · intro t ht
    rw [← List.range'_succ] at ht
    obtain ⟨b, hb⟩ := hnew t ht
    exact locatedAt_of_field hb _ hloc

theorem loadStage_eq (vio : VectorIO) {w : World} {v : Nat} {vs : List Nat}
    {f0 : ColorSpinorField} (hf : w.field v = some f0) :
    loadStage vio (v :: vs) w =
      (if f0.param.location = QudaFieldLocation.QUDA_CUDA_FIELD_LOCATION then
        if f0.param.siteSubset = QudaSiteSubset.QUDA_PARITY_SITE_SUBSET
            ∧ vio.parity_inflate = true then
          createLoop (inflate (hostParam f0)) (vs.length + 1)
        else createLoop (hostParam f0) (vs.length + 1)
      else if f0.param.siteSubset = QudaSiteSubset.QUDA_PARITY_SITE_SUBSET
          ∧ vio.parity_inflate = true then
        createLoop (inflate (ColorSpinorParam.ofField f0)) (vs.length + 1)
      else pure (v :: vs)) w := by
  unfold VectorIO.loadStage
  rw [head_ok hf]
  rfl

/-- What the staging step of `load` returns: as many live handles as there are
members, the first with the staged attributes, all on the host when the members share
the location of member 0; the live fields of the caller are kept. -/
theorem loadStage_spec (vio : VectorIO) {w : World} {v : Nat} {vs : List Nat}
    {f0 : ColorSpinorField} (hf : w.field v = some f0) (hl : ∀ h ∈ vs, w.field h ≠ none) :
    ∃ t0h rest t0 w1, loadStage vio (v :: vs) w = (Except.ok (t0h :: rest), w1) ∧
      (t0h :: rest).length = (v :: vs).length ∧ Grows w w1 ∧
      (∀ t ∈ t0h :: rest, w1.field t ≠ none) ∧ w1.field t0h = some t0 ∧
      ColorSpinorParam.ofField t0 = stagedParam vio f0 ∧
      ((∀ h ∈ vs, locatedAt w f0.param.location h = true) →
        ∀ t ∈ t0h :: rest, locatedAt w1 QudaFieldLocation.QUDA_CPU_FIELD_LOCATION t = true) := by
  rw [loadStage_eq vio hf]
  by_cases hdev : f0.param.location = QudaFieldLocation.QUDA_CUDA_FIELD_LOCATION
  · by_cases hinf : f0.param.siteSubset = QudaSiteSubset.QUDA_PARITY_SITE_SUBSET
        ∧ vio.parity_inflate = true
    · obtain ⟨w1, hrun, hg, _, _, hnew⟩ :=
        createLoop_shape (inflate (hostParam f0)) (vs.length + 1) w
      obtain ⟨t0h, rest, t0, htmp, hlen, hlive, ht0, hp, hloc⟩ := staged_of_created hnew rfl
      refine ⟨t0h, rest, t0, w1, ?_, hlen, hg, hlive, ht0, ?_, fun _ => hloc⟩
      · rw [if_pos hdev, if_pos hinf, ← htmp]
        exact hrun
      · rw [stagedParam, if_pos hdev, if_pos hinf, ColorSpinorParam.ofField, hp]
        rfl
    · obtain ⟨w1, hrun, hg, _, _, hnew⟩ := createLoop_shape (hostParam f0) (vs.length + 1) w
      obtain ⟨t0h, rest, t0, htmp, hlen, hlive, ht0, hp, hloc⟩ := staged_of_created hnew rfl
      refine ⟨t0h, rest, t0, w1, ?_, hlen, hg, hlive, ht0, ?_, fun _ => hloc⟩
      · rw [if_pos hdev, if_neg hinf, ← htmp]
        exact hrun
      · rw [stagedParam, if_pos hdev, if_neg hinf, ColorSpinorParam.ofField, hp]
        rfl
  · by_cases hinf : f0.param.siteSubset = QudaSiteSubset.QUDA_PARITY_SITE_SUBSET
        ∧ vio.parity_inflate = true
    · obtain ⟨w1, hrun, hg, _, _, hnew⟩ :=
        createLoop_shape (inflate (ColorSpinorParam.ofField f0)) (vs.length + 1) w
      obtain ⟨t0h, rest, t0, htmp, hlen, hlive, ht0, hp, hloc⟩ :=
        staged_of_created hnew (location_cpu hdev)
      refine ⟨t0h, rest, t0, w1, ?_, hlen, hg, hlive, ht0, ?_, fun _ => hloc⟩
      · rw [if_neg hdev, if_pos hinf, ← htmp]
        exact hrun
      · rw [stagedParam, if_neg hdev, if_pos hinf, ColorSpinorParam.ofField, hp]
        rfl
    · refine ⟨v, vs, f0, w, ?_, rfl, grows_refl w, ?_, hf, ?_, ?_⟩
      · rw [if_neg hdev, if_neg hinf]
        rfl
      · intro t ht
        rcases List.mem_cons.mp ht with ht | ht
        · rw [ht, hf]; simp
        · exact hl t ht
      · rw [stagedParam, if_neg hdev, if_neg hinf]
      · intro hloc t ht
        rcases List.mem_cons.mp ht with ht | ht
        · rw [ht]; exact locatedAt_of_field hf _ (location_cpu hdev)
        · rw [← location_cpu hdev]; exact hloc t ht

theorem saveStage_eq (vio : VectorIO) (par : QudaParity) {w : World} {v : Nat} {vs : List Nat}
    {f0 : ColorSpinorField} (hf : w.field v = some f0) :
    saveStage vio (v :: vs) par w =
      (if f0.param.location = QudaFieldLocation.QUDA_CUDA_FIELD_LOCATION then
        if f0.param.siteSubset = QudaSiteSubset.QUDA_FULL_SITE_SUBSET
            ∨ vio.parity_inflate = false then
          copyInLoop (hostParam f0) (v :: vs)
        else
          Create (hostParam f0) >>= fun ti =>
            inflateLoopDevice (zeroed (inflate (hostParam f0))) par ti (v :: vs) >>= fun tmp =>
              delete ti >>= fun _ => pure tmp
      else if f0.param.siteSubset = QudaSiteSubset.QUDA_PARITY_SITE_SUBSET
          ∧ vio.parity_inflate = true then
        inflateLoopHost (zeroed (inflate (ColorSpinorParam.ofField f0))) par (v :: vs)
      else pure (v :: vs)) w := by
  unfold VectorIO.saveStage
  rw [head_ok hf]
  rfl

theorem not_full_or {s : QudaSiteSubset} {b : Bool}
    (h : ¬(s = QudaSiteSubset.QUDA_FULL_SITE_SUBSET ∨ b = false)) :
    s = QudaSiteSubset.QUDA_PARITY_SITE_SUBSET ∧ b = true := by
  cases s <;> cases b <;> simp at h ⊢

theorem full_or_not {s : QudaSiteSubset} {b : Bool}
    (h : s = QudaSiteSubset.QUDA_FULL_SITE_SUBSET ∨ b = false) :
    ¬(s = QudaSiteSubset.QUDA_PARITY_SITE_SUBSET ∧ b = true) := by
  cases s <;> cases b <;> simp at h ⊢

/-- What the staging step of `save` returns when the suggested parity is set where it
is needed: as for `load`. -/
theorem saveStage_spec (vio : VectorIO) (par : QudaParity) {w : World} {v : Nat}
    {vs : List Nat} {f0 : ColorSpinorField} (hf : w.field v = some f0)
    (hl : ∀ h ∈ vs, w.field h ≠ none)
    (hok : ¬(f0.param.siteSubset = QudaSiteSubset.QUDA_PARITY_SITE_SUBSET
      ∧ vio.parity_inflate = true ∧ par = QudaParity.QUDA_INVALID_PARITY)) :
    ∃ t0h rest t0 w1, saveStage vio (v :: vs) par w = (Except.ok (t0h :: rest), w1) ∧
      (t0h :: rest).length = (v :: vs).length ∧ Grows w w1 ∧
      (∀ t ∈ t0h :: rest, w1.field t ≠ none) ∧ w1.field t0h = some t0 ∧
      ColorSpinorParam.ofField t0 = stagedParam vio f0 ∧
      ((∀ h ∈ vs, locatedAt w f0.param.location h = true) →
        ∀ t ∈ t0h :: rest, locatedAt w1 QudaFieldLocation.QUDA_CPU_FIELD_LOCATION t = true) := by
  rw [saveStage_eq vio par hf]
  have hlive : ∀ h ∈ v :: vs, w.field h ≠ none := by
    intro h hh
    rcases List.mem_cons.mp hh with hh | hh
    · rw [hh, hf]; simp
    · exact hl h hh
  by_cases hdev : f0.param.location = QudaFieldLocation.QUDA_CUDA_FIELD_LOCATION
  · by_cases hcpy : f0.param.siteSubset = QudaSiteSubset.QUDA_FULL_SITE_SUBSET
        ∨ vio.parity_inflate = false
    · obtain ⟨w1, hrun, hg, hnew⟩ := copyInLoop_shape (hostParam f0) (v :: vs) w hlive
      obtain ⟨t0h, rest, t0, htmp, hlen, hlv, ht0, hp, hloc⟩ := staged_of_created hnew rfl
      refine ⟨t0h, rest, t0, w1, ?_, hlen, hg, hlv, ht0, ?_, fun _ => hloc⟩
      · rw [if_pos hdev, if_pos hcpy, ← htmp]
        exact hrun
      · rw [stagedParam, if_pos hdev, if_neg (full_or_not hcpy), ColorSpinorParam.ofField, hp]
        rfl
    · have hinf := not_full_or hcpy
      have hpar : par ≠ QudaParity.QUDA_INVALID_PARITY := fun h => hok ⟨hinf.1, hinf.2, h⟩
      obtain ⟨w2, hrun, hg, hnew⟩ := inflateLoopDevice_shape
        (zeroed (inflate (hostParam f0))) hpar rfl w.fields.length (v :: vs)
        (w.alloc (hostParam f0)) (by rw [alloc_field_new]; simp)
        (fun h hh => grows_live (grows_alloc w _) (hlive h hh))
      have hlen1 : (w.alloc (hostParam f0)).fields.length = w.fields.length + 1 := by simp
      rw [hlen1] at hrun hnew
      have hti : w2.field w.fields.length
          = some { param := hostParam f0, v := w.brk } := hg _ _ (alloc_field_new w _)
      have hnew3 : ∀ t ∈ List.range' (w.fields.length + 1) (vs.length + 1),
          ∃ a, (w2.free w.fields.length).field t
            = some { param := zeroed (inflate (hostParam f0)), v := a } := by
        intro t ht
        obtain ⟨a, ha⟩ := hnew t ht
        refine ⟨a, ?_⟩
        rw [free_field_ne w2 (by have := (List.mem_range'_1.mp ht).1; omega)]
        exact ha
      obtain ⟨t0h, rest, t0, htmp, hlen, hlv, ht0, hp, hloc⟩ := staged_of_created hnew3 rfl
      refine ⟨t0h, rest, t0, w2.free w.fields.length, ?_, hlen, ?_, hlv, ht0, ?_,
        fun _ => hloc⟩
      · rw [if_pos hdev, if_neg hcpy, bind_ok (Create_run _ w), bind_ok hrun,
          bind_ok (delete_ok hti), ← htmp]
        rfl
      · intro h f hhf
        rw [free_field_ne w2 (by have := field_some_lt hhf; omega)]
        exact hg _ _ (alloc_field_some w _ hhf)
      · rw [stagedParam, if_pos hdev, if_pos hinf, ColorSpinorParam.ofField, hp]
        rfl
  · by_cases hinf : f0.param.siteSubset = QudaSiteSubset.QUDA_PARITY_SITE_SUBSET
        ∧ vio.parity_inflate = true
    · have hpar : par ≠ QudaParity.QUDA_INVALID_PARITY := fun h => hok ⟨hinf.1, hinf.2, h⟩
      obtain ⟨w1, hrun, hg, hnew⟩ := inflateLoopHost_shape
        (zeroed (inflate (ColorSpinorParam.ofField f0))) hpar rfl (v :: vs) w hlive
      obtain ⟨t0h, rest, t0, htmp, hlen, hlv, ht0, hp, hloc⟩ :=
        staged_of_created hnew (location_cpu hdev)
      refine ⟨t0h, rest, t0, w1, ?_, hlen, hg, hlv, ht0, ?_, fun _ => hloc⟩
      · rw [if_neg hdev, if_pos hinf, ← htmp]
        exact hrun
      · rw [stagedParam, if_neg hdev, if_pos hinf, ColorSpinorParam.ofField, hp]
        rfl
    · refine ⟨v, vs, f0, w, ?_, rfl, grows_refl w, hlive, hf, ?_, ?_⟩
      · rw [if_neg hdev, if_neg hinf]
        rfl
      · rw [stagedParam, if_neg hdev, if_neg hinf]
      · intro hloc t ht
        rcases List.mem_cons.mp ht with ht | ht
        · rw [ht]; exact locatedAt_of_field hf _ (location_cpu hdev)
        · rw [← location_cpu hdev]; exact hloc t ht

theorem saveStage_invalid (vio : VectorIO) {w : World} {v : Nat} {vs : List Nat}
    {f0 : ColorSpinorField} (hf : w.field v = some f0)
    (hs : f0.param.siteSubset = QudaSiteSubset.QUDA_PARITY_SITE_SUBSET)
    (hi : vio.parity_inflate = true) :
    (saveStage vio (v :: vs) QudaParity.QUDA_INVALID_PARITY w).1 =
      Except.error QudaError.paritySave := by
  rw [saveStage_eq vio _ hf]
  by_cases hdev : f0.param.location = QudaFieldLocation.QUDA_CUDA_FIELD_LOCATION
  · rw [if_pos hdev, if_neg (by simp [hs, hi]), bind_ok (Create_run _ w)]
    have h1 := inflateLoopDevice_invalid (zeroed (inflate (hostParam f0))) w.fields.length v vs
      (w.alloc (hostParam f0)) (by rw [alloc_field_new]; simp)
      (grows_live (grows_alloc w _) (by rw [hf]; simp))
    rw [bind_run]
    unfold M.bind
    rcases hr : inflateLoopDevice (zeroed (inflate (hostParam f0)))
      QudaParity.QUDA_INVALID_PARITY w.fields.length (v :: vs) (w.alloc (hostParam f0))
      with ⟨r, w2⟩
    rw [hr] at h1
    simp only at h1
    subst h1
    rfl
  · rw [if_neg hdev, if_pos ⟨hs, hi⟩, inflateLoopHost_invalid]

theorem doubleX0_getD_succ (x : List Nat) (d : Nat) :
    (doubleX0 x).getD (d + 1) 0 = x.getD (d + 1) 0 := by
  cases x <;> simp [doubleX0]

theorem stagedParam_X4 (vio : VectorIO) (f0 : ColorSpinorField) :
    (stagedParam vio f0).X 4 = f0.param.X 4 := by
  unfold stagedParam
  split
  · split
    · exact doubleX0_getD_succ _ 3
    · rfl
  · split
    · exact doubleX0_getD_succ _ 3
    · rfl

theorem ofField_X (t0 : ColorSpinorField) (d : Nat) :
    (ColorSpinorParam.ofField t0).X d = t0.param.X d := rfl

theorem staged_Ls_ne {vio : VectorIO} {f0 t0 : ColorSpinorField}
    (hp : ColorSpinorParam.ofField t0 = stagedParam vio f0)
    (hLs : f0.param.nDim = 5 → f0.param.X 4 ≠ 0) :
    (if f0.param.nDim = 5 then t0.param.X 4 else 1) ≠ 0 := by
  split
  · rename_i h5
    rw [← ofField_X, hp, stagedParam_X4]
    exact hLs h5
  · simp

/-- The external call of `loadBody`: the staged collection, and the call logged with
the flattened pointer array of that collection. -/
theorem loadBody_call (vio : VectorIO) (routine : QioRoutine) {w : World} {v : Nat}
    {vs : List Nat} {f0 : ColorSpinorField} (hf : w.field v = some f0)
    (hl : ∀ h ∈ vs, w.field h ≠ none) (hd : f0.param.nDim = 4 ∨ f0.param.nDim = 5)
    (hLs : f0.param.nDim = 5 → f0.param.X 4 ≠ 0) :
    ∃ t0h rest t0 w1 V, loadStage vio (v :: vs) w = (Except.ok (t0h :: rest), w1) ∧
      (t0h :: rest).length = (v :: vs).length ∧ Grows w w1 ∧ w1.field t0h = some t0 ∧
      ColorSpinorParam.ofField t0 = stagedParam vio f0 ∧
      ((∀ h ∈ vs, locatedAt w f0.param.location h = true) →
        ∀ t ∈ t0h :: rest, locatedAt w1 QudaFieldLocation.QUDA_CPU_FIELD_LOCATION t = true) ∧
      Flattened w1 (t0h :: rest) (if f0.param.nDim = 5 then t0.param.X 4 else 1)
        (t0.param.Volume / (if f0.param.nDim = 5 then t0.param.X 4 else 1)
          * t0.param.nColor * t0.param.nSpin * 2 * t0.param.precision.toNat) V ∧
      loadBody vio routine (v :: vs) w =
        loadReconcile vio (v :: vs) (t0h :: rest) f0.param.suggested_parity
          (w1.transfer (flatCall vio routine f0.param.suggested_parity t0 (v :: vs).length
            (if f0.param.nDim = 5 then t0.param.X 4 else 1) V w1.mem)) ∧
      (loadBody vio routine (v :: vs) w).2.calls =
        flatCall vio routine f0.param.suggested_parity t0 (v :: vs).length
          (if f0.param.nDim = 5 then t0.param.X 4 else 1) V w1.mem :: w.calls := by
  obtain ⟨t0h, rest, t0, w1, hrun, hlen, hg, hlive, ht0, hp, hloc⟩ := loadStage_spec vio hf hl
  obtain ⟨V, hcall, hVlen, hV⟩ := flattenCall_spec vio routine f0.param.suggested_parity
    (hg _ _ hf) hd ht0 hlive hlen (staged_Ls_ne hp hLs)
  have hbody : loadBody vio routine (v :: vs) w =
      loadReconcile vio (v :: vs) (t0h :: rest) f0.param.suggested_parity
        (w1.transfer (flatCall vio routine f0.param.suggested_parity t0 (v :: vs).length
          (if f0.param.nDim = 5 then t0.param.X 4 else 1) V w1.mem)) := by
    unfold VectorIO.loadBody
    rw [head_ok hf, bind_ok hrun, bind_ok hcall]
  refine ⟨t0h, rest, t0, w1, V, hrun, hlen, hg, ht0, hp, hloc, ⟨by rw [hVlen, hlen], ?_⟩,
    hbody, ?_⟩
  · intro i hi j hj
    exact hV i (by rw [← hlen]; exact hi) j hj
  · rw [hbody, silent_loadReconcile, transfer_calls]
    have := silent_loadStage vio (v :: vs) w
    rw [hrun] at this
    rw [this]

/-- The external call of `saveBody`: the staged collection, and the call logged with
the flattened pointer array of that collection. -/
theorem saveBody_call (vio : VectorIO) (routine : QioRoutine) {w : World} {v : Nat}
    {vs : List Nat} {f0 : ColorSpinorField} (hf : w.field v = some f0)
    (hl : ∀ h ∈ vs, w.field h ≠ none) (hd : f0.param.nDim = 4 ∨ f0.param.nDim = 5)
    (hLs : f0.param.nDim = 5 → f0.param.X 4 ≠ 0)
    (hok : ¬(f0.param.siteSubset = QudaSiteSubset.QUDA_PARITY_SITE_SUBSET
      ∧ vio.parity_inflate = true
      ∧ f0.param.suggested_parity = QudaParity.QUDA_INVALID_PARITY)) :
    ∃ t0h rest t0 w1 V,
      saveStage vio (v :: vs) f0.param.suggested_parity w = (Except.ok (t0h :: rest), w1) ∧
      (t0h :: rest).length = (v :: vs).length ∧ Grows w w1 ∧ w1.field t0h = some t0 ∧
      ColorSpinorParam.ofField t0 = stagedParam vio f0 ∧
      ((∀ h ∈ vs, locatedAt w f0.param.location h = true) →
        ∀ t ∈ t0h :: rest, locatedAt w1 QudaFieldLocation.QUDA_CPU_FIELD_LOCATION t = true) ∧
      Flattened w1 (t0h :: rest) (if f0.param.nDim = 5 then t0.param.X 4 else 1)
        (t0.param.Volume / (if f0.param.nDim = 5 then t0.param.X 4 else 1)
          * t0.param.nColor * t0.param.nSpin * 2 * t0.param.precision.toNat) V ∧
      saveBody vio routine (v :: vs) w =
        saveRelease (v :: vs) (t0h :: rest)
          (w1.transfer (flatCall vio routine f0.param.suggested_parity t0 (v :: vs).length
            (if f0.param.nDim = 5 then t0.param.X 4 else 1) V w1.mem)) ∧
      (saveBody vio routine (v :: vs) w).2.calls =
        flatCall vio routine f0.param.suggested_parity t0 (v :: vs).length
          (if f0.param.nDim = 5 then t0.param.X 4 else 1) V w1.mem :: w.calls := by
  obtain ⟨t0h, rest, t0, w1, hrun, hlen, hg, hlive, ht0, hp, hloc⟩ :=
    saveStage_spec vio f0.param.suggested_parity hf hl hok
  obtain ⟨V, hcall, hVlen, hV⟩ := flattenCall_spec vio routine f0.param.suggested_parity
    (hg _ _ hf) hd ht0 hlive hlen (staged_Ls_ne hp hLs)
  have hbody : saveBody vio routine (v :: vs) w =
      saveRelease (v :: vs) (t0h :: rest)
        (w1.transfer (flatCall vio routine f0.param.suggested_parity t0 (v :: vs).length
          (if f0.param.nDim = 5 then t0.param.X 4 else 1) V w1.mem)) := by
    unfold VectorIO.saveBody
    rw [head_ok hf, bind_ok hrun, bind_ok hcall]
  refine ⟨t0h, rest, t0, w1, V, hrun, hlen, hg, ht0, hp, hloc, ⟨by rw [hVlen, hlen], ?_⟩,
    hbody, ?_⟩
  · intro i hi j hj
    exact hV i (by rw [← hlen]; exact hi) j hj
  · rw [hbody, silent_saveRelease, transfer_calls]
    have := silent_saveStage vio (v :: vs) f0.param.suggested_parity w
    rw [hrun] at this
    rw [this]

/-! ### the alias loop -/

@[simp] theorem push_fields (w : World) (f : ColorSpinorField) :
    (w.push f).fields = w.fields ++ [some f] := rfl

theorem push_field_old (w : World) (f : ColorSpinorField) {h : Nat}
    (hl : h < w.fields.length) : (w.push f).field h = w.field h := by
  simp only [World.field, push_fields]
  exact List.getD_append _ _ _ _ hl

theorem field_append_left {w w1 : World} {l : List (Option ColorSpinorField)}
    (h : w1.fields = w.fields ++ l) {k : Nat} (hk : k < w.fields.length) :
    w1.field k = w.field k := by
  simp only [World.field, h]
  exact List.getD_append _ _ _ _ hk

theorem field_append_right {w w1 : World} {l : List (Option ColorSpinorField)}
    (h : w1.fields = w.fields ++ l) (i : Nat) :
    w1.field (w.fields.length + i) = l.getD i none := by
  simp only [World.field, h]
  rw [List.getD_append_right _ _ _ _ (by omega), Nat.add_sub_cancel_left]

theorem aliasLoop_run (p : ColorSpinorParam) :
    ∀ (vs out : List Nat) (w : World), (∀ h ∈ vs, w.field h ≠ none) →
      ∃ w1, aliasLoop p vs out w =
          (Except.ok (), out ++ List.range' w.fields.length vs.length, w1) ∧
        w1.fields = w.fields ++ vs.map (fun h => (w.field h).map (fun f => aliasOf f p)) ∧
        w1.mem = w.mem ∧ w1.released = w.released ∧ w1.brk = w.brk := by
  intro vs
  induction vs with
  | nil => intro out w _; exact ⟨w, by simp [aliasLoop], by simp, rfl, rfl, rfl⟩
  | cons v vs ih =>
    intro out w hl
    obtain ⟨f, hf⟩ := Option.ne_none_iff_exists'.mp (hl v (List.mem_cons_self _ _))
    have hstep : CreateAlias v p w = (Except.ok w.fields.length, w.push (aliasOf f p)) := by
      simp [CreateAlias, hf]
    have hkeep : ∀ h ∈ vs, (w.push (aliasOf f p)).field h = w.field h := fun h hh =>
      push_field_old w _ (field_lt (hl h (List.mem_cons_of_mem _ hh)))
    obtain ⟨w1, hrun, hfields, hmem, hrel, hcalls⟩ := ih (out ++ [w.fields.length])
      (w.push (aliasOf f p)) (fun h hh => by rw [hkeep h hh]; exact hl h (List.mem_cons_of_mem _ hh))
    refine ⟨w1, ?_, ?_, hmem, hrel, hcalls⟩
    · rw [aliasLoop, hstep]
      simp only
      rw [hrun]
      simp [List.range'_succ]
    · rw [hfields]
      simp only [push_fields, List.map_cons, hf, Option.map_some', List.append_assoc,
        List.singleton_append]
      congr 2
      exact List.map_congr_left fun h hh => by rw [hkeep h hh]

theorem saveBody_invalid (vio : VectorIO) (routine : QioRoutine) {w : World} {v : Nat}
    {vs : List Nat} {f0 : ColorSpinorField} (hf : w.field v = some f0)
    (hs : f0.param.siteSubset = QudaSiteSubset.QUDA_PARITY_SITE_SUBSET)
    (hi : vio.parity_inflate = true)
    (hp : f0.param.suggested_parity = QudaParity.QUDA_INVALID_PARITY) :
    (saveBody vio routine (v :: vs) w).1 = Except.error QudaError.paritySave ∧
    (saveBody vio routine (v :: vs) w).2.calls = w.calls := by
  have hst := @saveStage_invalid vio w v vs f0 hf hs hi
  have hsil := silent_saveStage vio (v :: vs) QudaParity.QUDA_INVALID_PARITY w
  rcases hr : saveStage vio (v :: vs) QudaParity.QUDA_INVALID_PARITY w with ⟨r, w2⟩
  rw [hr] at hst hsil
  simp only at hst hsil
  subst hst
  have hbody : saveBody vio routine (v :: vs) w = (Except.error QudaError.paritySave, w2) := by
    unfold VectorIO.saveBody
    rw [head_ok hf, hp, bind_error hr]
  rw [hbody]
  exact ⟨rfl, hsil⟩

theorem loadBody_badDim (vio : VectorIO) (routine : QioRoutine) {w : World} {v : Nat}
    {vs : List Nat} {f0 : ColorSpinorField} (hf : w.field v = some f0)
    (hl : ∀ h ∈ vs, w.field h ≠ none) (h4 : f0.param.nDim ≠ 4) (h5 : f0.param.nDim ≠ 5) :
    (loadBody vio routine (v :: vs) w).1 = Except.error (QudaError.unexpectedDim f0.param.nDim) ∧
    (loadBody vio routine (v :: vs) w).2.calls = w.calls := by
  obtain ⟨t0h, rest, t0, w1, hrun, _, hg, _, _, _, _⟩ := loadStage_spec vio hf hl
  have hsil := silent_loadStage vio (v :: vs) w
  rw [hrun] at hsil
  have hbody : loadBody vio routine (v :: vs) w =
      (Except.error (QudaError.unexpectedDim f0.param.nDim), w1) := by
    unfold VectorIO.loadBody
    rw [head_ok hf, bind_ok hrun,
      bind_error (flattenCall_badDim vio routine _ _ (hg _ _ hf) h4 h5)]
  rw [hbody]
  exact ⟨rfl, hsil⟩

theorem saveBody_badDim (vio : VectorIO) (routine : QioRoutine) {w : World} {v : Nat}
    {vs : List Nat} {f0 : ColorSpinorField} (hf : w.field v = some f0)
    (hl : ∀ h ∈ vs, w.field h ≠ none) (h4 : f0.param.nDim ≠ 4) (h5 : f0.param.nDim ≠ 5)
    (hok : ¬(f0.param.siteSubset = QudaSiteSubset.QUDA_PARITY_SITE_SUBSET
      ∧ vio.parity_inflate = true
      ∧ f0.param.suggested_parity = QudaParity.QUDA_INVALID_PARITY)) :
    (saveBody vio routine (v :: vs) w).1 = Except.error (QudaError.unexpectedDim f0.param.nDim) ∧
    (saveBody vio routine (v :: vs) w).2.calls = w.calls := by
  obtain ⟨t0h, rest, t0, w1, hrun, _, hg, _, _, _, _⟩ :=
    saveStage_spec vio f0.param.suggested_parity hf hl hok
  have hsil := silent_saveStage vio (v :: vs) f0.param.suggested_parity w
  rw [hrun] at hsil
  have hbody : saveBody vio routine (v :: vs) w =
      (Except.error (QudaError.unexpectedDim f0.param.nDim), w1) := by
    unfold VectorIO.saveBody
    rw [head_ok hf, bind_ok hrun,
      bind_error (flattenCall_badDim vio routine _ _ (hg _ _ hf) h4 h5)]
  rw [hbody]
  exact ⟨rfl, hsil⟩

theorem stagedParam_precision (vio : VectorIO) (f0 : ColorSpinorField) :
    (stagedParam vio f0).precision =
      (if f0.param.location = QudaFieldLocation.QUDA_CUDA_FIELD_LOCATION then
        hostPrecision f0.param.precision
      else f0.param.precision) := by
  unfold stagedParam
  split
  · split <;> rfl
  · split <;> rfl

theorem stagedParam_full (vio : VectorIO) (f0 : ColorSpinorField)
    (hi : vio.parity_inflate = true) :
    (stagedParam vio f0).siteSubset = QudaSiteSubset.QUDA_FULL_SITE_SUBSET := by
  unfold stagedParam
  split
  · split
    · rfl
    · rename_i h
      exact subset_full fun hs => h ⟨hs, hi⟩
  · split
    · rfl
    · rename_i h
      exact subset_full fun hs => h ⟨hs, hi⟩

theorem stagedParam_x (vio : VectorIO) (f0 : ColorSpinorField)
    (hs : f0.param.siteSubset = QudaSiteSubset.QUDA_PARITY_SITE_SUBSET)
    (hi : vio.parity_inflate = true) :
    (stagedParam vio f0).x = doubleX0 f0.param.x := by
  unfold stagedParam
  split
  · rw [if_pos ⟨hs, hi⟩]; rfl
  · rw [if_pos ⟨hs, hi⟩]; rfl

theorem location_of_locatedAt {w : World} {h : Nat} {f : ColorSpinorField}
    {loc : QudaFieldLocation} (hf : w.field h = some f) (hl : locatedAt w loc h = true) :
    f.param.location = loc := by
  simpa [locatedAt, hf] using hl

theorem live_of_locatedAt {w : World} {loc : QudaFieldLocation} {vs : List Nat}
    (hloc : ∀ h ∈ vs, locatedAt w loc h = true) : ∀ h ∈ vs, w.field h ≠ none := by
  intro h hh hn
  have := hloc h hh
  simp [locatedAt, hn] at this

theorem hostStaged_of_call (vio : VectorIO) (routine : QioRoutine) {w w1 final : World}
    {f0 t0 : ColorSpinorField} {Nvec t0h : Nat} {rest V : List Nat}
    {stage : Except QudaError (List Nat) × World}
    (hrun : stage = (Except.ok (t0h :: rest), w1)) (hlen : (t0h :: rest).length = Nvec)
    (ht0 : w1.field t0h = some t0) (hp : ColorSpinorParam.ofField t0 = stagedParam vio f0)
    (hhost : ∀ t ∈ t0h :: rest,
      locatedAt w1 QudaFieldLocation.QUDA_CPU_FIELD_LOCATION t = true)
    (hV : Flattened w1 (t0h :: rest) (if f0.param.nDim = 5 then t0.param.X 4 else 1)
      (t0.param.Volume / (if f0.param.nDim = 5 then t0.param.X 4 else 1)
        * t0.param.nColor * t0.param.nSpin * 2 * t0.param.precision.toNat) V)
    (hcalls : final.calls =
      flatCall vio routine f0.param.suggested_parity t0 Nvec
        (if f0.param.nDim = 5 then t0.param.X 4 else 1) V w1.mem :: w.calls) :
    HostStaged vio f0 Nvec w stage final := by
  refine ⟨t0h :: rest, w1, _, t0, hrun, hcalls, hlen, ht0, hhost, ?_, ?_, rfl, rfl, rfl, ?_,
    fun hi => ?_⟩
  · exact hV.1.trans (by rw [hlen])
  · intro i hi j hj
    obtain ⟨ti, hti, hv⟩ := hV.2 i (by rw [hlen]; exact hi) j hj
    refine ⟨ti, hti, location_of_locatedAt hti (hhost _ ?_), hv⟩
    rw [List.getD_eq_getElem _ _ (by rw [hlen]; exact hi)]
    exact List.getElem_mem _
  · exact (congrArg ColorSpinorParam.precision hp).trans (stagedParam_precision vio f0)
  · exact (congrArg ColorSpinorParam.siteSubset hp).trans (stagedParam_full vio f0 hi)

theorem hostStaged_loadBody (vio : VectorIO) (routine : QioRoutine) {w : World} {v : Nat}
    {vs : List Nat} {f0 : ColorSpinorField} (hf : w.field v = some f0)
    (hloc : ∀ h ∈ vs, locatedAt w f0.param.location h = true)
    (hd : f0.param.nDim = 4 ∨ f0.param.nDim = 5)
    (hLs : f0.param.nDim = 5 → f0.param.X 4 ≠ 0) :
    HostStaged vio f0 (v :: vs).length w (loadStage vio (v :: vs) w)
      (loadBody vio routine (v :: vs) w).2 := by
  obtain ⟨t0h, rest, t0, w1, V, hrun, hlen, _, ht0, hp, hhost, hV, _, hcalls⟩ :=
    loadBody_call vio routine hf (live_of_locatedAt hloc) hd hLs
  exact hostStaged_of_call vio routine hrun hlen ht0 hp (hhost hloc) hV hcalls

theorem hostStaged_saveBody (vio : VectorIO) (routine : QioRoutine) {w : World} {v : Nat}
    {vs : List Nat} {f0 : ColorSpinorField} (hf : w.field v = some f0)
    (hloc : ∀ h ∈ vs, locatedAt w f0.param.location h = true)
    (hd : f0.param.nDim = 4 ∨ f0.param.nDim = 5)
    (hLs : f0.param.nDim = 5 → f0.param.X 4 ≠ 0)
    (hok : ¬(f0.param.siteSubset = QudaSiteSubset.QUDA_PARITY_SITE_SUBSET
      ∧ vio.parity_inflate = true
      ∧ f0.param.suggested_parity = QudaParity.QUDA_INVALID_PARITY)) :
    HostStaged vio f0 (v :: vs).length w
      (saveStage vio (v :: vs) f0.param.suggested_parity w)
      (saveBody vio routine (v :: vs) w).2 := by
  obtain ⟨t0h, rest, t0, w1, V, hrun, hlen, _, ht0, hp, hhost, hV, _, hcalls⟩ :=
    saveBody_call vio routine hf (live_of_locatedAt hloc) hd hLs hok
  exact hostStaged_of_call vio routine hrun hlen ht0 hp (hhost hloc) hV hcalls

theorem deflateLoop_invalid (ti v t : Nat) (vs ts : List Nat) (w : World) :
    deflateLoop QudaParity.QUDA_INVALID_PARITY ti (v :: vs) (t :: ts) w =
      (Except.error QudaError.parityLoad, w) := by
  unfold VectorIO.deflateLoop
  exact bind_error (parityView_invalid _ _ _)

theorem loadReconcile_invalid (vio : VectorIO) {w : World} {v t : Nat} {vs ts : List Nat}
    {f0 : ColorSpinorField} (hf : w.field v = some f0)
    (hs : f0.param.siteSubset = QudaSiteSubset.QUDA_PARITY_SITE_SUBSET)
    (hi : vio.parity_inflate = true) :
    (loadReconcile vio (v :: vs) (t :: ts) QudaParity.QUDA_INVALID_PARITY w).1 =
      Except.error QudaError.parityLoad := by
  unfold VectorIO.loadReconcile
  rw [head_ok hf]
  by_cases hdev : f0.param.location = QudaFieldLocation.QUDA_CUDA_FIELD_LOCATION
  · rw [if_pos hdev, if_neg (by simp [ColorSpinorParam.ofField, hs, hi]),
      bind_ok (Create_run _ w)]
    rw [bind_error (deflateLoop_invalid _ _ _ _ _ _)]
  · rw [if_neg hdev, if_pos ⟨location_cpu hdev, hs⟩]
    unfold VectorIO.hostDeflateLoop
    rw [bind_error (parityView_invalid _ _ _)]

theorem loadReconcile_copyBack (vio : VectorIO) (par : QudaParity) {w : World} {v : Nat}
    {vs tmp : List Nat} {f0 : ColorSpinorField} (hf : w.field v = some f0)
    (hdev : f0.param.location = QudaFieldLocation.QUDA_CUDA_FIELD_LOCATION)
    (hi : vio.parity_inflate = false) :
    loadReconcile vio (v :: vs) tmp par w = copyBackLoop (v :: vs) tmp w := by
  unfold VectorIO.loadReconcile
  rw [head_ok hf, if_pos hdev, if_pos (Or.inr hi)]

/-! ### the inflating loops: what the staged storage holds -/

theorem readView_whole {mem : List (Nat × List Val)} {f : ColorSpinorField}
    (h : (memGet mem f.v).length = f.param.Length) :
    readView mem (whole f) = memGet mem f.v := by
  simp only [readView, whole, List.drop_zero]
  exact List.take_of_length_le (le_of_eq h)

theorem splice_inflated (par : QudaParity) (L : Nat) (src : List Val) (hlen : src.length = L) :
    (List.replicate (2 * L) (0 : Val)).take (if par = QudaParity.QUDA_EVEN_PARITY then 0 else L)
        ++ src.take L
        ++ (List.replicate (2 * L) (0 : Val)).drop
          ((if par = QudaParity.QUDA_EVEN_PARITY then 0 else L) + L)
      = inflated par L src := by
  rw [List.take_of_length_le (le_of_eq hlen)]
  unfold inflated
  by_cases hp : par = QudaParity.QUDA_EVEN_PARITY
  · simp only [hp, if_true, List.take_zero, List.nil_append, Nat.zero_add, List.drop_replicate]
    congr 2
    omega
  · simp only [hp, if_false, List.take_replicate, List.drop_replicate]
    have h1 : min L (2 * L) = L := by omega
    have h2 : 2 * L - (L + L) = 0 := by omega
    rw [h1, h2]
    simp

theorem srcOk_mono {w w2 : World} {L B : Nat} {h : Nat} (hg : Grows w w2)
    (hm : ∀ a, a < B → memGet w2.mem a = memGet w.mem a) (hs : SrcOk w L B h) :
    SrcOk w2 L B h ∧ w2.data h = w.data h := by
  obtain ⟨f, hf, hL, hv, hlen⟩ := hs
  refine ⟨⟨f, hg _ _ hf, hL, hv, by rw [hm _ hv]; exact hlen⟩, ?_⟩
  simp only [World.data, hf, hg _ _ hf]
  exact hm _ hv

theorem halfView_eq (par : QudaParity) (p : ColorSpinorParam) (a L : Nat)
    (hL : p.Length = 2 * L) :
    halfView par { param := p, v := a } =
      { base := a, off := if par = QudaParity.QUDA_EVEN_PARITY then 0 else L, len := L } := by
  have : p.Length / 2 = L := by omega
  simp [halfView, this]

theorem inflateLoopHost_content (p : ColorSpinorParam) (L B : Nat) {par : QudaParity}
    (hp : par ≠ QudaParity.QUDA_INVALID_PARITY)
    (hs : p.siteSubset = QudaSiteSubset.QUDA_FULL_SITE_SUBSET)
    (hz : p.create = QudaFieldCreate.QUDA_ZERO_FIELD_CREATE) (hL : p.Length = 2 * L) :
    ∀ (vs : List Nat) (w : World), B ≤ w.brk → (∀ h ∈ vs, SrcOk w L B h) → ∃ w1,
      inflateLoopHost p par vs w = (Except.ok (List.range' w.fields.length vs.length), w1) ∧
      Grows w w1 ∧ w.brk ≤ w1.brk ∧
      (∀ a, a < w.brk → memGet w1.mem a = memGet w.mem a) ∧
      ∀ i, i < vs.length → ∃ a, w.brk ≤ a ∧
        w1.field (w.fields.length + i) = some { param := p, v := a } ∧
        memGet w1.mem a = inflated par L (w.data (vs.getD i 0)) := by
  intro vs
  induction vs with
  | nil =>
    intro w _ _
    exact ⟨w, rfl, grows_refl w, le_refl _, fun _ _ => rfl, fun i hi => absurd hi (by simp)⟩
  | cons v vs ih =>
    intro w hB hsrc
    obtain ⟨fv, hfv, hLv, hvB, hlenv⟩ := hsrc v (List.mem_cons_self _ _)
    have hview := parityView_ok (w := w.alloc p) QudaError.paritySave hp
      (alloc_field_new w p) hs
    rw [halfView_eq par p w.brk L hL] at hview
    have hderef := deref_ok (alloc_field_some w p hfv)
    have hne : fv.v ≠ w.brk := by omega
    have hold : memGet (w.alloc p).mem fv.v = memGet w.mem fv.v := alloc_mem_old w p hne
    have hread : readView (w.alloc p).mem (whole fv) = memGet w.mem fv.v := by
      rw [readView_whole (by rw [hold, hlenv, hLv]), hold]
    generalize hw2 : (w.alloc p).blit
      { base := w.brk, off := if par = QudaParity.QUDA_EVEN_PARITY then 0 else L, len := L }
      (whole fv) = w2 at *
    have hg2 : Grows w w2 := by
      rw [← hw2]; exact grows_trans (grows_alloc w p) (grows_blit _ _ _)
    have hbrk2 : w2.brk = w.brk + p.Length * p.precision.toNat + 1 := by
      rw [← hw2]; rfl
    have hkeep2 : ∀ a, a < w.brk → memGet w2.mem a = memGet w.mem a := by
      intro a ha
      rw [← hw2, blit_mem_ne _ _ _ (by simp only; omega), alloc_mem_old w p (by omega)]
    have hnew2 : memGet w2.mem w.brk = inflated par L (memGet w.mem fv.v) := by
      rw [← hw2]
      have := blit_mem_same (w.alloc p)
        { base := w.brk, off := if par = QudaParity.QUDA_EVEN_PARITY then 0 else L, len := L }
        (whole fv)
      simp only at this
      rw [this, hread, alloc_mem_new_zero w p hz, hL]
      exact splice_inflated par L _ hlenv
    have hlen2 : w2.fields.length = w.fields.length + 1 := by
      rw [← hw2]; simp
    have hfield2 : w2.field w.fields.length = some { param := p, v := w.brk } := by
      rw [← hw2]; exact alloc_field_new w p
    obtain ⟨w1, hrun, hg, hb, hkeep, hcont⟩ := ih w2 (by omega) (fun h hh =>
      (srcOk_mono hg2 (fun a ha => hkeep2 a (by omega))
        (hsrc h (List.mem_cons_of_mem _ hh))).1)
    refine ⟨w1, ?_, grows_trans hg2 hg, by omega, ?_, ?_⟩
    · unfold VectorIO.inflateLoopHost
      rw [bind_ok (Create_run p w), bind_ok hview, bind_ok hderef, bind_ok (copy_run _ _ _),
        hw2, bind_ok hrun, hlen2]
      simp [pure_run, List.range'_succ]
    · intro a ha
      rw [hkeep a (by omega), hkeep2 a ha]
    · intro i hi
      cases i with
      | zero =>
        refine ⟨w.brk, le_refl _, hg _ _ hfield2, ?_⟩
        rw [hkeep _ (by omega), hnew2]
        simp [World.data, hfv]
      | succ k =>
        have hk : k < vs.length := by simpa using hi
        obtain ⟨a, ha, hfa, hma⟩ := hcont k hk
        refine ⟨a, by omega, ?_, ?_⟩
        · rw [← hfa, hlen2]
          congr 1
          omega
        · rw [hma, List.getD_cons_succ]
          congr 1
          refine (srcOk_mono hg2 (fun a ha => hkeep2 a (by omega)) (hsrc _ ?_)).2
          apply List.mem_cons_of_mem
          rw [List.getD_eq_getElem _ _ hk]
          exact List.getElem_mem hk

theorem inflateLoopDevice_content (p : ColorSpinorParam) (L B : Nat) {par : QudaParity}
    (hp : par ≠ QudaParity.QUDA_INVALID_PARITY)
    (hs : p.siteSubset = QudaSiteSubset.QUDA_FULL_SITE_SUBSET)
    (hz : p.create = QudaFieldCreate.QUDA_ZERO_FIELD_CREATE) (hL : p.Length = 2 * L)
    (ti : Nat) (fi : ColorSpinorField) (hLi : fi.param.Length = L) (hBi : B ≤ fi.v) :
    ∀ (vs : List Nat) (w : World), fi.v < w.brk → w.field ti = some fi →
      (memGet w.mem fi.v).length = L → (∀ h ∈ vs, SrcOk w L B h) → ∃ w1,
      inflateLoopDevice p par ti vs w =
        (Except.ok (List.range' w.fields.length vs.length), w1) ∧
      Grows w w1 ∧ w.brk ≤ w1.brk ∧
      (∀ a, a < w.brk → a ≠ fi.v → memGet w1.mem a = memGet w.mem a) ∧
      ∀ i, i < vs.length → ∃ a, w.brk ≤ a ∧
        w1.field (w.fields.length + i) = some { param := p, v := a } ∧
        memGet w1.mem a = inflated par L (w.data (vs.getD i 0)) := by
  intro vs
  induction vs with
  | nil =>
    intro w _ _ _ _
    exact ⟨w, rfl, grows_refl w, le_refl _, fun _ _ _ => rfl, fun i hi => absurd hi (by simp)⟩
  | cons v vs ih =>
    intro w hib hti hleni hsrc
    obtain ⟨fv, hfv, hLv, hvB, hlenv⟩ := hsrc v (List.mem_cons_self _ _)
    have hne : fv.v ≠ w.brk := by omega
    have hnei : fi.v ≠ w.brk := by omega
    have hassign := assign_ok (alloc_field_some w p hti) (alloc_field_some w p hfv)
    have hold : memGet (w.alloc p).mem fv.v = memGet w.mem fv.v := alloc_mem_old w p hne
    have holdi : memGet (w.alloc p).mem fi.v = memGet w.mem fi.v := alloc_mem_old w p hnei
    have hread : readView (w.alloc p).mem (whole fv) = memGet w.mem fv.v := by
      rw [readView_whole (by rw [hold, hlenv, hLv]), hold]
    generalize hw2 : (w.alloc p).blit (whole fi) (whole fv) = w2 at *
    have hmi2 : memGet w2.mem fi.v = memGet w.mem fv.v := by
      rw [← hw2]
      have := blit_mem_same (w.alloc p) (whole fi) (whole fv)
      simp only [whole] at this
      simp only [whole]
      rw [this]
      simp only [whole] at hread
      rw [hread, holdi, hLi, List.take_zero, List.nil_append, Nat.zero_add,
        List.take_of_length_le (le_of_eq hlenv), List.drop_of_length_le (le_of_eq hleni)]
      simp
    have hmn2 : memGet w2.mem w.brk = List.replicate (2 * L) 0 := by
      rw [← hw2, blit_mem_ne _ _ _ (by simp only [whole]; exact hnei),
        alloc_mem_new_zero w p hz, hL]
    have hview := parityView_ok (w := w2) QudaError.paritySave hp
      (by rw [← hw2]; exact alloc_field_new w p) hs
    rw [halfView_eq par p w.brk L hL] at hview
    have hderef : deref ti w2 = (Except.ok fi, w2) :=
      deref_ok (by rw [← hw2]; exact alloc_field_some w p hti)
    have hread2 : readView w2.mem (whole fi) = memGet w.mem fv.v := by
      rw [readView_whole (by rw [hmi2, hlenv, hLi]), hmi2]
    have hkeep2 : ∀ a, a < w.brk → a ≠ fi.v → memGet w2.mem a = memGet w.mem a := by
      intro a ha hai
      rw [← hw2, blit_mem_ne _ _ _ (by simp only [whole]; exact Ne.symm hai),
        alloc_mem_old w p (by omega)]
    have hg2 : Grows w w2 := by
      rw [← hw2]; exact grows_trans (grows_alloc w p) (grows_blit _ _ _)
    have hbrk2 : w2.brk = w.brk + p.Length * p.precision.toNat + 1 := by
      rw [← hw2]; rfl
    have hlen2 : w2.fields.length = w.fields.length + 1 := by
      rw [← hw2]; simp
    have hfield2 : w2.field w.fields.length = some { param := p, v := w.brk } := by
      rw [← hw2]; exact alloc_field_new w p
    generalize hw3 : w2.blit
      { base := w.brk, off := if par = QudaParity.QUDA_EVEN_PARITY then 0 else L, len := L }
      (whole fi) = w3 at *
    have hg3 : Grows w w3 := by
      rw [← hw3]; exact grows_trans hg2 (grows_blit _ _ _)
    have hbrk3 : w3.brk = w.brk + p.Length * p.precision.toNat + 1 := by
      rw [← hw3]; exact hbrk2
    have hlen3 : w3.fields.length = w.fields.length + 1 := by
      rw [← hw3]; exact hlen2
    have hfield3 : w3.field w.fields.length = some { param := p, v := w.brk } := by
      rw [← hw3]; exact hfield2
    have hkeep3 : ∀ a, a < w.brk → a ≠ fi.v → memGet w3.mem a = memGet w.mem a := by
      intro a ha hai
      rw [← hw3, blit_mem_ne _ _ _ (by simp only; omega), hkeep2 a ha hai]
    have hmi3 : memGet w3.mem fi.v = memGet w.mem fv.v := by
      rw [← hw3, blit_mem_ne _ _ _ (by simp only; exact Ne.symm hnei), hmi2]
    have hnew3 : memGet w3.mem w.brk = inflated par L (memGet w.mem fv.v) := by
      rw [← hw3]
      have := blit_mem_same w2
        { base := w.brk, off := if par = QudaParity.QUDA_EVEN_PARITY then 0 else L, len := L }
        (whole fi)
      simp only at this
      rw [this, hread2, hmn2]
      exact splice_inflated par L _ hlenv
    have hsrc3 : ∀ h ∈ vs, SrcOk w3 L B h ∧ w3.data h = w.data h := fun h hh =>
      srcOk_mono hg3 (fun a ha => hkeep3 a (by omega) (by omega))
        (hsrc h (List.mem_cons_of_mem _ hh))
    obtain ⟨w1, hrun, hg, hb, hkeep, hcont⟩ := ih w3 (by omega) (hg3 _ _ hti)
      (by rw [hmi3]; exact hlenv) (fun h hh => (hsrc3 h hh).1)
    refine ⟨w1, ?_, grows_trans hg3 hg, by omega, ?_, ?_⟩
    · unfold VectorIO.inflateLoopDevice
      rw [bind_ok (Create_run p w), bind_ok hassign, bind_ok hview, bind_ok hderef,
        bind_ok (copy_run _ _ _), hw3, bind_ok hrun, hlen3]
      simp [pure_run, List.range'_succ]
    · intro a ha hai
      rw [hkeep a (by omega) hai, hkeep3 a ha hai]
    · intro i hi
      cases i with
      | zero =>
        refine ⟨w.brk, le_refl _, hg _ _ hfield3, ?_⟩
        rw [hkeep _ (by omega) (Ne.symm hnei), hnew3]
        simp [World.data, hfv]
      | succ k =>
        have hk : k < vs.length := by simpa using hi
        obtain ⟨a, ha, hfa, hma⟩ := hcont k hk
        refine ⟨a, by omega, ?_, ?_⟩
        · rw [← hfa, hlen3]
          congr 1
          omega
        · rw [hma, List.getD_cons_succ]
          congr 1
          refine (hsrc3 _ ?_).2
          rw [List.getD_eq_getElem _ _ hk]
          exact List.getElem_mem hk

theorem extentProd_doubleX0 (x : List Nat) :
    ∀ n, extentProd (doubleX0 x) (n + 1) = 2 * extentProd x (n + 1) := by
  intro n
  induction n with
  | zero =>
    cases x <;> simp [extentProd, doubleX0, Nat.mul_comm]
  | succ n ih =>
    rw [extentProd, ih, doubleX0_getD_succ, extentProd.eq_2 x (n + 1), Nat.mul_assoc]

theorem inflate_Length (p : ColorSpinorParam) (hd : p.nDim = 4 ∨ p.nDim = 5) :
    (zeroed (inflate p)).Length = 2 * p.Length := by
  obtain ⟨n, hn⟩ : ∃ n, p.nDim = n + 1 := by
    rcases hd with h | h
    · exact ⟨3, h⟩
    · exact ⟨4, h⟩
  simp only [ColorSpinorParam.Length, ColorSpinorParam.Volume, zeroed, inflate, hn,
    extentProd_doubleX0]
  ring

theorem hostParam_Length (f0 : ColorSpinorField) :
    (hostParam f0).Length = f0.param.Length := rfl

theorem ofField_Length (f0 : ColorSpinorField) :
    (ColorSpinorParam.ofField f0).Length = f0.param.Length := rfl

theorem deleteLoop_ok :
    ∀ (ts : List Nat) (w : World), ts.Nodup → (∀ t ∈ ts, w.field t ≠ none) →
      (deleteLoop ts w).1 = Except.ok () := by
  intro ts
  induction ts with
  | nil => intro w _ _; rfl
  | cons t ts ih =>
    intro w hnd hl
    obtain ⟨f, hf⟩ := Option.ne_none_iff_exists'.mp (hl t (List.mem_cons_self _ _))
    unfold VectorIO.deleteLoop
    rw [bind_ok (delete_ok hf)]
    rw [List.nodup_cons] at hnd
    refine ih _ hnd.2 fun t1 ht1 => ?_
    rw [free_field_ne w (fun h : t = t1 => hnd.1 (by rw [h]; exact ht1))]
    exact hl t1 (List.mem_cons_of_mem _ ht1)

theorem storageOk_srcOk {w : World} {n h : Nat} (hs : storageOk w n h = true) :
    SrcOk w n w.brk h := by
  unfold storageOk at hs
  split at hs
  · rename_i f hf
    exact ⟨f, hf, of_decide_eq_true hs⟩
  · exact absurd hs (by simp)

/-- The staging step of `save` on a single-parity collection with parity-inflate set
and the suggested parity `par` even or odd: fresh handles, each a full field with the
first extent doubled whose storage is the source inflated; the storage below the old
`brk` and the live fields are kept. -/
theorem saveStage_inflated (vio : VectorIO) {w : World} {v : Nat} {vs : List Nat}
    {f0 : ColorSpinorField} {par : QudaParity} (hi : vio.parity_inflate = true)
    (hf : w.field v = some f0)
    (hs : f0.param.siteSubset = QudaSiteSubset.QUDA_PARITY_SITE_SUBSET)
    (hpar : par ≠ QudaParity.QUDA_INVALID_PARITY)
    (hd : f0.param.nDim = 4 ∨ f0.param.nDim = 5)
    (hsrc : ∀ h ∈ v :: vs, SrcOk w f0.param.Length w.brk h) :
    ∃ base w1, saveStage vio (v :: vs) par w =
        (Except.ok (List.range' base (v :: vs).length), w1) ∧
      w.fields.length ≤ base ∧ Grows w w1 ∧
      (∀ a, a < w.brk → memGet w1.mem a = memGet w.mem a) ∧
      ∀ i, i < (v :: vs).length → ∃ a p,
        w1.field (base + i) = some { param := p, v := a } ∧
        memGet w1.mem a = inflated par f0.param.Length (w.data ((v :: vs).getD i 0)) := by
  rw [saveStage_eq vio par hf]
  by_cases hdev : f0.param.location = QudaFieldLocation.QUDA_CUDA_FIELD_LOCATION
  · rw [if_pos hdev, if_neg (by simp [hs, hi]), bind_ok (Create_run _ w)]
    have hg0 := grows_alloc w (hostParam f0)
    have hsrc1 : ∀ h ∈ v :: vs, SrcOk (w.alloc (hostParam f0)) f0.param.Length w.brk h ∧
        (w.alloc (hostParam f0)).data h = w.data h := fun h hh =>
      srcOk_mono hg0 (fun a ha => alloc_mem_old w _ (by omega)) (hsrc h hh)
    obtain ⟨w2, hrun, hg, hb, hkeep, hcont⟩ := inflateLoopDevice_content
      (zeroed (inflate (hostParam f0))) f0.param.Length w.brk hpar rfl rfl
      (inflate_Length (hostParam f0) hd) w.fields.length
      { param := hostParam f0, v := w.brk } rfl (le_refl _) (v :: vs) (w.alloc (hostParam f0))
      (by rw [alloc_brk]; show w.brk < _; omega) (alloc_field_new w _) (alloc_mem_new_length w _) (fun h hh => (hsrc1 h hh).1)
    have hlen1 : (w.alloc (hostParam f0)).fields.length = w.fields.length + 1 := by simp
    rw [hlen1] at hrun hcont
    have hti : w2.field w.fields.length = some { param := hostParam f0, v := w.brk } :=
      hg _ _ (alloc_field_new w _)
    refine ⟨w.fields.length + 1, w2.free w.fields.length, ?_, by omega, ?_, ?_, ?_⟩
    · rw [bind_ok hrun, bind_ok (delete_ok hti)]
      rfl
    · intro h f hhf
      rw [free_field_ne w2 (by have := field_some_lt hhf; omega)]
      exact hg _ _ (hg0 _ _ hhf)
    · intro a ha
      rw [free_mem, hkeep a (by simp; omega) (by simp only; omega),
        alloc_mem_old w _ (by omega)]
    · intro i hi2
      obtain ⟨a, _, hfa, hma⟩ := hcont i hi2
      refine ⟨a, zeroed (inflate (hostParam f0)), ?_, ?_⟩
      · rw [free_field_ne w2 (by omega)]
        exact hfa
      · rw [free_mem, hma]
        congr 1
        refine (hsrc1 _ ?_).2
        rw [List.getD_eq_getElem _ _ hi2]
        exact List.getElem_mem hi2
  · rw [if_neg hdev, if_pos ⟨hs, hi⟩]
    obtain ⟨w1, hrun, hg, hb, hkeep, hcont⟩ := inflateLoopHost_content
      (zeroed (inflate (ColorSpinorParam.ofField f0))) f0.param.Length w.brk hpar rfl rfl
      (inflate_Length (ColorSpinorParam.ofField f0) hd) (v :: vs) w (le_refl _) hsrc
    refine ⟨w.fields.length, w1, hrun, le_refl _, hg, hkeep, fun i hi2 => ?_⟩
    obtain ⟨a, _, hfa, hma⟩ := hcont i hi2
    exact ⟨a, _, hfa, hma⟩

/-! ## The claims -/

/-- C4: with the I/O library built in, `loadProp` and `saveProp` on a collection whose
size is not 12 (0 included) abort with the "Must have 12 vectors in propagator" error
reporting the size, in the state they were called in: no member has been read, no
field allocated, no external routine called.  For size 12 that error is not raised. -/
theorem propagator_size_check (vio : VectorIO) (vecs : List Nat) (w : World) :
    (vecs.length ≠ 12 →
      loadProp true vio vecs w = (Except.error (QudaError.mustHave12 vecs.length), w) ∧
      saveProp true vio vecs w = (Except.error (QudaError.mustHave12 vecs.length), w)) ∧
    (vecs.length = 12 → ∀ n,
      (loadProp true vio vecs w).1 ≠ Except.error (QudaError.mustHave12 n) ∧
      (saveProp true vio vecs w).1 ≠ Except.error (QudaError.mustHave12 n)) := by
  constructor
  · intro hn
    simp [loadProp, saveProp, hn, errorQuda]
  · intro hn n
    constructor
    · have : loadProp true vio vecs w
          = loadBody vio QioRoutine.read_propagator_field vecs w := by
        simp [loadProp, hn]
      rw [this]
      exact avoids_loadBody (by simp) (by simp) (by simp) (by simp) vio _
        (fun _ _ _ _ _ => Or.inr (by simp))
    · have : saveProp true vio vecs w
          = saveBody vio QioRoutine.write_propagator_field vecs w := by
        simp [saveProp, hn]
      rw [this]
      exact avoids_saveBody (by simp) (by simp) (by simp) (by simp) vio _
        (fun _ _ _ _ _ => Or.inr (Or.inl (by simp)))

/-- C4, at an empty collection and at twelve handles. -/
theorem propagator_size_check_witness :
    (loadProp true { filename := "prop", parity_inflate := false } [] deviceDoubleWorld).1
      = Except.error (QudaError.mustHave12 0) ∧
    (saveProp true { filename := "prop", parity_inflate := false } (List.replicate 12 0)
        deviceDoubleWorld).1 ≠ Except.error (QudaError.mustHave12 12) :=
  ⟨congrArg Prod.fst ((propagator_size_check _ [] _).1 (by decide)).1,
    (((propagator_size_check _ (List.replicate 12 0) _).2 (by decide)) 12).2⟩

/-- C6: for a non-empty input collection of live fields, `downPrec` aborts if and only
if the target precision is greater than or equal to the precision of member 0; when it
aborts it does so with the "Attempting to down-prec" error, and the output collection
and the state are unchanged. -/
theorem downPrec_fails_iff (w : World) (v : Nat) (vs out : List Nat) (low : QudaPrecision)
    (f0 : ColorSpinorField) (hf : w.field v = some f0) (hl : ∀ h ∈ vs, w.field h ≠ none) :
    ((∃ e, (downPrec (v :: vs) out low w).1 = Except.error e) ↔
      low.toNat ≥ f0.param.precision.toNat) ∧
    (low.toNat ≥ f0.param.precision.toNat →
      downPrec (v :: vs) out low w =
        (Except.error (QudaError.downPrec f0.param.precision low), out, w)) := by
  have hhead : (index (v :: vs) 0 >>= deref) w = (Except.ok f0, w) := by
    rw [bind_ok (index_zero v vs w)]
    exact deref_ok hf
  have hfail : low.toNat ≥ f0.param.precision.toNat →
      downPrec (v :: vs) out low w =
        (Except.error (QudaError.downPrec f0.param.precision low), out, w) := by
    intro hge
    unfold VectorIO.downPrec
    rw [hhead]
    simp [hge]
  refine ⟨⟨?_, fun hge => ⟨_, by rw [hfail hge]⟩⟩, hfail⟩
  rintro ⟨e, he⟩
  by_contra hlt
  have hlive : ∀ h ∈ v :: vs, w.field h ≠ none := by
    intro h hh
    rcases List.mem_cons.mp hh with hh | hh
    · rw [hh, hf]; simp
    · exact hl h hh
  obtain ⟨w1, hrun, _⟩ := aliasLoop_run
    ((ColorSpinorParam.setPrecision { ColorSpinorParam.ofField f0 with
      create := QudaFieldCreate.QUDA_REFERENCE_FIELD_CREATE } low)) (v :: vs) out w hlive
  unfold VectorIO.downPrec at he
  rw [hhead] at he
  simp only [hlt, if_false] at he
  rw [hrun] at he
  simp at he

/-- C6, at two double-precision fields and the target double precision. -/
theorem downPrec_fails_iff_witness :
    downPrec [0, 1] [7] QudaPrecision.QUDA_DOUBLE_PRECISION deviceDoubleWorld
      = (Except.error (QudaError.downPrec QudaPrecision.QUDA_DOUBLE_PRECISION
          QudaPrecision.QUDA_DOUBLE_PRECISION), [7], deviceDoubleWorld) :=
  (downPrec_fails_iff deviceDoubleWorld 0 [1] [7] QudaPrecision.QUDA_DOUBLE_PRECISION
    { param := deviceDoubleFull, v := 0 } rfl (by decide)).2 (by decide)

/-- C7: for a non-empty input collection of `n` live fields and a target precision
strictly below the precision of member 0, `downPrec` returns, and the output
collection is the initial one followed by exactly `n` new handles, the `i`-th being
an alias of input member `i`: a descriptor in reference mode over the storage of
member `i`, with the attributes of member 0 and the target precision.  No storage is
allocated, and the fields that were there, their storage and the released handles
are unchanged. -/
theorem downPrec_appends_aliases (w : World) (v : Nat) (vs out : List Nat)
    (low : QudaPrecision) (f0 : ColorSpinorField) (hf : w.field v = some f0)
    (hl : ∀ h ∈ vs, w.field h ≠ none)
    (hlt : low.toNat < f0.param.precision.toNat) :
    ∃ w1, downPrec (v :: vs) out low w =
        (Except.ok (), out ++ List.range' w.fields.length (v :: vs).length, w1) ∧
      w1.fields.length = w.fields.length + (v :: vs).length ∧
      (∀ i, i < (v :: vs).length → ∃ f, w.field ((v :: vs).getD i 0) = some f ∧
        w1.field (w.fields.length + i) = some
          { param := { f0.param with
              create := QudaFieldCreate.QUDA_REFERENCE_FIELD_CREATE
              precision := low }
            v := f.v }) ∧
      (∀ h, h < w.fields.length → w1.field h = w.field h) ∧
      w1.mem = w.mem ∧ w1.brk = w.brk ∧ w1.released = w.released := by
  have hhead : (index (v :: vs) 0 >>= deref) w = (Except.ok f0, w) := by
    rw [bind_ok (index_zero v vs w)]
    exact deref_ok hf
  have hlive : ∀ h ∈ v :: vs, w.field h ≠ none := by
    intro h hh
    rcases List.mem_cons.mp hh with hh | hh
    · rw [hh, hf]; simp
    · exact hl h hh
  obtain ⟨w1, hrun, hfields, hmem, hrel, hbrk⟩ := aliasLoop_run
    ((ColorSpinorParam.setPrecision { ColorSpinorParam.ofField f0 with
      create := QudaFieldCreate.QUDA_REFERENCE_FIELD_CREATE } low)) (v :: vs) out w hlive
  refine ⟨w1, ?_, ?_, ?_, fun h hh => field_append_left hfields hh, hmem, hbrk, hrel⟩
  · unfold VectorIO.downPrec
    rw [hhead]
    simp only [ge_iff_le, Nat.not_le.mpr hlt, if_false]
    exact hrun
  · rw [hfields]; simp
  · intro i hi
    have hmem_i : (v :: vs).getD i 0 ∈ v :: vs := by
      rw [List.getD_eq_getElem _ _ hi]
      exact List.getElem_mem hi
    obtain ⟨f, hfi⟩ := Option.ne_none_iff_exists'.mp (hlive _ hmem_i)
    refine ⟨f, hfi, ?_⟩
    rw [field_append_right hfields, List.getD_eq_getElem _ _ (by simpa using hi),
      List.getElem_map, ← List.getD_eq_getElem _ 0 hi, hfi]
    rfl

/-- C7, at two double-precision fields and the target single precision. -/
theorem downPrec_appends_aliases_witness :
    ∃ w1, downPrec [0, 1] [7] QudaPrecision.QUDA_SINGLE_PRECISION deviceDoubleWorld =
        (Except.ok (), [7] ++ List.range' deviceDoubleWorld.fields.length [0, 1].length, w1) ∧
      w1.fields.length = deviceDoubleWorld.fields.length + [0, 1].length ∧
      (∀ i, i < [0, 1].length → ∃ f, deviceDoubleWorld.field ([0, 1].getD i 0) = some f ∧
        w1.field (deviceDoubleWorld.fields.length + i) = some
          { param := { deviceDoubleFull with
              create := QudaFieldCreate.QUDA_REFERENCE_FIELD_CREATE
              precision := QudaPrecision.QUDA_SINGLE_PRECISION }
            v := f.v }) ∧
      (∀ h, h < deviceDoubleWorld.fields.length → w1.field h = deviceDoubleWorld.field h) ∧
      w1.mem = deviceDoubleWorld.mem ∧ w1.brk = deviceDoubleWorld.brk ∧
      w1.released = deviceDoubleWorld.released :=
  downPrec_appends_aliases deviceDoubleWorld 0 [1] [7] QudaPrecision.QUDA_SINGLE_PRECISION
    { param := deviceDoubleFull, v := 0 } rfl (by decide) (by decide)

/-- C8: for a non-empty collection of live fields of dimensionality 4 or 5 (with a
non-zero fifth extent), `load` stages a collection `tmp` and calls the external reader
on its flattened pointer array: `Nvec * Ls` entries, count `Nvec * Ls`, entry
`i * Ls + j` the base address of staged member `i` plus `j * stride`, with `Ls` and
`stride` as in `HandedFlat`.  `save` does the same with the external writer, unless
the collection is single-parity with parity-inflate set and suggested parity
unspecified, when it aborts in the staging step and calls nothing. -/
theorem flattened_pointer_array (vio : VectorIO) (w : World) (v : Nat) (vs : List Nat)
    (f0 : ColorSpinorField) (hf : w.field v = some f0) (hl : ∀ h ∈ vs, w.field h ≠ none)
    (hd : f0.param.nDim = 4 ∨ f0.param.nDim = 5)
    (hLs : f0.param.nDim = 5 → f0.param.X 4 ≠ 0) :
    (∃ tmp w1 c, loadStage vio (v :: vs) w = (Except.ok tmp, w1) ∧
      tmp.length = (v :: vs).length ∧
      (load true vio (v :: vs) w).2.calls = c :: w.calls ∧
      c.routine = QioRoutine.read_spinor_field ∧
      HandedFlat f0.param.nDim (v :: vs).length w1 tmp c) ∧
    (¬(f0.param.siteSubset = QudaSiteSubset.QUDA_PARITY_SITE_SUBSET
        ∧ vio.parity_inflate = true
        ∧ f0.param.suggested_parity = QudaParity.QUDA_INVALID_PARITY) →
      ∃ tmp w1 c, saveStage vio (v :: vs) f0.param.suggested_parity w = (Except.ok tmp, w1) ∧
        tmp.length = (v :: vs).length ∧
        (save true vio (v :: vs) w).2.calls = c :: w.calls ∧
        c.routine = QioRoutine.write_spinor_field ∧
        HandedFlat f0.param.nDim (v :: vs).length w1 tmp c) ∧
    (f0.param.siteSubset = QudaSiteSubset.QUDA_PARITY_SITE_SUBSET
        ∧ vio.parity_inflate = true
        ∧ f0.param.suggested_parity = QudaParity.QUDA_INVALID_PARITY →
      (save true vio (v :: vs) w).1 = Except.error QudaError.paritySave ∧
      (save true vio (v :: vs) w).2.calls = w.calls) := by
  refine ⟨?_, ?_, ?_⟩
  · obtain ⟨t0h, rest, t0, w1, V, hrun, hlen, _, ht0, _, _, hV, _, hcalls⟩ :=
      loadBody_call vio QioRoutine.read_spinor_field hf hl hd hLs
    refine ⟨t0h :: rest, w1, _, hrun, hlen, hcalls, rfl, t0, ht0, ?_, rfl, ?_⟩
    · exact hV.1.trans (by rw [hlen])
    · intro i hi j hj
      exact hV.2 i (by rw [hlen]; exact hi) j hj
  · intro hok
    obtain ⟨t0h, rest, t0, w1, V, hrun, hlen, _, ht0, _, _, hV, _, hcalls⟩ :=
      saveBody_call vio QioRoutine.write_spinor_field hf hl hd hLs hok
    refine ⟨t0h :: rest, w1, _, hrun, hlen, hcalls, rfl, t0, ht0, ?_, rfl, ?_⟩
    · exact hV.1.trans (by rw [hlen])
    · intro i hi j hj
      exact hV.2 i (by rw [hlen]; exact hi) j hj
  · rintro ⟨hs, hi, hp⟩
    exact saveBody_invalid vio QioRoutine.write_spinor_field hf hs hi hp

/-- C8, at two host-resident 5-d fields of fifth extent 2. -/
theorem flattened_pointer_array_witness :
    ∃ tmp w1 c, loadStage { filename := "vec", parity_inflate := true } [0, 1]
        hostDouble5dWorld = (Except.ok tmp, w1) ∧
      tmp.length = [0, 1].length ∧
      (load true { filename := "vec", parity_inflate := true } [0, 1]
        hostDouble5dWorld).2.calls = c :: hostDouble5dWorld.calls ∧
      c.routine = QioRoutine.read_spinor_field ∧
      HandedFlat 5 [0, 1].length w1 tmp c :=
  (flattened_pointer_array { filename := "vec", parity_inflate := true } hostDouble5dWorld
    0 [1] { param := hostDouble5d, v := 0 } rfl (by decide) (by decide) (by decide)).1

/-- C5, as stated, fails: `save` with parity-inflate set on two host-resident
single-parity 3-d fields whose suggested parity is unspecified aborts with the
"suggested parity must be set" error of the staging step, not with the "Unexpected
field dimension" error. -/
theorem unexpected_dimension_counterexample :
    hostParity3dWorld.field 0 = some { param := hostParity3d, v := 0 } ∧
    hostParity3d.nDim = 3 ∧
    (save true { filename := "vec", parity_inflate := true } [0, 1] hostParity3dWorld).1
      = Except.error QudaError.paritySave ∧
    (save true { filename := "vec", parity_inflate := true } [0, 1] hostParity3dWorld).1
      ≠ Except.error (QudaError.unexpectedDim 3) := by
  refine ⟨rfl, rfl, rfl, fun h => ?_⟩
  have e : (save true { filename := "vec", parity_inflate := true } [0, 1]
      hostParity3dWorld).1 = Except.error QudaError.paritySave := rfl
  rw [e] at h
  simp at h

/-- C5 (amended): for a non-empty collection of live fields whose member-0
dimensionality is neither 4 nor 5, `load` aborts with the "Unexpected field
dimension" error reporting that dimensionality, and so does `save`, unless the
collection is single-parity with parity-inflate set and suggested parity unspecified,
when `save` aborts with the "suggested parity must be set" error of the staging step.
In every case no external routine has been called. -/
theorem unexpected_dimension (vio : VectorIO) (w : World) (v : Nat) (vs : List Nat)
    (f0 : ColorSpinorField) (hf : w.field v = some f0) (hl : ∀ h ∈ vs, w.field h ≠ none)
    (h4 : f0.param.nDim ≠ 4) (h5 : f0.param.nDim ≠ 5) :
    (load true vio (v :: vs) w).1 = Except.error (QudaError.unexpectedDim f0.param.nDim) ∧
    (load true vio (v :: vs) w).2.calls = w.calls ∧
    (save true vio (v :: vs) w).1 =
      (if f0.param.siteSubset = QudaSiteSubset.QUDA_PARITY_SITE_SUBSET
          ∧ vio.parity_inflate = true
          ∧ f0.param.suggested_parity = QudaParity.QUDA_INVALID_PARITY then
        Except.error QudaError.paritySave
      else Except.error (QudaError.unexpectedDim f0.param.nDim)) ∧
    (save true vio (v :: vs) w).2.calls = w.calls := by
  have hload := loadBody_badDim vio QioRoutine.read_spinor_field hf hl h4 h5
  refine ⟨hload.1, hload.2, ?_⟩
  by_cases hbad : f0.param.siteSubset = QudaSiteSubset.QUDA_PARITY_SITE_SUBSET
      ∧ vio.parity_inflate = true
      ∧ f0.param.suggested_parity = QudaParity.QUDA_INVALID_PARITY
  · rw [if_pos hbad]
    exact saveBody_invalid vio QioRoutine.write_spinor_field hf hbad.1 hbad.2.1 hbad.2.2
  · rw [if_neg hbad]
    exact saveBody_badDim vio QioRoutine.write_spinor_field hf hl h4 h5 hbad

/-- C5 (amended), at two host-resident single-parity 3-d fields. -/
theorem unexpected_dimension_witness :
    (load true { filename := "vec", parity_inflate := true } [0, 1] hostParity3dWorld).1
      = Except.error (QudaError.unexpectedDim 3) ∧
    (save true { filename := "vec", parity_inflate := false } [0, 1] hostParity3dWorld).1
      = Except.error (QudaError.unexpectedDim 3) :=
  ⟨(unexpected_dimension { filename := "vec", parity_inflate := true } hostParity3dWorld 0 [1]
      { param := hostParity3d, v := 0 } rfl (by decide) (by decide) (by decide)).1,
    (unexpected_dimension { filename := "vec", parity_inflate := false } hostParity3dWorld 0 [1]
      { param := hostParity3d, v := 0 } rfl (by decide) (by decide) (by decide)).2.2.1⟩

/-- C3, as stated, fails: `save` without parity-inflate on two device-resident
single-parity 4-d fields whose suggested parity is unspecified copies them as they are
and returns. -/
theorem suggested_parity_counterexample :
    deviceParityUnsetWorld.field 0 = some { param := deviceParityUnset, v := 0 } ∧
    deviceParityUnset.siteSubset = QudaSiteSubset.QUDA_PARITY_SITE_SUBSET ∧
    deviceParityUnset.suggested_parity = QudaParity.QUDA_INVALID_PARITY ∧
    (save true { filename := "vec", parity_inflate := false } [0, 1]
      deviceParityUnsetWorld).1 = Except.ok () :=
  ⟨rfl, rfl, rfl, rfl⟩

/-- C3 (amended): for a non-empty single-parity collection of live 4- or 5-dimensional
fields (with a non-zero fifth extent).  If the suggested parity of member 0 is
unspecified: with parity-inflate set, `load` and `save` abort with the "suggested
parity must be set" error, at either location; without parity-inflate, `save` does
not raise that error at either location and `load` does not raise it for
device-resident members.  If the suggested parity is even or odd, neither `load` nor
`save` raises that error. -/
theorem suggested_parity_must_be_set (vio : VectorIO) (w : World) (v : Nat) (vs : List Nat)
    (f0 : ColorSpinorField) (hf : w.field v = some f0) (hl : ∀ h ∈ vs, w.field h ≠ none)
    (hs : f0.param.siteSubset = QudaSiteSubset.QUDA_PARITY_SITE_SUBSET)
    (hd : f0.param.nDim = 4 ∨ f0.param.nDim = 5)
    (hLs : f0.param.nDim = 5 → f0.param.X 4 ≠ 0) :
    (f0.param.suggested_parity = QudaParity.QUDA_INVALID_PARITY →
      (vio.parity_inflate = true →
        (load true vio (v :: vs) w).1 = Except.error QudaError.parityLoad ∧
        (save true vio (v :: vs) w).1 = Except.error QudaError.paritySave) ∧
      (vio.parity_inflate = false →
        (save true vio (v :: vs) w).1 ≠ Except.error QudaError.paritySave ∧
        (f0.param.location = QudaFieldLocation.QUDA_CUDA_FIELD_LOCATION →
          (load true vio (v :: vs) w).1 ≠ Except.error QudaError.parityLoad))) ∧
    (f0.param.suggested_parity ≠ QudaParity.QUDA_INVALID_PARITY →
      (load true vio (v :: vs) w).1 ≠ Except.error QudaError.parityLoad ∧
      (save true vio (v :: vs) w).1 ≠ Except.error QudaError.paritySave) := by
  have hv0 : ∀ h0 vs1 v0, v :: vs = h0 :: vs1 → w.field h0 = some v0 → v0 = f0 := by
    intro h0 vs1 v0 he hv
    rw [← (List.cons.inj he).1, hf] at hv
    exact (Option.some.inj hv).symm
  obtain ⟨t0h, rest, t0, w1, V, _, _, hg, _, _, _, _, hbody, _⟩ :=
    loadBody_call vio QioRoutine.read_spinor_field hf hl hd hLs
  have hf2 : ∀ c, (w1.transfer c).field v = some f0 := fun c => by
    rw [transfer_field]; exact hg _ _ hf
  refine ⟨fun hp => ⟨fun hi => ⟨?_, ?_⟩, fun hi => ⟨?_, fun hdev => ?_⟩⟩, fun hp => ⟨?_, ?_⟩⟩
  · show (loadBody vio QioRoutine.read_spinor_field (v :: vs) w).1 = _
    rw [hbody, hp]
    exact loadReconcile_invalid vio (hf2 _) hs hi
  · exact (saveBody_invalid vio QioRoutine.write_spinor_field hf hs hi hp).1
  · exact avoids_saveBody (by simp) (by simp) (by simp) (by simp) vio _
      (fun _ _ _ _ _ => Or.inr (Or.inr hi))
  · show (loadBody vio QioRoutine.read_spinor_field (v :: vs) w).1 ≠ _
    rw [hbody, loadReconcile_copyBack vio _ (hf2 _) hdev hi]
    exact avoids_copyBackLoop (by simp) _ _ _
  · exact avoids_loadBody (by simp) (by simp) (by simp) (by simp) vio _
      (fun h0 vs1 v0 he hv => Or.inl (by rw [hv0 h0 vs1 v0 he hv]; exact hp))
  · exact avoids_saveBody (by simp) (by simp) (by simp) (by simp) vio _
      (fun h0 vs1 v0 he hv => Or.inl (by rw [hv0 h0 vs1 v0 he hv]; exact hp))

/-- C3 (amended), at two host-resident single-parity even fields with parity-inflate
set, and at two device-resident single-parity fields of unspecified suggested parity
without parity-inflate. -/
theorem suggested_parity_must_be_set_witness :
    ((load true { filename := "vec", parity_inflate := true } [0, 1] hostParityWorld).1
        ≠ Except.error QudaError.parityLoad ∧
      (save true { filename := "vec", parity_inflate := true } [0, 1] hostParityWorld).1
        ≠ Except.error QudaError.paritySave) ∧
    (save true { filename := "vec", parity_inflate := false } [0, 1]
      deviceParityUnsetWorld).1 ≠ Except.error QudaError.paritySave :=
  ⟨(suggested_parity_must_be_set { filename := "vec", parity_inflate := true }
      hostParityWorld 0 [1] { param := hostParityEven, v := 0 } rfl (by decide) (by decide)
      (by decide) (by decide)).2 (by decide),
    (((suggested_parity_must_be_set { filename := "vec", parity_inflate := false }
      deviceParityUnsetWorld 0 [1] { param := deviceParityUnset, v := 0 } rfl (by decide)
      (by decide) (by decide) (by decide)).1 (by decide)).2 (by decide)).1⟩

/-- C10, as stated, fails: `save` on two host-resident half-precision full-lattice
fields hands the caller's own fields to the external writer with the precision tag
half, which is below single precision. -/
theorem staged_on_host_counterexample :
    hostHalfWorld.field 0 = some { param := hostHalfFull, v := 0 } ∧
    (save true { filename := "vec", parity_inflate := false } [0, 1] hostHalfWorld).1
      = Except.ok () ∧
    (save true { filename := "vec", parity_inflate := false } [0, 1]
        hostHalfWorld).2.calls.map QioCall.precision
      = [QudaPrecision.QUDA_HALF_PRECISION] ∧
    QudaPrecision.QUDA_HALF_PRECISION.toNat < QudaPrecision.QUDA_SINGLE_PRECISION.toNat :=
  ⟨rfl, rfl, rfl, by decide⟩

/-- C10 (amended): for a non-empty collection of live 4- or 5-dimensional fields (with
a non-zero fifth extent) that share the location of member 0, each of `load`,
`loadProp` (12 members), `save` and `saveProp` (12 members; for the two, unless the
collection is single-parity with parity-inflate set and suggested parity unspecified)
makes one external call, and what it hands over is the staged collection, which is in
host memory: every entry of the pointer array passed is the base address of a
host-resident staged member plus a multiple of the stride, and the memory, precision
tag and site subset passed are those of the staged state and of staged member 0.  The
site subset is full lattice whenever parity-inflate is set.  The precision tag is,
for device-resident members, the larger of the source precision and single
precision, and for host-resident members the source precision itself. -/
theorem staged_on_host (vio : VectorIO) (w : World) (v : Nat) (vs : List Nat)
    (f0 : ColorSpinorField) (hf : w.field v = some f0)
    (hloc : ∀ h ∈ vs, locatedAt w f0.param.location h = true)
    (hd : f0.param.nDim = 4 ∨ f0.param.nDim = 5)
    (hLs : f0.param.nDim = 5 → f0.param.X 4 ≠ 0) :
    HostStaged vio f0 (v :: vs).length w (loadStage vio (v :: vs) w) (load true vio (v :: vs) w).2 ∧
    ((v :: vs).length = 12 →
      HostStaged vio f0 (v :: vs).length w (loadStage vio (v :: vs) w) (loadProp true vio (v :: vs) w).2) ∧
    (¬(f0.param.siteSubset = QudaSiteSubset.QUDA_PARITY_SITE_SUBSET
        ∧ vio.parity_inflate = true
        ∧ f0.param.suggested_parity = QudaParity.QUDA_INVALID_PARITY) →
      HostStaged vio f0 (v :: vs).length w (saveStage vio (v :: vs) f0.param.suggested_parity w)
        (save true vio (v :: vs) w).2 ∧
      ((v :: vs).length = 12 →
        HostStaged vio f0 (v :: vs).length w (saveStage vio (v :: vs) f0.param.suggested_parity w)
          (saveProp true vio (v :: vs) w).2)) ∧
    (∀ p : QudaPrecision, (hostPrecision p).toNat
      = max p.toNat QudaPrecision.QUDA_SINGLE_PRECISION.toNat) := by
  refine ⟨hostStaged_loadBody vio _ hf hloc hd hLs, fun h12 => ?_, fun hok => ⟨?_, fun h12 => ?_⟩,
    fun p => by cases p <;> decide⟩
  · have : loadProp true vio (v :: vs) w
        = loadBody vio QioRoutine.read_propagator_field (v :: vs) w := by
      simp [loadProp, h12]
    rw [this]
    exact hostStaged_loadBody vio _ hf hloc hd hLs
  · exact hostStaged_saveBody vio _ hf hloc hd hLs hok
  · have : saveProp true vio (v :: vs) w
        = saveBody vio QioRoutine.write_propagator_field (v :: vs) w := by
      simp [saveProp, h12]
    rw [this]
    exact hostStaged_saveBody vio _ hf hloc hd hLs hok

/-- C10 (amended), at two device-resident double-precision fields. -/
theorem staged_on_host_witness :
    HostStaged { filename := "vec", parity_inflate := true } { param := deviceDoubleFull, v := 0 }
      [0, 1].length deviceDoubleWorld
      (saveStage { filename := "vec", parity_inflate := true } [0, 1]
        deviceDoubleFull.suggested_parity deviceDoubleWorld)
      (save true { filename := "vec", parity_inflate := true } [0, 1] deviceDoubleWorld).2 :=
  ((staged_on_host { filename := "vec", parity_inflate := true } deviceDoubleWorld 0 [1]
    { param := deviceDoubleFull, v := 0 } rfl (by decide) (by decide) (by decide)).2.2.1
    (by decide)).1

theorem saveRelease_parity {w : World} {v : Nat} {vs : List Nat} {f0 : ColorSpinorField}
    (tmp : List Nat) (hf : w.field v = some f0)
    (hs : f0.param.siteSubset = QudaSiteSubset.QUDA_PARITY_SITE_SUBSET) :
    saveRelease (v :: vs) tmp w = deleteLoop tmp w := by
  unfold VectorIO.saveRelease
  rw [head_ok hf, if_pos]
  by_cases hdev : f0.param.location = QudaFieldLocation.QUDA_CUDA_FIELD_LOCATION
  · exact Or.inl hdev
  · exact Or.inr ⟨location_cpu hdev, hs⟩

/-- C9, as stated, fails: `save` with parity-inflate set on two host-resident
single-parity 3-d fields with suggested parity even, each holding as many reals as
its attributes say, stages the inflated fields and then aborts with the "Unexpected
field dimension" error: the external writer is not called and is handed nothing. -/
theorem save_inflates_single_parity_counterexample :
    hostParityEven3dWorld.field 0 = some { param := hostParityEven3d, v := 0 } ∧
    hostParityEven3dWorld.field 1 = some { param := hostParityEven3d, v := 64 } ∧
    hostParityEven3d.siteSubset = QudaSiteSubset.QUDA_PARITY_SITE_SUBSET ∧
    hostParityEven3d.suggested_parity = QudaParity.QUDA_EVEN_PARITY ∧
    hostParityEven3d.nDim = 3 ∧
    (∀ h ∈ [0, 1], storageOk hostParityEven3dWorld hostParityEven3d.Length h = true) ∧
    (save true { filename := "vec", parity_inflate := true } [0, 1]
      hostParityEven3dWorld).1 = Except.error (QudaError.unexpectedDim 3) ∧
    (save true { filename := "vec", parity_inflate := true } [0, 1]
      hostParityEven3dWorld).2.calls = [] :=
  ⟨rfl, rfl, rfl, rfl, rfl, by decide, rfl, rfl⟩

/-- C9 (amended): for a non-empty single-parity collection of live 4- or 5-dimensional
fields (non-zero fifth extent) with suggested parity even or odd, host- or
device-resident, whose members each hold as many reals as member 0, `save` with
parity-inflate set returns, and it calls the external writer with the full site
subset, the extents of member 0 with the first doubled, and, for each member `i`, at
the pointer of staged member `i` (entry `i * Ls` of the pointer array), storage whose
half selected by the suggested parity holds the reals of source member `i` and whose
other half is zero.  The source members and their storage are unchanged. -/
theorem save_inflates_single_parity (vio : VectorIO) (w : World) (v : Nat) (vs : List Nat)
    (f0 : ColorSpinorField) (hi : vio.parity_inflate = true) (hf : w.field v = some f0)
    (hs : f0.param.siteSubset = QudaSiteSubset.QUDA_PARITY_SITE_SUBSET)
    (hpar : f0.param.suggested_parity ≠ QudaParity.QUDA_INVALID_PARITY)
    (hd : f0.param.nDim = 4 ∨ f0.param.nDim = 5)
    (hLs : f0.param.nDim = 5 → f0.param.X 4 ≠ 0)
    (hsrc : ∀ h ∈ v :: vs, storageOk w f0.param.Length h = true) :
    ∃ c, (save true vio (v :: vs) w).1 = Except.ok () ∧
      (save true vio (v :: vs) w).2.calls = c :: w.calls ∧
      c.routine = QioRoutine.write_spinor_field ∧
      c.siteSubset = QudaSiteSubset.QUDA_FULL_SITE_SUBSET ∧
      c.X = doubleX0 f0.param.x ∧
      (∀ i, i < (v :: vs).length →
        memGet c.mem (c.V.getD (i * (if f0.param.nDim = 5 then f0.param.X 4 else 1)) 0) =
          inflated f0.param.suggested_parity f0.param.Length (w.data ((v :: vs).getD i 0))) ∧
      ∀ h ∈ v :: vs, (save true vio (v :: vs) w).2.field h = w.field h ∧
        (save true vio (v :: vs) w).2.data h = w.data h := by
  have hsrc1 : ∀ h ∈ v :: vs, SrcOk w f0.param.Length w.brk h := fun h hh =>
    storageOk_srcOk (hsrc h hh)
  have hl : ∀ h ∈ vs, w.field h ≠ none := by
    intro h hh
    obtain ⟨f, hfh, _⟩ := hsrc1 h (List.mem_cons_of_mem _ hh)
    rw [hfh]; simp
  obtain ⟨t0h, rest, t0, w1, V, hrun, hlen, hg, ht0, hp, _, hV, hbody, hcalls⟩ :=
    saveBody_call vio QioRoutine.write_spinor_field hf hl hd hLs (fun h => hpar h.2.2)
  obtain ⟨base, w1b, hrunb, hbase, _, hkeep, hcont⟩ :=
    saveStage_inflated vio hi hf hs hpar hd hsrc1
  have heq := hrun.symm.trans hrunb
  simp only [Prod.mk.injEq, Except.ok.injEq] at heq
  obtain ⟨htmp, hw⟩ := heq
  subst hw
  have hX4 : t0.param.X 4 = f0.param.X 4 := by
    rw [← ofField_X, hp, stagedParam_X4]
  rw [hX4] at hV hbody hcalls
  have hLs0 : 0 < (if f0.param.nDim = 5 then f0.param.X 4 else 1) := by
    split
    · rename_i h5; exact Nat.pos_of_ne_zero (hLs h5)
    · exact Nat.one_pos
  have hget : ∀ i, i < (v :: vs).length → (t0h :: rest).getD i 0 = base + i := by
    intro i hi2
    rw [htmp, List.getD_eq_getElem _ _ (by simpa using hi2), List.getElem_range']
    simp
  have hf2 : ∀ c, (w1.transfer c).field v = some f0 := fun c => by
    rw [transfer_field]; exact hg _ _ hf
  have hfinal : save true vio (v :: vs) w = deleteLoop (t0h :: rest) (w1.transfer
      (flatCall vio QioRoutine.write_spinor_field f0.param.suggested_parity t0
        (v :: vs).length (if f0.param.nDim = 5 then f0.param.X 4 else 1) V w1.mem)) := by
    show saveBody vio QioRoutine.write_spinor_field (v :: vs) w = _
    rw [hbody, saveRelease_parity _ (hf2 _) hs]
  refine ⟨_, ?_, hcalls, rfl, ?_, ?_, ?_, ?_⟩
  · rw [hfinal]
    refine deleteLoop_ok _ _ (by rw [htmp]; exact List.nodup_range' _ _) fun t ht => ?_
    rw [htmp, List.mem_range'_1] at ht
    obtain ⟨a, p, hfa, _⟩ := hcont (t - base) (by omega)
    rw [transfer_field, show t = base + (t - base) by omega, hfa]
    simp
  · exact (congrArg ColorSpinorParam.siteSubset hp).trans (stagedParam_full vio f0 hi)
  · exact (congrArg ColorSpinorParam.x hp).trans (stagedParam_x vio f0 hs hi)
  · intro i hi2
    obtain ⟨f, hfi, hvi⟩ := hV.2 i (by rw [hlen]; exact hi2) 0 hLs0
    obtain ⟨a, p, hfa, hma⟩ := hcont i hi2
    rw [hget i hi2, hfa] at hfi
    have hfv : f.v = a := by rw [← Option.some.inj hfi]
    show memGet w1.mem (V.getD _ 0) = _
    rw [List.getD_eq_getElem?_getD]
    simp only [Nat.add_zero, Nat.zero_mul] at hvi
    rw [hvi, hfv]
    exact hma
  · intro h hh
    obtain ⟨f, hfh, _, hfv, _⟩ := hsrc1 h hh
    have hnot : h ∉ t0h :: rest := by
      rw [htmp, List.mem_range'_1]
      have := field_some_lt hfh
      omega
    obtain ⟨hmem, hfld⟩ := deleteLoop_frame (t0h :: rest) (w1.transfer
      (flatCall vio QioRoutine.write_spinor_field f0.param.suggested_parity t0
        (v :: vs).length (if f0.param.nDim = 5 then f0.param.X 4 else 1) V w1.mem))
    have h1 : (save true vio (v :: vs) w).2.field h = w.field h := by
      rw [hfinal, hfld h hnot, transfer_field, hfh]
      exact hg _ _ hfh
    refine ⟨h1, ?_⟩
    simp only [World.data, h1, hfh]
    rw [hfinal, hmem, transfer_mem_write w1 (flatCall vio QioRoutine.write_spinor_field
      f0.param.suggested_parity t0 (v :: vs).length
      (if f0.param.nDim = 5 then f0.param.X 4 else 1) V w1.mem) rfl]
    exact hkeep _ hfv

/-- C9 (amended), at two host-resident single-parity even 4-d fields. -/
theorem save_inflates_single_parity_witness :
    ∃ c, (save true { filename := "vec", parity_inflate := true } [0, 1] hostParityWorld).1
        = Except.ok () ∧
      (save true { filename := "vec", parity_inflate := true } [0, 1] hostParityWorld).2.calls
        = c :: hostParityWorld.calls ∧
      c.routine = QioRoutine.write_spinor_field ∧
      c.siteSubset = QudaSiteSubset.QUDA_FULL_SITE_SUBSET ∧
      c.X = doubleX0 hostParityEven.x ∧
      (∀ i, i < [0, 1].length →
        memGet c.mem (c.V.getD (i * (if hostParityEven.nDim = 5 then hostParityEven.X 4 else 1)) 0) =
          inflated hostParityEven.suggested_parity hostParityEven.Length
            (hostParityWorld.data ([0, 1].getD i 0))) ∧
      ∀ h ∈ [0, 1],
        (save true { filename := "vec", parity_inflate := true } [0, 1]
          hostParityWorld).2.field h = hostParityWorld.field h ∧
        (save true { filename := "vec", parity_inflate := true } [0, 1]
          hostParityWorld).2.data h = hostParityWorld.data h :=
  save_inflates_single_parity { filename := "vec", parity_inflate := true } hostParityWorld 0 [1]
    { param := hostParityEven, v := 0 } rfl rfl rfl (by decide) (by decide) (by decide)
    (by decide)

/-- C1, the code at the failing input: `save` without parity-inflate on two
host-resident single-parity fields supplied by the caller (handles 0 and 1) returns,
and it has released both handles of the caller.  With parity-inflate set, the same
call releases the two staging fields it allocated (handles 2 and 3) and leaves the
caller's fields live. -/
theorem save_releases_caller_handles :
    hostParityWorld.field 0 = some { param := hostParityEven, v := 0 } ∧
    hostParityWorld.field 1 = some { param := hostParityEven, v := 64 } ∧
    hostParityWorld.released = [] ∧
    (save true { filename := "vec", parity_inflate := false } [0, 1] hostParityWorld).1
      = Except.ok () ∧
    (save true { filename := "vec", parity_inflate := false } [0, 1]
      hostParityWorld).2.released = [1, 0] ∧
    (save true { filename := "vec", parity_inflate := false } [0, 1]
      hostParityWorld).2.field 0 = none ∧
    (save true { filename := "vec", parity_inflate := false } [0, 1]
      hostParityWorld).2.field 1 = none ∧
    (save true { filename := "vec", parity_inflate := true } [0, 1]
      hostParityWorld).2.released = [3, 2] ∧
    (save true { filename := "vec", parity_inflate := true } [0, 1]
      hostParityWorld).2.field 0 = hostParityWorld.field 0 ∧
    (save true { filename := "vec", parity_inflate := true } [0, 1]
      hostParityWorld).2.field 1 = hostParityWorld.field 1 :=
  ⟨rfl, rfl, rfl, rfl, rfl, rfl, rfl, rfl, rfl, rfl⟩

/-- C2, the code at the failing input: `save` without parity-inflate of the
host-resident single-parity field of handle 0 (reals 5 and 7) returns and has
released that field; `load` of the same file into the field of handle 1, of the same
attributes, aborts at the parity sub-view of a single-parity field.  With
parity-inflate set, the same round trip returns and leaves the reals 5 and 7 in the
field of handle 1. -/
theorem save_load_round_trip_host_parity :
    hostParityWorld.data 0 = [5, 7] ∧
    (save true { filename := "vec", parity_inflate := false } [0] hostParityWorld).1
      = Except.ok () ∧
    (save true { filename := "vec", parity_inflate := false } [0] hostParityWorld).2.field 0
      = none ∧
    (load true { filename := "vec", parity_inflate := false } [1]
      (save true { filename := "vec", parity_inflate := false } [0] hostParityWorld).2).1
      = Except.error QudaError.noParityView ∧
    (load true { filename := "vec", parity_inflate := true } [1]
      (save true { filename := "vec", parity_inflate := true } [0] hostParityWorld).2).1
      = Except.ok () ∧
    (load true { filename := "vec", parity_inflate := true } [1]
      (save true { filename := "vec", parity_inflate := true } [0] hostParityWorld).2).2.data 1
      = [5, 7] :=
  ⟨rfl, rfl, rfl, rfl, rfl, rfl⟩

end quda
